import Mathlib

/-!
Heater controller of the touch-screen firmware.

A shallow embedding of `TFT/src/User/API/Temperature.c`.

The C globals (`heater`, `heat_update_seconds`, `heat_next_update_time`,
`heat_update_waiting`, `heat_send_waiting`, `heat_feedback_waiting`) become the
fields of `State`, passed explicitly.  The two observable outputs of the file,
the commands handed to `storeCmd` and the sounds handed to `BUZZER_PLAY`, are
appended to two logs kept in the same record, so that "nothing is submitted"
is an equation on the state.

Constants, macros and types that come from headers are parameters
(`Layout`, `Settings`) or small definitions marked as modelled.
-/

namespace Temperature

/-! ## Types from the headers -/

/-- Modelled from the spec: the status enumeration of a heater
(`Heating`, `Cooling`, `Settled`); its C declaration is in `Temperature.h`. -/
inductive HEATER_STATUS where
  | SETTLED
  | HEATING
  | COOLING
  deriving DecidableEq, Repr

/-- Modelled from the spec: the three origins of a target write (remote echo,
local UI, scripted command); the C enumeration is in `Temperature.h`. -/
inductive TEMP_SOURCE where
  | FROM_HOST
  | FROM_GUI
  | FROM_CMD
  deriving DecidableEq, Repr

/-- Modelled from the spec: the two completion events handed to the audible
feedback (`SOUND_HEATED`, `SOUND_COOLED`). -/
inductive SOUND where
  | SOUND_HEATED
  | SOUND_COOLED
  deriving DecidableEq, Repr

/-- The three command shapes `Temperature.c` formats for `storeCmd`:
`"M105\n"`, `"M155 S%u\n"` and `"%s S%u\n"` with `heatCmd[i]`.  The heater
command keeps the slot `i` whose `heatCmd[i]` string it uses and the printed
value. -/
inductive Cmd where
  | M105
  | M155 (seconds : Nat)
  | heat (slot : Nat) (target : Nat)
  deriving DecidableEq, Repr

/-- One entry of `heater.T` (`_HEATER`): `int16_t current, target`,
`bool waiting`, the status. -/
structure HEATER_T where
  current : Int
  target : Int
  waiting : Bool
  status : HEATER_STATUS
  deriving DecidableEq, Repr

/-- Compile-time constants of `Temperature.h` that `Temperature.c` uses and
that are not under `src/`: the heater index enumeration, the dead-band width
and the two polling intervals. -/
structure Layout where
  BED : Nat
  CHAMBER : Nat
  MAX_HEATER_COUNT : Nat
  INVALID_HEATER : Nat
  TEMPERATURE_RANGE : Nat
  TEMPERATURE_QUERY_FAST_SECONDS : Nat
  TEMPERATURE_QUERY_SLOW_SECONDS : Nat

/-- Modelled from the spec: `NOZZLE0`, the first member of the heater index
enumeration, is slot 0 (the spec's index fixup property identifies the shared
nozzle with `setTarget(0, ..)`). -/
def NOZZLE0 : Nat := 0

/-- The fields of `infoSettings` and `infoMachineSettings` read by
`Temperature.c` (read-only configuration). -/
structure Settings where
  bed_en : Bool
  chamber_en : Bool
  hotend_count : Nat
  ext_count : Nat
  max_temp : Nat → Nat
  autoReportTemp : Bool

/-- The file-level variables of `Temperature.c`, followed by the two output
logs: `sent` records every `storeCmd` call with the answer it got, `played`
every `BUZZER_PLAY`. -/
structure State where
  T : Nat → HEATER_T
  toolIndex : Nat
  heat_update_seconds : Nat
  heat_next_update_time : Nat
  heat_update_waiting : Bool
  heat_send_waiting : Nat
  heat_feedback_waiting : Nat
  sent : List (Cmd × Bool)
  played : List SOUND

/-- What one `loopCheckHeater` call reads from its collaborators: the clock
(`OS_GetTimeMs()`, taken as one reading for the whole call),
`requestCommandInfoIsRunning()` and `MENU_IS_NOT(menuHeat)`. -/
structure Tick where
  now : Nat
  requestCommandInfoIsRunning : Bool
  menuIsNotHeat : Bool

/-! ## Macros from the headers -/

/-- Modelled from the spec: `GET_BIT(num, index)`, the test of one flag of a
bit-flag vector, `(num >> index) & 1`. -/
def GET_BIT (num index : Nat) : Bool := ((num >>> index) &&& 1) != 0

/-- Modelled from the spec: `SET_BIT_ON(num, index)`, `num |= (1 << index)`
stored back into a `uint8_t`. -/
def SET_BIT_ON (num index : Nat) : Nat := (num ||| (1 <<< index)) % 256

/-- Modelled from the spec: `SET_BIT_OFF(num, index)`, `num &= ~(1 << index)`
stored back into a `uint8_t`. -/
def SET_BIT_OFF (num index : Nat) : Nat := (num &&& (255 ^^^ (1 <<< index))) % 256

/-- Modelled from the spec: `NOBEYOND(min, v, max)`, the clamp
`MAX(min, MIN(v, max))`. -/
def NOBEYOND (lo v hi : Int) : Int := max lo (min v hi)

/-- Modelled from the spec: `inRange(cur, tar, range)`, the symmetric
dead-band test `cur <= tar + range && cur >= tar - range`. -/
def inRange (cur tar range : Int) : Bool := decide (cur ≤ tar + range) && decide (cur ≥ tar - range)

/-- Modelled from the spec: `SEC_TO_MS(t)`, seconds to milliseconds. -/
def SEC_TO_MS (t : Nat) : Nat := t * 1000

/-- Modelled from the spec: the Command Channel's `submit`, `storeCmd` in the
code; it answers whether the command was accepted.  The channel `ch` gives the
answer to the k-th submission; the attempt and its answer are logged. -/
def storeCmd (ch : Nat → Bool) (c : Cmd) (s : State) : Bool × State :=
  (ch s.sent.length, { s with sent := s.sent ++ [(c, ch s.sent.length)] })

/-- The `BUZZER_PLAY(sound)` call: the sound is logged. -/
def BUZZER_PLAY (snd : SOUND) (s : State) : State :=
  { s with played := s.played ++ [snd] }

/-! ## Temperature.c -/

/-- Source: `heaterIndexFix`, lines 22-37. -/
def heaterIndexFix (L : Layout) (cfg : Settings) (index : Nat) : Nat :=
  if index = L.BED ∧ cfg.bed_en = true then index
  else if index = L.CHAMBER ∧ cfg.chamber_en = true then index
  else if index < cfg.hotend_count then index
  else if index < cfg.ext_count ∧ cfg.hotend_count = 1 then NOZZLE0
  else L.INVALID_HEATER

/-- Assignment to one field group of `heater.T[index]`. -/
def setT (s : State) (index : Nat) (h : HEATER_T) : State :=
  { s with T := Function.update s.T index h }

/-- Source: `heatSetTargetTemp`, lines 39-73. -/
def heatSetTargetTemp (L : Layout) (cfg : Settings) (index : Nat) (temp : Int)
    (tempSource : TEMP_SOURCE) (s : State) : State :=
  let index := heaterIndexFix L cfg index
  if index = L.INVALID_HEATER then s
  else
    match tempSource with
    | TEMP_SOURCE.FROM_HOST =>
      if GET_BIT s.heat_feedback_waiting index then
        { s with heat_feedback_waiting := SET_BIT_OFF s.heat_feedback_waiting index }
      else if !GET_BIT s.heat_send_waiting index then
        setT s index { s.T index with target := temp }
      else s
    | TEMP_SOURCE.FROM_GUI =>
      let s1 := setT s index { s.T index with target := NOBEYOND 0 temp (cfg.max_temp index) }
      let s2 := { s1 with heat_send_waiting := SET_BIT_ON s1.heat_send_waiting index }
      if inRange (s2.T index).current (s2.T index).target L.TEMPERATURE_RANGE then
        setT s2 index { s2.T index with status := HEATER_STATUS.SETTLED }
      else
        setT s2 index { s2.T index with
          status := if (s2.T index).target > (s2.T index).current
                    then HEATER_STATUS.HEATING else HEATER_STATUS.COOLING }
    | TEMP_SOURCE.FROM_CMD =>
      if GET_BIT s.heat_feedback_waiting index = false then
        let s1 := setT s index { s.T index with target := temp }
        { s1 with heat_feedback_waiting := SET_BIT_ON s1.heat_feedback_waiting index }
      else s

/-- Source: `heatGetTargetTemp`, lines 75-83; the `int16_t` target is returned
as `uint16_t`. -/
def heatGetTargetTemp (L : Layout) (cfg : Settings) (index : Nat) (s : State) : Nat :=
  let index := heaterIndexFix L cfg index
  if index = L.INVALID_HEATER then 0
  else ((s.T index).target % 65536).toNat

/-- Source: `heatSetNextUpdateTime`, lines 218-221; a `uint32_t` sum. -/
def heatSetNextUpdateTime (now : Nat) (s : State) : State :=
  { s with heat_next_update_time := (now + SEC_TO_MS s.heat_update_seconds) % 4294967296 }

/-- Source: `heatSetCurrentTemp`, lines 85-96. -/
def heatSetCurrentTemp (L : Layout) (cfg : Settings) (now : Nat) (index : Nat) (temp : Int)
    (s : State) : State :=
  let index := heaterIndexFix L cfg index
  if index = L.INVALID_HEATER then s
  else
    let s1 := setT s index { s.T index with current := NOBEYOND (-99) temp 999 }
    if cfg.autoReportTemp then heatSetNextUpdateTime now s1 else s1

/-- Source: `heatGetCurrentTemp`, lines 98-106. -/
def heatGetCurrentTemp (L : Layout) (cfg : Settings) (index : Nat) (s : State) : Int :=
  let index := heaterIndexFix L cfg index
  if index = L.INVALID_HEATER then 0
  else (s.T index).current

/-- Source: `heatHasWaiting`, lines 121-130. -/
def heatHasWaiting (L : Layout) (s : State) : Bool :=
  (List.range L.MAX_HEATER_COUNT).any (fun i => (s.T i).waiting)

/-- Source: `heatSetUpdateSeconds`, lines 197-206. -/
def heatSetUpdateSeconds (cfg : Settings) (ch : Nat → Bool) (seconds : Nat) (s : State) : State :=
  if s.heat_update_seconds = seconds then s
  else
    let s1 := { s with heat_update_seconds := seconds }
    if cfg.autoReportTemp && !s1.heat_update_waiting then
      let r := storeCmd ch (Cmd.M155 s1.heat_update_seconds) s1
      { r.2 with heat_update_waiting := r.1 }
    else s1

/-- Source: `heatSetIsWaiting`, lines 132-145. -/
def heatSetIsWaiting (L : Layout) (cfg : Settings) (ch : Nat → Bool) (index : Nat)
    (isWaiting : Bool) (s : State) : State :=
  let index := heaterIndexFix L cfg index
  if index = L.INVALID_HEATER then s
  else
    let s1 := setT s index { s.T index with waiting := isWaiting }
    if isWaiting = true then
      heatSetUpdateSeconds cfg ch L.TEMPERATURE_QUERY_FAST_SECONDS s1
    else if heatHasWaiting L s1 = false then
      heatSetUpdateSeconds cfg ch L.TEMPERATURE_QUERY_SLOW_SECONDS s1
    else s1

/-- Source: the `AUTOREPORT_TIMEOUT` macro, line 19; a `uint32_t` sum. -/
def AUTOREPORT_TIMEOUT (s : State) : Nat := (s.heat_next_update_time + 3000) % 4294967296

/-- Source: `loopCheckHeater`, lines 232-263: the explicit poll (`M105`) when
the board has no auto-report, the auto-report watchdog (`M155`) otherwise. -/
def loopCheckHeater_poll (cfg : Settings) (ch : Nat → Bool) (tk : Tick) (s : State) : State :=
  if !cfg.autoReportTemp then
    if tk.now < s.heat_next_update_time ∨ tk.requestCommandInfoIsRunning = true then s
    else if s.heat_update_waiting then heatSetNextUpdateTime tk.now s
    else
      let r := storeCmd ch Cmd.M105 s
      let s1 := { r.2 with heat_update_waiting := r.1 }
      if s1.heat_update_waiting then heatSetNextUpdateTime tk.now s1 else s1
  else
    if tk.now ≥ AUTOREPORT_TIMEOUT s ∧ s.heat_update_waiting = false then
      let r := storeCmd ch (Cmd.M155 s.heat_update_seconds) s
      let s1 := { r.2 with heat_update_waiting := r.1 }
      if s1.heat_update_waiting then heatSetNextUpdateTime tk.now s1 else s1
    else s

/-- Source: `loopCheckHeater`, lines 267-268: the wait flag of slot `i` is
cleared inside the dead-band. -/
def loopCheckHeater_wait (L : Layout) (i : Nat) (s : State) : State :=
  if (s.T i).waiting && inRange (s.T i).current (s.T i).target L.TEMPERATURE_RANGE then
    setT s i { s.T i with waiting := false }
  else s

/-- Source: `loopCheckHeater`, lines 270-287: the completion event of slot `i`. -/
def loopCheckHeater_settle (L : Layout) (i : Nat) (s : State) : State :=
  if (s.T i).status != HEATER_STATUS.SETTLED
      && inRange (s.T i).current (s.T i).target L.TEMPERATURE_RANGE then
    let s1 :=
      match (s.T i).status with
      | HEATER_STATUS.HEATING => BUZZER_PLAY SOUND.SOUND_HEATED s
      | HEATER_STATUS.COOLING => BUZZER_PLAY SOUND.SOUND_COOLED s
      | _ => s
    setT s1 i { s1.T i with status := HEATER_STATUS.SETTLED }
  else s

/-- Source: `loopCheckHeater`, lines 289-296: the pending-send flush of slot `i`. -/
def loopCheckHeater_flush (L : Layout) (cfg : Settings) (ch : Nat → Bool) (i : Nat)
    (s : State) : State :=
  if GET_BIT s.heat_send_waiting i && !GET_BIT s.heat_feedback_waiting i then
    let r := storeCmd ch (Cmd.heat i (heatGetTargetTemp L cfg i s)) s
    if r.1 then
      { r.2 with
        heat_send_waiting := SET_BIT_OFF r.2.heat_send_waiting i
        heat_feedback_waiting := SET_BIT_ON r.2.heat_feedback_waiting i }
    else r.2
  else s

/-- Source: `loopCheckHeater`, lines 265-297: the body of the `for` loop for
slot `i`. -/
def loopCheckHeater_slot (L : Layout) (cfg : Settings) (ch : Nat → Bool) (i : Nat)
    (s : State) : State :=
  loopCheckHeater_flush L cfg ch i (loopCheckHeater_settle L i (loopCheckHeater_wait L i s))

/-- The `for` loop of `loopCheckHeater` over a list of slots. -/
def loopCheckHeater_slots (L : Layout) (cfg : Settings) (ch : Nat → Bool) (slots : List Nat)
    (s : State) : State :=
  slots.foldl (fun st i => loopCheckHeater_slot L cfg ch i st) s

/-- Source: `loopCheckHeater`, lines 299-300: polling is relaxed to the slow
interval when the heat menu is not shown and no heater is waiting. -/
def loopCheckHeater_relax (L : Layout) (cfg : Settings) (ch : Nat → Bool) (tk : Tick)
    (s : State) : State :=
  if tk.menuIsNotHeat && !heatHasWaiting L s then
    heatSetUpdateSeconds cfg ch L.TEMPERATURE_QUERY_SLOW_SECONDS s
  else s

/-- Source: `loopCheckHeater`, lines 228-301. -/
def loopCheckHeater (L : Layout) (cfg : Settings) (ch : Nat → Bool) (tk : Tick)
    (s : State) : State :=
  loopCheckHeater_relax L cfg ch tk
    (loopCheckHeater_slots L cfg ch (List.range L.MAX_HEATER_COUNT)
      (loopCheckHeater_poll cfg ch tk s))

/-- A run of `loopCheckHeater` calls, one per element of `tks`, with nothing
else touching the state in between. -/
def runTicks (L : Layout) (cfg : Settings) (ch : Nat → Bool) (tks : List Tick)
    (s : State) : State :=
  tks.foldl (fun st tk => loopCheckHeater L cfg ch tk st) s

/-- The submissions logged after the first `n` ones. -/
def sentSince (n : Nat) (s : State) : List (Cmd × Bool) := s.sent.drop n

/-- Is this log entry a target command for slot `r`? -/
def isHeatFor (r : Nat) (e : Cmd × Bool) : Bool :=
  match e.1 with
  | Cmd.heat i _ => decide (i = r)
  | _ => false

/-- Is this log entry an `M155` submission? -/
def isM155 (e : Cmd × Bool) : Bool :=
  match e.1 with
  | Cmd.M155 _ => true
  | _ => false

/-- Is this log entry an `M105` submission? -/
def isM105 (e : Cmd × Bool) : Bool :=
  match e.1 with
  | Cmd.M105 => true
  | _ => false

/-- Source: `heatGetIsWaiting`, lines 116-119; the index is used as given. -/
def heatGetIsWaiting (index : Nat) (s : State) : Bool :=
  (s.T index).waiting == true

/-- The sounds the completion rule (lines 270-287) plays for a slot holding `h`. -/
def slotEvent (L : Layout) (h : HEATER_T) : List SOUND :=
  if h.status != HEATER_STATUS.SETTLED && inRange h.current h.target L.TEMPERATURE_RANGE then
    match h.status with
    | HEATER_STATUS.HEATING => [SOUND.SOUND_HEATED]
    | HEATER_STATUS.COOLING => [SOUND.SOUND_COOLED]
    | _ => []
  else []

/-- The sounds of the slots of `l`, in order, for the heater table `T`. -/
def slotEvents (L : Layout) (T : Nat → HEATER_T) (l : List Nat) : List SOUND :=
  match l with
  | [] => []
  | i :: l => slotEvent L (T i) ++ slotEvents L T l

/-- Slot `r` has a UI write waiting to be transmitted and no echo awaited:
the condition of the flush at line 289. -/
def Pending (r : Nat) (s : State) : Prop :=
  GET_BIT s.heat_send_waiting r = true ∧ GET_BIT s.heat_feedback_waiting r = false

/-- Slot `r` has nothing to transmit and awaits the echo of its last command. -/
def Flushed (r : Nat) (s : State) : Prop :=
  GET_BIT s.heat_send_waiting r = false ∧ GET_BIT s.heat_feedback_waiting r = true

/-- Is this log entry an accepted target command for slot `r`? -/
def isAcceptedHeatFor (r : Nat) (e : Cmd × Bool) : Bool := isHeatFor r e && e.2

/-- The status the completion rule (lines 270-287) leaves in a slot. -/
def settledStatus (L : Layout) (h : HEATER_T) : HEATER_STATUS :=
  if h.status != HEATER_STATUS.SETTLED && inRange h.current h.target L.TEMPERATURE_RANGE
  then HEATER_STATUS.SETTLED else h.status

/-! ## Concrete inputs -/

/-- A heater index enumeration with six nozzle slots, bed and chamber. -/
def exLayout : Layout :=
  { BED := 6, CHAMBER := 7, MAX_HEATER_COUNT := 8, INVALID_HEATER := 8,
    TEMPERATURE_RANGE := 2, TEMPERATURE_QUERY_FAST_SECONDS := 1,
    TEMPERATURE_QUERY_SLOW_SECONDS := 3 }

/-- One hotend shared by three extruders, bed enabled, chamber disabled,
explicit polling. -/
def exSettings : Settings :=
  { bed_en := true, chamber_en := false, hotend_count := 1, ext_count := 3,
    max_temp := fun _ => 275, autoReportTemp := false }

/-- The same machine with temperature auto-report. -/
def exSettingsAuto : Settings := { exSettings with autoReportTemp := true }

/-- All heaters at 25 degrees with target 0, nothing pending. -/
def exState : State :=
  { T := fun _ => { current := 25, target := 0, waiting := false, status := HEATER_STATUS.SETTLED },
    toolIndex := 0, heat_update_seconds := 3, heat_next_update_time := 0,
    heat_update_waiting := false, heat_send_waiting := 0, heat_feedback_waiting := 0,
    sent := [], played := [] }

/-- The state `exState` with the echo flag of the nozzle raised. -/
def exStateEcho : State := { exState with heat_feedback_waiting := 1 }

/-- The state `exState` with the send flag of the nozzle raised. -/
def exStateSend : State := { exState with heat_send_waiting := 1 }

/-- Two ticks, one second apart, outside the heat menu. -/
def exTicks : List Tick :=
  [{ now := 5000, requestCommandInfoIsRunning := false, menuIsNotHeat := true },
   { now := 6000, requestCommandInfoIsRunning := false, menuIsNotHeat := true }]

/-- A channel that accepts every submission. -/
def exAccept : Nat → Bool := fun _ => true

/-- A channel that rejects every submission. -/
def exReject : Nat → Bool := fun _ => false

/-- A channel that rejects the first submission and accepts the later ones. -/
def exRejectOnce : Nat → Bool := fun k => decide (1 ≤ k)

/-- The state `exState` polled at the fast interval. -/
def exStateFast : State := { exState with heat_update_seconds := 1 }

/-- The nozzle of `exState` heating towards 100 degrees. -/
def exStateHeating : State :=
  { exState with
    T := fun _ => { current := 25, target := 100, waiting := false,
                    status := HEATER_STATUS.HEATING } }

/-- One tick at five seconds, outside the heat menu. -/
def exTick : Tick := { now := 5000, requestCommandInfoIsRunning := false, menuIsNotHeat := true }

/-- The state `exState` with an `M155` outstanding. -/
def exStateOutstanding : State := { exState with heat_update_waiting := true }

/-- The state reached from `exState` by a UI write of 200 degrees for the
nozzle, a scripted write of -5 degrees and the remote echo of that write: the
nozzle stores the target -5 with its send bit set and its echo bit clear. -/
def exStateNegative : State :=
  heatSetTargetTemp exLayout exSettings 0 (-5) TEMP_SOURCE.FROM_HOST
    (heatSetTargetTemp exLayout exSettings 0 (-5) TEMP_SOURCE.FROM_CMD
      (heatSetTargetTemp exLayout exSettings 0 200 TEMP_SOURCE.FROM_GUI exState))

/-- The nozzle one degree below its target of 100 while HEATING, awaited; the
other heaters idle. -/
def exStateReached : State :=
  { exState with
    T := fun k =>
      if k = 0 then { current := 99, target := 100, waiting := true,
                      status := HEATER_STATUS.HEATING }
      else { current := 25, target := 0, waiting := false, status := HEATER_STATUS.SETTLED } }

end Temperature

/-!
Fan synchroniser of the touch-screen firmware.

A shallow embedding of `TFT/src/User/API/FanControl.c`.  The statics
`setFanSpeed`, `curFanSpeed`, `needSetFanSpeed` and the `nextUpdateTime` of
`loopFan` are the fields of `FanState`; the `storeCmd` calls are logged as in
the heater controller.
-/

namespace FanControl

/-- The command `loopFan` formats: `fanCmd[fan]` with the speed. -/
structure FanCmd where
  fan : Nat
  speed : Nat
  deriving DecidableEq, Repr

/-- Compile-time constants of the headers used by `FanControl.c`. -/
structure FanLayout where
  MAX_FAN_COUNT : Nat
  MAX_COOLING_FAN_COUNT : Nat
  MAX_CTRL_FAN_COUNT : Nat

/-- The fields of `infoSettings` read by `FanControl.c`. -/
structure FanSettings where
  fan_count : Nat
  ctrl_fan_en : Bool
  fan_max : Nat → Nat

/-- The statics of `FanControl.c` used by the speed functions and `loopFan`,
followed by the log of the `storeCmd` calls with their answers. -/
structure FanState where
  setFanSpeed : Nat → Nat
  curFanSpeed : Nat → Nat
  needSetFanSpeed : Nat
  nextUpdateTime : Nat
  sent : List (FanCmd × Bool)

/-- Source: `FAN_REFRESH_TIME`, line 4. -/
def FAN_REFRESH_TIME : Nat := 500

/-- Modelled from the spec: `SET_BIT_VALUE(num, index, value)`, the write of
one flag of a bit-flag vector, `(num & ~(1 << index)) | (value << index)`
stored back into a `uint8_t`. -/
def SET_BIT_VALUE (num index : Nat) (value : Bool) : Nat :=
  ((num &&& (255 ^^^ (1 <<< index))) ||| ((if value then 1 else 0) <<< index)) % 256

/-- Modelled from the spec: the Command Channel's `submit`, `storeCmd` in the
code, answering the k-th submission with `ch k`. -/
def storeCmd (ch : Nat → Bool) (c : FanCmd) (s : FanState) : Bool × FanState :=
  (ch s.sent.length, { s with sent := s.sent ++ [(c, ch s.sent.length)] })

/-! ## Single precision -/

/-- A non-negative `float` value, as a fraction. -/
structure F32 where
  num : Nat
  den : Nat
  deriving DecidableEq, Repr

/-- Nearest integer to `num / den`, ties to even. -/
def roundHalfEven (num den : Nat) : Nat :=
  if 2 * (num % den) < den then num / den
  else if den < 2 * (num % den) then num / den + 1
  else if (num / den) % 2 = 0 then num / den
  else num / den + 1

/-- The least `k` from `k` on, within the fuel, with `2^23 * den <= num * 2^k`. -/
def f32scaleUp : Nat → Nat → Nat → Nat → Nat
  | 0, _, _, k => k
  | fuel + 1, num, den, k =>
    if 8388608 * den ≤ num * 2 ^ k then k else f32scaleUp fuel num den (k + 1)

/-- The least `k` from `k` on, within the fuel, with `num < 2^24 * den * 2^k`. -/
def f32scaleDown : Nat → Nat → Nat → Nat → Nat
  | 0, _, _, k => k
  | fuel + 1, num, den, k =>
    if num < 16777216 * den * 2 ^ k then k else f32scaleDown fuel num den (k + 1)

/-- Rounding of the exact value `num / den` to `float`: 24 significant bits,
round to nearest, ties to even.  The exponent range is not modelled (the
values of `FanControl.c` lie between 2^-8 and 2^15), and a zero denominator,
which the configuration excludes, gives 0. -/
def f32round (num den : Nat) : F32 :=
  if num = 0 ∨ den = 0 then { num := 0, den := 1 }
  else if num < 16777216 * den then
    { num := roundHalfEven (num * 2 ^ f32scaleUp 200 num den 0) den,
      den := 2 ^ f32scaleUp 200 num den 0 }
  else
    { num := roundHalfEven num (den * 2 ^ f32scaleDown 200 num den 0)
              * 2 ^ f32scaleDown 200 num den 0,
      den := 1 }

/-- Conversion of an unsigned integer to `float`. -/
def f32ofNat (n : Nat) : F32 := f32round n 1

/-- The `float` product. -/
def f32mul (x y : F32) : F32 := f32round (x.num * y.num) (x.den * y.den)

/-- The `float` quotient. -/
def f32div (x y : F32) : F32 := f32round (x.num * y.den) (x.den * y.num)

/-- The `float` sum. -/
def f32add (x y : F32) : F32 := f32round (x.num * y.den + y.num * x.den) (x.den * y.den)

/-- The literal `0.5f`. -/
def f32half : F32 := { num := 1, den := 2 }

/-- Conversion of a `float` to `uint8_t`: the integer part. -/
def f32toUint8 (x : F32) : Nat := (x.num / x.den) % 256

/-! ## FanControl.c -/

/-- Source: `fanResetSpeed`, lines 15-20. -/
def fanResetSpeed (s : FanState) : FanState :=
  { s with needSetFanSpeed := 0, setFanSpeed := fun _ => 0, curFanSpeed := fun _ => 0 }

/-- Source: `fanIsValid`, lines 22-32. -/
def fanIsValid (F : FanLayout) (cfg : FanSettings) (index : Nat) : Bool :=
  if index ≥ cfg.fan_count ∧ index < F.MAX_COOLING_FAN_COUNT then false
  else if cfg.ctrl_fan_en = false ∧ index ≥ F.MAX_COOLING_FAN_COUNT then false
  else if index ≥ F.MAX_COOLING_FAN_COUNT + F.MAX_CTRL_FAN_COUNT then false
  else true

/-- Source: `fanGetCurSpeed`, lines 60-63. -/
def fanGetCurSpeed (i : Nat) (s : FanState) : Nat := s.curFanSpeed i

/-- Source: `fanSetSpeed`, lines 34-38. -/
def fanSetSpeed (i speed : Nat) (s : FanState) : FanState :=
  let s1 := { s with
    needSetFanSpeed := SET_BIT_VALUE s.needSetFanSpeed i (fanGetCurSpeed i s != speed) }
  { s1 with setFanSpeed := Function.update s1.setFanSpeed i speed }

/-- Source: `fanGetSetSpeed`, lines 40-43. -/
def fanGetSetSpeed (i : Nat) (s : FanState) : Nat := s.setFanSpeed i

/-- The expression `(NOBEYOND(0, percent, 100) * infoSettings.fan_max[i]) / 100`
of lines 47 and 67, an `int` quotient converted to `uint8_t`. -/
def percentToSpeed (cfg : FanSettings) (i percent : Nat) : Nat :=
  ((Temperature.NOBEYOND 0 percent 100 * (cfg.fan_max i : Int)) / 100 % 256).toNat

/-- Source: `fanSetPercent`, lines 45-48. -/
def fanSetPercent (cfg : FanSettings) (i percent : Nat) (s : FanState) : FanState :=
  fanSetSpeed i (percentToSpeed cfg i percent) s

/-- The expression `(speed * 100.0f) / infoSettings.fan_max[i] + 0.5f` of lines
52 and 72, a `float` converted to `uint8_t`. -/
def speedToPercent (cfg : FanSettings) (i speed : Nat) : Nat :=
  f32toUint8
    (f32add (f32div (f32mul (f32ofNat speed) (f32ofNat 100)) (f32ofNat (cfg.fan_max i)))
      f32half)

/-- Source: `fanGetSetPercent`, lines 50-53. -/
def fanGetSetPercent (cfg : FanSettings) (i : Nat) (s : FanState) : Nat :=
  speedToPercent cfg i (s.setFanSpeed i)

/-- Source: `fanSetCurSpeed`, lines 55-58. -/
def fanSetCurSpeed (i speed : Nat) (s : FanState) : FanState :=
  { s with curFanSpeed := Function.update s.curFanSpeed i speed }

/-- Source: `fanSetCurPercent`, lines 65-68. -/
def fanSetCurPercent (cfg : FanSettings) (i percent : Nat) (s : FanState) : FanState :=
  { s with curFanSpeed := Function.update s.curFanSpeed i (percentToSpeed cfg i percent) }

/-- Source: `fanGetCurPercent`, lines 70-73. -/
def fanGetCurPercent (cfg : FanSettings) (i : Nat) (s : FanState) : Nat :=
  speedToPercent cfg i (s.curFanSpeed i)

/-- Source: `loopFan`, lines 86-90: the body of the `for` loop for fan `i`. -/
def loopFan_fan (ch : Nat → Bool) (i : Nat) (s : FanState) : FanState :=
  if Temperature.GET_BIT s.needSetFanSpeed i then
    let r := storeCmd ch { fan := i, speed := s.setFanSpeed i } s
    if r.1 then
      { r.2 with needSetFanSpeed := Temperature.SET_BIT_OFF r.2.needSetFanSpeed i }
    else r.2
  else s

/-- The `for` loop of `loopFan` over a list of fans. -/
def loopFan_fans (ch : Nat → Bool) (fans : List Nat) (s : FanState) : FanState :=
  fans.foldl (fun st i => loopFan_fan ch i st) s

/-- Source: `loopFan`, lines 75-92; `now` is the reading of `OS_GetTimeMs()`,
taken as one reading for the whole call. -/
def loopFan (F : FanLayout) (ch : Nat → Bool) (now : Nat) (s : FanState) : FanState :=
  if now < s.nextUpdateTime then s
  else
    loopFan_fans ch (List.range F.MAX_FAN_COUNT)
      { s with nextUpdateTime := (now + FAN_REFRESH_TIME) % 4294967296 }

/-- The calls that reach the fan state. -/
inductive FanOp where
  | reset
  | setSpeed (i speed : Nat)
  | setPercent (i percent : Nat)
  | setCurSpeed (i speed : Nat)
  | setCurPercent (i percent : Nat)
  | loop (now : Nat)
  deriving DecidableEq, Repr

/-- One call applied to the fan state. -/
def applyOp (F : FanLayout) (cfg : FanSettings) (ch : Nat → Bool) (s : FanState) :
    FanOp → FanState
  | FanOp.reset => fanResetSpeed s
  | FanOp.setSpeed i speed => fanSetSpeed i speed s
  | FanOp.setPercent i percent => fanSetPercent cfg i percent s
  | FanOp.setCurSpeed i speed => fanSetCurSpeed i speed s
  | FanOp.setCurPercent i percent => fanSetCurPercent cfg i percent s
  | FanOp.loop now => loopFan F ch now s

/-- A sequence of calls applied in order. -/
def applyOps (F : FanLayout) (cfg : FanSettings) (ch : Nat → Bool) (ops : List FanOp)
    (s : FanState) : FanState :=
  ops.foldl (applyOp F cfg ch) s

/-- Is the call a `fanSetSpeed` or `fanSetPercent` for fan `i`? -/
def setsFan (i : Nat) : FanOp → Bool
  | FanOp.setSpeed j _ => decide (j = i)
  | FanOp.setPercent j _ => decide (j = i)
  | _ => false

/-- Is this log entry a command of fan `i`? -/
def isFan (i : Nat) (e : FanCmd × Bool) : Bool := decide (e.1.fan = i)

/-- The dirty flag of fan `i`: bit `i` of `needSetFanSpeed`. -/
def dirty (i : Nat) (s : FanState) : Bool := Temperature.GET_BIT s.needSetFanSpeed i

/-! ## Concrete inputs -/

/-- Six cooling fans and two controller fans. -/
def exFanLayout : FanLayout :=
  { MAX_FAN_COUNT := 8, MAX_COOLING_FAN_COUNT := 6, MAX_CTRL_FAN_COUNT := 2 }

/-- One cooling fan with maximum speed 255. -/
def exFanSettings : FanSettings :=
  { fan_count := 1, ctrl_fan_en := false, fan_max := fun _ => 255 }

/-- A channel that accepts every submission. -/
def exAccept : Nat → Bool := fun _ => true

/-- A channel that rejects every submission. -/
def exReject : Nat → Bool := fun _ => false

/-- The fan state after a controller reset. -/
def exFanState : FanState :=
  { setFanSpeed := fun _ => 0, curFanSpeed := fun _ => 0, needSetFanSpeed := 0,
    nextUpdateTime := 0, sent := [] }

/-- The reset state after `fanSetSpeed(0, 100)`: fan 0 is dirty. -/
def exFanDirty : FanState := fanSetSpeed 0 100 exFanState

end FanControl

namespace Temperature

/-! ## Bit-flag vectors -/

theorem GET_BIT_eq_testBit (n i : Nat) : GET_BIT n i = n.testBit i := by
  unfold GET_BIT Nat.testBit
  rw [Nat.land_comm]

theorem testBit_one_shiftLeft (i j : Nat) : (1 <<< i).testBit j = decide (i = j) := by
  rw [Nat.shiftLeft_eq, Nat.one_mul, Nat.testBit_two_pow]

theorem GET_BIT_SET_BIT_ON (n i j : Nat) (hj : j < 8) :
    GET_BIT (SET_BIT_ON n i) j = (GET_BIT n j || decide (i = j)) := by
  simp only [GET_BIT_eq_testBit, SET_BIT_ON]
  rw [show (256 : Nat) = 2 ^ 8 from rfl, Nat.testBit_mod_two_pow, Nat.testBit_or,
    testBit_one_shiftLeft]
  simp [hj]

theorem GET_BIT_SET_BIT_OFF (n i j : Nat) (hj : j < 8) :
    GET_BIT (SET_BIT_OFF n i) j = (GET_BIT n j && !decide (i = j)) := by
  simp only [GET_BIT_eq_testBit, SET_BIT_OFF]
  rw [show (256 : Nat) = 2 ^ 8 from rfl, Nat.testBit_mod_two_pow, Nat.testBit_and,
    Nat.testBit_xor, testBit_one_shiftLeft, show (255 : Nat) = 2 ^ 8 - 1 from rfl,
    Nat.testBit_two_pow_sub_one]
  simp [hj]

theorem GET_BIT_SET_BIT_ON_self (n i : Nat) (hi : i < 8) :
    GET_BIT (SET_BIT_ON n i) i = true := by
  rw [GET_BIT_SET_BIT_ON n i i hi]; simp

theorem GET_BIT_SET_BIT_OFF_self (n i : Nat) (hi : i < 8) :
    GET_BIT (SET_BIT_OFF n i) i = false := by
  rw [GET_BIT_SET_BIT_OFF n i i hi]; simp

theorem GET_BIT_SET_BIT_ON_ne (n i j : Nat) (hj : j < 8) (h : j ≠ i) :
    GET_BIT (SET_BIT_ON n i) j = GET_BIT n j := by
  rw [GET_BIT_SET_BIT_ON n i j hj]
  have : ¬ i = j := fun e => h e.symm
  simp [this]

theorem GET_BIT_SET_BIT_OFF_ne (n i j : Nat) (hj : j < 8) (h : j ≠ i) :
    GET_BIT (SET_BIT_OFF n i) j = GET_BIT n j := by
  rw [GET_BIT_SET_BIT_OFF n i j hj]
  have : ¬ i = j := fun e => h e.symm
  simp [this]

theorem inRange_iff (cur tar : Int) (range : Nat) :
    inRange cur tar range = true ↔ |cur - tar| ≤ (range : Int) := by
  unfold inRange
  rw [abs_le]
  simp only [Bool.and_eq_true, decide_eq_true_eq]
  constructor
  · rintro ⟨h1, h2⟩; constructor <;> omega
  · rintro ⟨h1, h2⟩; constructor <;> omega

/-! ## One slot of the loop -/

theorem wait_fields (L : Layout) (i : Nat) (s : State) :
    (loopCheckHeater_wait L i s).heat_update_seconds = s.heat_update_seconds
    ∧ (loopCheckHeater_wait L i s).heat_next_update_time = s.heat_next_update_time
    ∧ (loopCheckHeater_wait L i s).heat_update_waiting = s.heat_update_waiting
    ∧ (loopCheckHeater_wait L i s).heat_send_waiting = s.heat_send_waiting
    ∧ (loopCheckHeater_wait L i s).heat_feedback_waiting = s.heat_feedback_waiting
    ∧ (loopCheckHeater_wait L i s).sent = s.sent
    ∧ (loopCheckHeater_wait L i s).played = s.played := by
  unfold loopCheckHeater_wait
  split <;> simp [setT]

theorem wait_T (L : Layout) (i : Nat) (s : State) (k : Nat) :
    ((loopCheckHeater_wait L i s).T k).target = (s.T k).target
    ∧ ((loopCheckHeater_wait L i s).T k).current = (s.T k).current
    ∧ ((loopCheckHeater_wait L i s).T k).status = (s.T k).status
    ∧ (k ≠ i → (loopCheckHeater_wait L i s).T k = s.T k) := by
  unfold loopCheckHeater_wait
  split
  · by_cases hk : k = i
    · subst hk; simp [setT]
    · simp [setT, Function.update, hk]
  · simp

theorem settle_fields (L : Layout) (i : Nat) (s : State) :
    (loopCheckHeater_settle L i s).heat_update_seconds = s.heat_update_seconds
    ∧ (loopCheckHeater_settle L i s).heat_next_update_time = s.heat_next_update_time
    ∧ (loopCheckHeater_settle L i s).heat_update_waiting = s.heat_update_waiting
    ∧ (loopCheckHeater_settle L i s).heat_send_waiting = s.heat_send_waiting
    ∧ (loopCheckHeater_settle L i s).heat_feedback_waiting = s.heat_feedback_waiting
    ∧ (loopCheckHeater_settle L i s).sent = s.sent := by
  unfold loopCheckHeater_settle
  split
  · split <;> simp [setT, BUZZER_PLAY]
  · simp

theorem settle_T (L : Layout) (i : Nat) (s : State) (k : Nat) :
    ((loopCheckHeater_settle L i s).T k).target = (s.T k).target
    ∧ ((loopCheckHeater_settle L i s).T k).current = (s.T k).current
    ∧ ((loopCheckHeater_settle L i s).T k).waiting = (s.T k).waiting
    ∧ (k ≠ i → (loopCheckHeater_settle L i s).T k = s.T k) := by
  unfold loopCheckHeater_settle
  split
  · by_cases hk : k = i
    · subst hk; split <;> simp [setT, BUZZER_PLAY]
    · split <;> simp [setT, BUZZER_PLAY, Function.update, hk]
  · simp

theorem settle_status (L : Layout) (i : Nat) (s : State) :
    ((loopCheckHeater_settle L i s).T i).status = settledStatus L (s.T i) := by
  unfold loopCheckHeater_settle settledStatus
  split
  · split <;> simp [setT, BUZZER_PLAY]
  · rfl

theorem flush_fields (L : Layout) (cfg : Settings) (ch : Nat → Bool) (i : Nat) (s : State) :
    (loopCheckHeater_flush L cfg ch i s).heat_update_seconds = s.heat_update_seconds
    ∧ (loopCheckHeater_flush L cfg ch i s).heat_next_update_time = s.heat_next_update_time
    ∧ (loopCheckHeater_flush L cfg ch i s).heat_update_waiting = s.heat_update_waiting
    ∧ (loopCheckHeater_flush L cfg ch i s).T = s.T
    ∧ (loopCheckHeater_flush L cfg ch i s).played = s.played := by
  unfold loopCheckHeater_flush
  split
  · simp only [storeCmd]
    split <;> simp
  · simp

/-- The flush of slot `i` when its condition holds: one submission carrying
`heatGetTargetTemp(i)`, and the two flags flipped on acceptance only. -/
theorem flush_fire (L : Layout) (cfg : Settings) (ch : Nat → Bool) (i : Nat) (s : State)
    (h : Pending i s) :
    (loopCheckHeater_flush L cfg ch i s).sent
        = s.sent ++ [(Cmd.heat i (heatGetTargetTemp L cfg i s), ch s.sent.length)]
    ∧ (ch s.sent.length = true →
        (loopCheckHeater_flush L cfg ch i s).heat_send_waiting
            = SET_BIT_OFF s.heat_send_waiting i
        ∧ (loopCheckHeater_flush L cfg ch i s).heat_feedback_waiting
            = SET_BIT_ON s.heat_feedback_waiting i)
    ∧ (ch s.sent.length = false →
        (loopCheckHeater_flush L cfg ch i s).heat_send_waiting = s.heat_send_waiting
        ∧ (loopCheckHeater_flush L cfg ch i s).heat_feedback_waiting
            = s.heat_feedback_waiting) := by
  obtain ⟨h1, h2⟩ := h
  unfold loopCheckHeater_flush
  simp only [h1, h2, storeCmd]
  cases hc : ch s.sent.length <;> simp

/-- The flush of slot `i` when its condition fails: nothing happens. -/
theorem flush_skip (L : Layout) (cfg : Settings) (ch : Nat → Bool) (i : Nat) (s : State)
    (h : ¬ Pending i s) : loopCheckHeater_flush L cfg ch i s = s := by
  unfold loopCheckHeater_flush
  unfold Pending at h
  split
  · rename_i hc
    simp only [Bool.and_eq_true, Bool.not_eq_true'] at hc
    exact absurd hc h
  · rfl

theorem heatGetTargetTemp_congr (L : Layout) (cfg : Settings) (i : Nat) (s s' : State)
    (h : ∀ k, (s'.T k).target = (s.T k).target) :
    heatGetTargetTemp L cfg i s' = heatGetTargetTemp L cfg i s := by
  unfold heatGetTargetTemp
  simp only [h]

theorem slot_fields (L : Layout) (cfg : Settings) (ch : Nat → Bool) (i : Nat) (s : State) :
    (loopCheckHeater_slot L cfg ch i s).heat_update_seconds = s.heat_update_seconds
    ∧ (loopCheckHeater_slot L cfg ch i s).heat_next_update_time = s.heat_next_update_time
    ∧ (loopCheckHeater_slot L cfg ch i s).heat_update_waiting = s.heat_update_waiting := by
  unfold loopCheckHeater_slot
  obtain ⟨a1, a2, a3, -⟩ := flush_fields L cfg ch i (loopCheckHeater_settle L i (loopCheckHeater_wait L i s))
  obtain ⟨b1, b2, b3, -⟩ := settle_fields L i (loopCheckHeater_wait L i s)
  obtain ⟨c1, c2, c3, -⟩ := wait_fields L i s
  exact ⟨by rw [a1, b1, c1], by rw [a2, b2, c2], by rw [a3, b3, c3]⟩

theorem slot_T (L : Layout) (cfg : Settings) (ch : Nat → Bool) (i : Nat) (s : State) (k : Nat) :
    ((loopCheckHeater_slot L cfg ch i s).T k).target = (s.T k).target
    ∧ ((loopCheckHeater_slot L cfg ch i s).T k).current = (s.T k).current
    ∧ (k ≠ i → (loopCheckHeater_slot L cfg ch i s).T k = s.T k) := by
  unfold loopCheckHeater_slot
  obtain ⟨-, -, -, a, -⟩ := flush_fields L cfg ch i (loopCheckHeater_settle L i (loopCheckHeater_wait L i s))
  obtain ⟨b1, b2, -, b4⟩ := settle_T L i (loopCheckHeater_wait L i s) k
  obtain ⟨c1, c2, -, c4⟩ := wait_T L i s k
  rw [a]
  exact ⟨by rw [b1, c1], by rw [b2, c2], fun hk => by rw [b4 hk, c4 hk]⟩

theorem slot_status (L : Layout) (cfg : Settings) (ch : Nat → Bool) (i : Nat) (s : State) :
    ((loopCheckHeater_slot L cfg ch i s).T i).status = settledStatus L (s.T i) := by
  unfold loopCheckHeater_slot
  obtain ⟨-, -, -, a, -⟩ := flush_fields L cfg ch i (loopCheckHeater_settle L i (loopCheckHeater_wait L i s))
  obtain ⟨c1, c2, c3, -⟩ := wait_T L i s i
  rw [a, settle_status]
  unfold settledStatus
  rw [c1, c2, c3]

/-- The masks and the log before the flush of slot `i` are those at the start
of the loop body. -/
theorem slot_pre (L : Layout) (i : Nat) (s : State) :
    (loopCheckHeater_settle L i (loopCheckHeater_wait L i s)).heat_send_waiting
        = s.heat_send_waiting
    ∧ (loopCheckHeater_settle L i (loopCheckHeater_wait L i s)).heat_feedback_waiting
        = s.heat_feedback_waiting
    ∧ (loopCheckHeater_settle L i (loopCheckHeater_wait L i s)).sent = s.sent
    ∧ ∀ k, ((loopCheckHeater_settle L i (loopCheckHeater_wait L i s)).T k).target
        = (s.T k).target := by
  obtain ⟨-, -, -, b4, b5, b6⟩ := settle_fields L i (loopCheckHeater_wait L i s)
  obtain ⟨-, -, -, c4, c5, c6, -⟩ := wait_fields L i s
  refine ⟨by rw [b4, c4], by rw [b5, c5], by rw [b6, c6], fun k => ?_⟩
  rw [(settle_T L i (loopCheckHeater_wait L i s) k).1, (wait_T L i s k).1]

/-- The loop body of slot `i` when its flush condition holds. -/
theorem slot_fire (L : Layout) (cfg : Settings) (ch : Nat → Bool) (i : Nat) (s : State)
    (h : Pending i s) :
    (loopCheckHeater_slot L cfg ch i s).sent
        = s.sent ++ [(Cmd.heat i (heatGetTargetTemp L cfg i s), ch s.sent.length)]
    ∧ (ch s.sent.length = true →
        (loopCheckHeater_slot L cfg ch i s).heat_send_waiting
            = SET_BIT_OFF s.heat_send_waiting i
        ∧ (loopCheckHeater_slot L cfg ch i s).heat_feedback_waiting
            = SET_BIT_ON s.heat_feedback_waiting i)
    ∧ (ch s.sent.length = false →
        (loopCheckHeater_slot L cfg ch i s).heat_send_waiting = s.heat_send_waiting
        ∧ (loopCheckHeater_slot L cfg ch i s).heat_feedback_waiting
            = s.heat_feedback_waiting) := by
  obtain ⟨p1, p2, p3, p4⟩ := slot_pre L i s
  have hp : Pending i (loopCheckHeater_settle L i (loopCheckHeater_wait L i s)) := by
    unfold Pending at h ⊢
    rw [p1, p2]; exact h
  have hf := flush_fire L cfg ch i _ hp
  rw [p1, p2, p3, heatGetTargetTemp_congr L cfg i s _ p4] at hf
  exact hf

/-- The loop body of slot `i` when its flush condition fails. -/
theorem slot_skip (L : Layout) (cfg : Settings) (ch : Nat → Bool) (i : Nat) (s : State)
    (h : ¬ Pending i s) :
    (loopCheckHeater_slot L cfg ch i s).sent = s.sent
    ∧ (loopCheckHeater_slot L cfg ch i s).heat_send_waiting = s.heat_send_waiting
    ∧ (loopCheckHeater_slot L cfg ch i s).heat_feedback_waiting = s.heat_feedback_waiting := by
  obtain ⟨p1, p2, p3, -⟩ := slot_pre L i s
  have hp : ¬ Pending i (loopCheckHeater_settle L i (loopCheckHeater_wait L i s)) := by
    unfold Pending at h ⊢
    rw [p1, p2]; exact h
  unfold loopCheckHeater_slot
  rw [flush_skip L cfg ch i _ hp]
  exact ⟨p3, p1, p2⟩

/-- The loop body of slot `i` leaves the flag bits of another slot alone and
logs nothing but commands of slot `i`. -/
theorem slot_other (L : Layout) (cfg : Settings) (ch : Nat → Bool) (i : Nat) (s : State)
    (r : Nat) (hr : r < 8) (hne : r ≠ i) :
    GET_BIT (loopCheckHeater_slot L cfg ch i s).heat_send_waiting r
        = GET_BIT s.heat_send_waiting r
    ∧ GET_BIT (loopCheckHeater_slot L cfg ch i s).heat_feedback_waiting r
        = GET_BIT s.heat_feedback_waiting r
    ∧ ∃ new, (loopCheckHeater_slot L cfg ch i s).sent = s.sent ++ new
        ∧ ∀ e ∈ new, isHeatFor r e = false := by
  by_cases h : Pending i s
  · obtain ⟨f1, f2, f3⟩ := slot_fire L cfg ch i s h
    have hlog : ∃ new, (loopCheckHeater_slot L cfg ch i s).sent = s.sent ++ new
        ∧ ∀ e ∈ new, isHeatFor r e = false := by
      refine ⟨_, f1, ?_⟩
      intro e he
      simp only [List.mem_singleton] at he
      subst he
      simp [isHeatFor, Ne.symm hne]
    cases hc : ch s.sent.length
    · obtain ⟨g1, g2⟩ := f3 hc
      exact ⟨by rw [g1], by rw [g2], hlog⟩
    · obtain ⟨g1, g2⟩ := f2 hc
      exact ⟨by rw [g1, GET_BIT_SET_BIT_OFF_ne _ _ _ hr hne],
        by rw [g2, GET_BIT_SET_BIT_ON_ne _ _ _ hr hne], hlog⟩
  · obtain ⟨g0, g1, g2⟩ := slot_skip L cfg ch i s h
    exact ⟨by rw [g1], by rw [g2], [], by simp [g0], by simp⟩

/-! ## The phases of one tick -/

theorem heatSetUpdateSeconds_same (cfg : Settings) (ch : Nat → Bool) (sec : Nat) (s : State)
    (h : s.heat_update_seconds = sec) : heatSetUpdateSeconds cfg ch sec s = s := by
  unfold heatSetUpdateSeconds
  rw [if_pos h]

theorem heatSetUpdateSeconds_submit (cfg : Settings) (ch : Nat → Bool) (sec : Nat) (s : State)
    (h : s.heat_update_seconds ≠ sec) (ha : cfg.autoReportTemp = true)
    (hw : s.heat_update_waiting = false) :
    heatSetUpdateSeconds cfg ch sec s
      = { s with heat_update_seconds := sec
                 heat_update_waiting := ch s.sent.length
                 sent := s.sent ++ [(Cmd.M155 sec, ch s.sent.length)] } := by
  unfold heatSetUpdateSeconds
  rw [if_neg h]
  simp [ha, hw, storeCmd]

theorem heatSetUpdateSeconds_quiet (cfg : Settings) (ch : Nat → Bool) (sec : Nat) (s : State)
    (h : s.heat_update_seconds ≠ sec)
    (hq : cfg.autoReportTemp = false ∨ s.heat_update_waiting = true) :
    heatSetUpdateSeconds cfg ch sec s = { s with heat_update_seconds := sec } := by
  unfold heatSetUpdateSeconds
  rw [if_neg h]
  rcases hq with hq | hq <;> simp [hq]

theorem heatSetUpdateSeconds_frame (cfg : Settings) (ch : Nat → Bool) (sec : Nat) (s : State) :
    (heatSetUpdateSeconds cfg ch sec s).T = s.T
    ∧ (heatSetUpdateSeconds cfg ch sec s).heat_send_waiting = s.heat_send_waiting
    ∧ (heatSetUpdateSeconds cfg ch sec s).heat_feedback_waiting = s.heat_feedback_waiting
    ∧ (heatSetUpdateSeconds cfg ch sec s).played = s.played
    ∧ (heatSetUpdateSeconds cfg ch sec s).heat_next_update_time = s.heat_next_update_time
    ∧ ∃ new, (heatSetUpdateSeconds cfg ch sec s).sent = s.sent ++ new
        ∧ ∀ e ∈ new, e.1 = Cmd.M155 sec := by
  by_cases h : s.heat_update_seconds = sec
  · rw [heatSetUpdateSeconds_same cfg ch sec s h]
    exact ⟨rfl, rfl, rfl, rfl, rfl, [], by simp, by simp⟩
  · by_cases hq : cfg.autoReportTemp = true ∧ s.heat_update_waiting = false
    · rw [heatSetUpdateSeconds_submit cfg ch sec s h hq.1 hq.2]
      exact ⟨rfl, rfl, rfl, rfl, rfl, [(Cmd.M155 sec, ch s.sent.length)], rfl, by simp⟩
    · have hq' : cfg.autoReportTemp = false ∨ s.heat_update_waiting = true := by
        cases ha : cfg.autoReportTemp <;> cases hw : s.heat_update_waiting <;> simp_all
      rw [heatSetUpdateSeconds_quiet cfg ch sec s h hq']
      exact ⟨rfl, rfl, rfl, rfl, rfl, [], by simp, by simp⟩

/-- Explicit-poll mode, lines 238-239: deadline not reached or a request
running. -/
theorem poll_explicit_idle (cfg : Settings) (ch : Nat → Bool) (tk : Tick) (s : State)
    (ha : cfg.autoReportTemp = false)
    (h : tk.now < s.heat_next_update_time ∨ tk.requestCommandInfoIsRunning = true) :
    loopCheckHeater_poll cfg ch tk s = s := by
  unfold loopCheckHeater_poll
  simp [ha, h]

/-- Explicit-poll mode, lines 242-246: a poll is outstanding. -/
theorem poll_explicit_extend (cfg : Settings) (ch : Nat → Bool) (tk : Tick) (s : State)
    (ha : cfg.autoReportTemp = false)
    (h : ¬ (tk.now < s.heat_next_update_time ∨ tk.requestCommandInfoIsRunning = true))
    (hw : s.heat_update_waiting = true) :
    loopCheckHeater_poll cfg ch tk s
      = { s with heat_next_update_time
                  := (tk.now + SEC_TO_MS s.heat_update_seconds) % 4294967296 } := by
  unfold loopCheckHeater_poll
  simp only [ha, Bool.not_false, if_true, if_neg h, hw, heatSetNextUpdateTime]

/-- Explicit-poll mode, lines 248-251: one `M105` submission. -/
theorem poll_explicit_send (cfg : Settings) (ch : Nat → Bool) (tk : Tick) (s : State)
    (ha : cfg.autoReportTemp = false)
    (h : ¬ (tk.now < s.heat_next_update_time ∨ tk.requestCommandInfoIsRunning = true))
    (hw : s.heat_update_waiting = false) :
    loopCheckHeater_poll cfg ch tk s
      = { s with heat_update_waiting := ch s.sent.length
                 heat_next_update_time
                  := if ch s.sent.length = true
                     then (tk.now + SEC_TO_MS s.heat_update_seconds) % 4294967296
                     else s.heat_next_update_time
                 sent := s.sent ++ [(Cmd.M105, ch s.sent.length)] } := by
  unfold loopCheckHeater_poll
  simp only [ha, Bool.not_false, if_true, if_neg h, hw, storeCmd]
  cases hc : ch s.sent.length <;> simp [heatSetNextUpdateTime]

/-- Auto-report mode, lines 256-262: the watchdog fires, one `M155` submission. -/
theorem poll_auto_send (cfg : Settings) (ch : Nat → Bool) (tk : Tick) (s : State)
    (ha : cfg.autoReportTemp = true)
    (h : tk.now ≥ AUTOREPORT_TIMEOUT s ∧ s.heat_update_waiting = false) :
    loopCheckHeater_poll cfg ch tk s
      = { s with heat_update_waiting := ch s.sent.length
                 heat_next_update_time
                  := if ch s.sent.length = true
                     then (tk.now + SEC_TO_MS s.heat_update_seconds) % 4294967296
                     else s.heat_next_update_time
                 sent := s.sent ++ [(Cmd.M155 s.heat_update_seconds, ch s.sent.length)] } := by
  unfold loopCheckHeater_poll
  simp only [ha, Bool.not_true, Bool.false_eq_true, if_false, if_pos h, storeCmd]
  cases hc : ch s.sent.length <;> simp [heatSetNextUpdateTime]

/-- Auto-report mode: the watchdog does not fire. -/
theorem poll_auto_idle (cfg : Settings) (ch : Nat → Bool) (tk : Tick) (s : State)
    (ha : cfg.autoReportTemp = true)
    (h : ¬ (tk.now ≥ AUTOREPORT_TIMEOUT s ∧ s.heat_update_waiting = false)) :
    loopCheckHeater_poll cfg ch tk s = s := by
  unfold loopCheckHeater_poll
  simp only [ha, Bool.not_true, Bool.false_eq_true, if_false, if_neg h]

theorem poll_frame (cfg : Settings) (ch : Nat → Bool) (tk : Tick) (s : State) :
    (loopCheckHeater_poll cfg ch tk s).T = s.T
    ∧ (loopCheckHeater_poll cfg ch tk s).heat_send_waiting = s.heat_send_waiting
    ∧ (loopCheckHeater_poll cfg ch tk s).heat_feedback_waiting = s.heat_feedback_waiting
    ∧ (loopCheckHeater_poll cfg ch tk s).played = s.played
    ∧ (loopCheckHeater_poll cfg ch tk s).heat_update_seconds = s.heat_update_seconds
    ∧ ∃ new, (loopCheckHeater_poll cfg ch tk s).sent = s.sent ++ new
        ∧ ∀ e ∈ new, e.1 = Cmd.M105 ∨ e.1 = Cmd.M155 s.heat_update_seconds := by
  cases ha : cfg.autoReportTemp
  · by_cases h : tk.now < s.heat_next_update_time ∨ tk.requestCommandInfoIsRunning = true
    · rw [poll_explicit_idle cfg ch tk s ha h]
      exact ⟨rfl, rfl, rfl, rfl, rfl, [], by simp, by simp⟩
    · cases hw : s.heat_update_waiting
      · rw [poll_explicit_send cfg ch tk s ha h hw]
        exact ⟨rfl, rfl, rfl, rfl, rfl, [(Cmd.M105, ch s.sent.length)], rfl, by simp⟩
      · rw [poll_explicit_extend cfg ch tk s ha h hw]
        exact ⟨rfl, rfl, rfl, rfl, rfl, [], by simp, by simp⟩
  · by_cases h : tk.now ≥ AUTOREPORT_TIMEOUT s ∧ s.heat_update_waiting = false
    · rw [poll_auto_send cfg ch tk s ha h]
      exact ⟨rfl, rfl, rfl, rfl, rfl, [(Cmd.M155 s.heat_update_seconds, ch s.sent.length)],
        rfl, by simp⟩
    · rw [poll_auto_idle cfg ch tk s ha h]
      exact ⟨rfl, rfl, rfl, rfl, rfl, [], by simp, by simp⟩

theorem relax_frame (L : Layout) (cfg : Settings) (ch : Nat → Bool) (tk : Tick) (s : State) :
    (loopCheckHeater_relax L cfg ch tk s).T = s.T
    ∧ (loopCheckHeater_relax L cfg ch tk s).heat_send_waiting = s.heat_send_waiting
    ∧ (loopCheckHeater_relax L cfg ch tk s).heat_feedback_waiting = s.heat_feedback_waiting
    ∧ (loopCheckHeater_relax L cfg ch tk s).played = s.played
    ∧ (loopCheckHeater_relax L cfg ch tk s).heat_next_update_time = s.heat_next_update_time
    ∧ ∃ new, (loopCheckHeater_relax L cfg ch tk s).sent = s.sent ++ new
        ∧ ∀ e ∈ new, e.1 = Cmd.M155 L.TEMPERATURE_QUERY_SLOW_SECONDS := by
  unfold loopCheckHeater_relax
  split
  · exact heatSetUpdateSeconds_frame cfg ch _ s
  · exact ⟨rfl, rfl, rfl, rfl, rfl, [], by simp, by simp⟩

/-! ## The loop over the slots -/

theorem slots_nil (L : Layout) (cfg : Settings) (ch : Nat → Bool) (s : State) :
    loopCheckHeater_slots L cfg ch [] s = s := rfl

theorem slots_cons (L : Layout) (cfg : Settings) (ch : Nat → Bool) (j : Nat) (l : List Nat)
    (s : State) :
    loopCheckHeater_slots L cfg ch (j :: l) s
      = loopCheckHeater_slots L cfg ch l (loopCheckHeater_slot L cfg ch j s) := rfl

theorem slots_fields (L : Layout) (cfg : Settings) (ch : Nat → Bool) (l : List Nat) (s : State) :
    (loopCheckHeater_slots L cfg ch l s).heat_update_seconds = s.heat_update_seconds
    ∧ (loopCheckHeater_slots L cfg ch l s).heat_next_update_time = s.heat_next_update_time
    ∧ (loopCheckHeater_slots L cfg ch l s).heat_update_waiting = s.heat_update_waiting := by
  induction l generalizing s with
  | nil => exact ⟨rfl, rfl, rfl⟩
  | cons j l ih =>
    rw [slots_cons]
    obtain ⟨a1, a2, a3⟩ := ih (loopCheckHeater_slot L cfg ch j s)
    obtain ⟨b1, b2, b3⟩ := slot_fields L cfg ch j s
    exact ⟨by rw [a1, b1], by rw [a2, b2], by rw [a3, b3]⟩

theorem slots_T (L : Layout) (cfg : Settings) (ch : Nat → Bool) (l : List Nat) (s : State)
    (k : Nat) :
    ((loopCheckHeater_slots L cfg ch l s).T k).target = (s.T k).target
    ∧ ((loopCheckHeater_slots L cfg ch l s).T k).current = (s.T k).current
    ∧ (k ∉ l → (loopCheckHeater_slots L cfg ch l s).T k = s.T k) := by
  induction l generalizing s with
  | nil => exact ⟨rfl, rfl, fun _ => rfl⟩
  | cons j l ih =>
    rw [slots_cons]
    obtain ⟨a1, a2, a3⟩ := ih (loopCheckHeater_slot L cfg ch j s)
    obtain ⟨b1, b2, b3⟩ := slot_T L cfg ch j s k
    refine ⟨by rw [a1, b1], by rw [a2, b2], fun hk => ?_⟩
    simp only [List.mem_cons, not_or] at hk
    rw [a3 hk.2, b3 hk.1]

theorem settledStatus_idem (L : Layout) (h h' : HEATER_T) (hc : h'.current = h.current)
    (ht : h'.target = h.target) (hs : h'.status = settledStatus L h) :
    settledStatus L h' = settledStatus L h := by
  unfold settledStatus at hs ⊢
  rw [hc, ht, hs]
  split <;> simp_all

/-- The status of slot `r` after the loop: the completion rule applied once
when `r` is among the visited slots, the old status otherwise. -/
theorem slots_status (L : Layout) (cfg : Settings) (ch : Nat → Bool) (l : List Nat) (s : State)
    (r : Nat) :
    ((loopCheckHeater_slots L cfg ch l s).T r).status
      = if r ∈ l then settledStatus L (s.T r) else (s.T r).status := by
  induction l generalizing s with
  | nil => simp [slots_nil]
  | cons j l ih =>
    rw [slots_cons, ih]
    obtain ⟨b1, b2, b3⟩ := slot_T L cfg ch j s r
    by_cases hj : r = j
    · subst hj
      have hid := settledStatus_idem L (s.T r) ((loopCheckHeater_slot L cfg ch r s).T r) b2 b1
        (slot_status L cfg ch r s)
      simp only [List.mem_cons, true_or, if_true]
      split
      · exact hid
      · exact slot_status L cfg ch r s
    · rw [b3 hj]
      simp [hj]

/-- The loop logs target commands only. -/
theorem slots_heat_only (L : Layout) (cfg : Settings) (ch : Nat → Bool) (l : List Nat)
    (s : State) :
    ∃ new, (loopCheckHeater_slots L cfg ch l s).sent = s.sent ++ new
      ∧ ∀ e ∈ new, isM155 e = false ∧ isM105 e = false := by
  induction l generalizing s with
  | nil => exact ⟨[], by simp [slots_nil], by simp⟩
  | cons j l ih =>
    rw [slots_cons]
    obtain ⟨new2, h2, g2⟩ := ih (loopCheckHeater_slot L cfg ch j s)
    by_cases hp : Pending j s
    · obtain ⟨f1, -, -⟩ := slot_fire L cfg ch j s hp
      refine ⟨_ :: new2, by rw [h2, f1, List.append_assoc]; rfl, ?_⟩
      intro e he
      rcases List.mem_cons.1 he with rfl | he
      · exact ⟨rfl, rfl⟩
      · exact g2 e he
    · obtain ⟨f1, -, -⟩ := slot_skip L cfg ch j s hp
      exact ⟨new2, by rw [h2, f1], g2⟩

/-- While the echo bit of slot `r` is set the loop submits nothing for `r` and
keeps both of its flag bits. -/
theorem slots_echo_set (L : Layout) (cfg : Settings) (ch : Nat → Bool) (l : List Nat)
    (s : State) (r : Nat) (hr : r < 8) (h : GET_BIT s.heat_feedback_waiting r = true) :
    GET_BIT (loopCheckHeater_slots L cfg ch l s).heat_feedback_waiting r = true
    ∧ GET_BIT (loopCheckHeater_slots L cfg ch l s).heat_send_waiting r
        = GET_BIT s.heat_send_waiting r
    ∧ ∃ new, (loopCheckHeater_slots L cfg ch l s).sent = s.sent ++ new
        ∧ ∀ e ∈ new, isHeatFor r e = false := by
  induction l generalizing s with
  | nil => exact ⟨h, rfl, [], by simp [slots_nil], by simp⟩
  | cons j l ih =>
    rw [slots_cons]
    have step : GET_BIT (loopCheckHeater_slot L cfg ch j s).heat_send_waiting r
          = GET_BIT s.heat_send_waiting r
        ∧ GET_BIT (loopCheckHeater_slot L cfg ch j s).heat_feedback_waiting r
          = GET_BIT s.heat_feedback_waiting r
        ∧ ∃ new, (loopCheckHeater_slot L cfg ch j s).sent = s.sent ++ new
          ∧ ∀ e ∈ new, isHeatFor r e = false := by
      by_cases hj : r = j
      · subst hj
        have hp : ¬ Pending r s := by
          unfold Pending; rw [h]; simp
        obtain ⟨g0, g1, g2⟩ := slot_skip L cfg ch r s hp
        exact ⟨by rw [g1], by rw [g2], [], by simp [g0], by simp⟩
      · exact slot_other L cfg ch j s r hr hj
    obtain ⟨s1, s2, new1, s3, s4⟩ := step
    obtain ⟨a1, a2, new2, a3, a4⟩ := ih (loopCheckHeater_slot L cfg ch j s) (by rw [s2]; exact h)
    refine ⟨a1, by rw [a2, s1], new1 ++ new2, by rw [a3, s3, List.append_assoc], ?_⟩
    intro e he
    rcases List.mem_append.1 he with he | he
    · exact s4 e he
    · exact a4 e he

/-! ## Whole ticks -/

theorem runTicks_nil (L : Layout) (cfg : Settings) (ch : Nat → Bool) (s : State) :
    runTicks L cfg ch [] s = s := rfl

theorem runTicks_cons (L : Layout) (cfg : Settings) (ch : Nat → Bool) (tk : Tick)
    (tks : List Tick) (s : State) :
    runTicks L cfg ch (tk :: tks) s = runTicks L cfg ch tks (loopCheckHeater L cfg ch tk s) := rfl

theorem runTicks_append (L : Layout) (cfg : Settings) (ch : Nat → Bool) (t1 t2 : List Tick)
    (s : State) :
    runTicks L cfg ch (t1 ++ t2) s = runTicks L cfg ch t2 (runTicks L cfg ch t1 s) := by
  unfold runTicks
  rw [List.foldl_append]

/-- The poll phase logs no target command. -/
theorem poll_no_heat (cfg : Settings) (ch : Nat → Bool) (tk : Tick) (s : State) (r : Nat) :
    ∃ new, (loopCheckHeater_poll cfg ch tk s).sent = s.sent ++ new
      ∧ ∀ e ∈ new, isHeatFor r e = false := by
  obtain ⟨-, -, -, -, -, new, h1, h2⟩ := poll_frame cfg ch tk s
  refine ⟨new, h1, fun e he => ?_⟩
  rcases h2 e he with h | h <;> simp [isHeatFor, h]

/-- The relax phase logs no target command. -/
theorem relax_no_heat (L : Layout) (cfg : Settings) (ch : Nat → Bool) (tk : Tick) (s : State)
    (r : Nat) :
    ∃ new, (loopCheckHeater_relax L cfg ch tk s).sent = s.sent ++ new
      ∧ ∀ e ∈ new, isHeatFor r e = false := by
  obtain ⟨-, -, -, -, -, new, h1, h2⟩ := relax_frame L cfg ch tk s
  refine ⟨new, h1, fun e he => ?_⟩
  simp [isHeatFor, h2 e he]

/-- A tick never changes a target or a current temperature. -/
theorem tick_T (L : Layout) (cfg : Settings) (ch : Nat → Bool) (tk : Tick) (s : State)
    (k : Nat) :
    ((loopCheckHeater L cfg ch tk s).T k).target = (s.T k).target
    ∧ ((loopCheckHeater L cfg ch tk s).T k).current = (s.T k).current := by
  unfold loopCheckHeater
  obtain ⟨a, -⟩ := relax_frame L cfg ch tk
    (loopCheckHeater_slots L cfg ch (List.range L.MAX_HEATER_COUNT)
      (loopCheckHeater_poll cfg ch tk s))
  obtain ⟨b1, b2, -⟩ := slots_T L cfg ch (List.range L.MAX_HEATER_COUNT)
    (loopCheckHeater_poll cfg ch tk s) k
  obtain ⟨c, -⟩ := poll_frame cfg ch tk s
  rw [a, b1, b2, c]
  exact ⟨rfl, rfl⟩

/-- While the echo bit of slot `r` is set, a tick submits nothing for `r` and
keeps both of its flag bits. -/
theorem tick_echo_set (L : Layout) (cfg : Settings) (ch : Nat → Bool) (tk : Tick) (s : State)
    (r : Nat) (hr : r < 8) (h : GET_BIT s.heat_feedback_waiting r = true) :
    GET_BIT (loopCheckHeater L cfg ch tk s).heat_feedback_waiting r = true
    ∧ GET_BIT (loopCheckHeater L cfg ch tk s).heat_send_waiting r
        = GET_BIT s.heat_send_waiting r
    ∧ ∃ new, (loopCheckHeater L cfg ch tk s).sent = s.sent ++ new
        ∧ ∀ e ∈ new, isHeatFor r e = false := by
  unfold loopCheckHeater
  obtain ⟨-, p2, p3, -⟩ := poll_frame cfg ch tk s
  obtain ⟨n1, p6, p7⟩ := poll_no_heat cfg ch tk s r
  obtain ⟨q1, q2, n2, q3, q4⟩ := slots_echo_set L cfg ch (List.range L.MAX_HEATER_COUNT)
    (loopCheckHeater_poll cfg ch tk s) r hr (by rw [p3]; exact h)
  obtain ⟨-, r2, r3, -⟩ := relax_frame L cfg ch tk
    (loopCheckHeater_slots L cfg ch (List.range L.MAX_HEATER_COUNT)
      (loopCheckHeater_poll cfg ch tk s))
  obtain ⟨n3, r6, r7⟩ := relax_no_heat L cfg ch tk
    (loopCheckHeater_slots L cfg ch (List.range L.MAX_HEATER_COUNT)
      (loopCheckHeater_poll cfg ch tk s)) r
  refine ⟨by rw [r3]; exact q1, by rw [r2, q2, p2], n1 ++ (n2 ++ n3), ?_, ?_⟩
  · rw [r6, q3, p6]; simp [List.append_assoc]
  · intro e he
    rcases List.mem_append.1 he with he | he
    · exact p7 e he
    · rcases List.mem_append.1 he with he | he
      · exact q4 e he
      · exact r7 e he

theorem runTicks_echo_set (L : Layout) (cfg : Settings) (ch : Nat → Bool) (tks : List Tick)
    (s : State) (r : Nat) (hr : r < 8) (h : GET_BIT s.heat_feedback_waiting r = true) :
    GET_BIT (runTicks L cfg ch tks s).heat_feedback_waiting r = true
    ∧ GET_BIT (runTicks L cfg ch tks s).heat_send_waiting r = GET_BIT s.heat_send_waiting r
    ∧ ∃ new, (runTicks L cfg ch tks s).sent = s.sent ++ new
        ∧ ∀ e ∈ new, isHeatFor r e = false := by
  induction tks generalizing s with
  | nil => exact ⟨h, rfl, [], by simp [runTicks_nil], by simp⟩
  | cons tk tks ih =>
    rw [runTicks_cons]
    obtain ⟨a1, a2, n1, a3, a4⟩ := tick_echo_set L cfg ch tk s r hr h
    obtain ⟨b1, b2, n2, b3, b4⟩ := ih (loopCheckHeater L cfg ch tk s) a1
    refine ⟨b1, by rw [b2, a2], n1 ++ n2, by rw [b3, a3, List.append_assoc], ?_⟩
    intro e he
    rcases List.mem_append.1 he with he | he
    · exact a4 e he
    · exact b4 e he

/-! ## A pending UI write through the ticks -/

theorem filter_accepted_nil (r : Nat) (new : List (Cmd × Bool))
    (h : ∀ e ∈ new, isHeatFor r e = false) : new.filter (isAcceptedHeatFor r) = [] := by
  rw [List.filter_eq_nil_iff]
  intro e he
  simp [isAcceptedHeatFor, h e he]

theorem heaterIndexFix_idem (L : Layout) (cfg : Settings) (i : Nat)
    (h : heaterIndexFix L cfg i ≠ L.INVALID_HEATER) :
    heaterIndexFix L cfg (heaterIndexFix L cfg i) = heaterIndexFix L cfg i := by
  by_cases h1 : i = L.BED ∧ cfg.bed_en = true
  · have e : heaterIndexFix L cfg i = i := by unfold heaterIndexFix; rw [if_pos h1]
    rw [e, e]
  · by_cases h2 : i = L.CHAMBER ∧ cfg.chamber_en = true
    · have e : heaterIndexFix L cfg i = i := by unfold heaterIndexFix; rw [if_neg h1, if_pos h2]
      rw [e, e]
    · by_cases h3 : i < cfg.hotend_count
      · have e : heaterIndexFix L cfg i = i := by
          unfold heaterIndexFix; rw [if_neg h1, if_neg h2, if_pos h3]
        rw [e, e]
      · by_cases h4 : i < cfg.ext_count ∧ cfg.hotend_count = 1
        · have e : heaterIndexFix L cfg i = NOZZLE0 := by
            unfold heaterIndexFix; rw [if_neg h1, if_neg h2, if_neg h3, if_pos h4]
          rw [e]
          unfold heaterIndexFix NOZZLE0
          have h0 : (0 : Nat) < cfg.hotend_count := by omega
          split_ifs <;> rfl
        · exfalso
          apply h
          unfold heaterIndexFix; rw [if_neg h1, if_neg h2, if_neg h3, if_neg h4]

/-- The loop on a slot that awaits its echo: still flushed afterwards, no
target command for it. -/
theorem slots_flushed (L : Layout) (cfg : Settings) (ch : Nat → Bool) (l : List Nat)
    (s : State) (r : Nat) (hr : r < 8) (h : Flushed r s) :
    Flushed r (loopCheckHeater_slots L cfg ch l s)
    ∧ ∃ new, (loopCheckHeater_slots L cfg ch l s).sent = s.sent ++ new
        ∧ ∀ e ∈ new, isHeatFor r e = false := by
  obtain ⟨a1, a2, a3⟩ := slots_echo_set L cfg ch l s r hr h.2
  exact ⟨⟨by rw [a2]; exact h.1, a1⟩, a3⟩

/-- The loop on a slot with a pending UI write: either every attempt for the
slot was rejected and it is still pending, or exactly one was accepted, it
carried `heatGetTargetTemp`, and the slot now awaits the echo.  When the slot
is visited and is still pending, some submission of the loop was rejected. -/
theorem slots_pending (L : Layout) (cfg : Settings) (ch : Nat → Bool) (l : List Nat)
    (s : State) (r : Nat) (hr : r < 8) (hp : Pending r s) :
    ∃ new, (loopCheckHeater_slots L cfg ch l s).sent = s.sent ++ new
      ∧ ((Pending r (loopCheckHeater_slots L cfg ch l s)
            ∧ new.filter (isAcceptedHeatFor r) = []
            ∧ (r ∈ l → ∃ k, s.sent.length ≤ k ∧ k < s.sent.length + new.length
                ∧ ch k = false))
          ∨ (Flushed r (loopCheckHeater_slots L cfg ch l s)
            ∧ new.filter (isAcceptedHeatFor r)
                = [(Cmd.heat r (heatGetTargetTemp L cfg r s), true)])) := by
  induction l generalizing s with
  | nil =>
    exact ⟨[], by simp [slots_nil], Or.inl ⟨hp, rfl, fun h => absurd h (List.not_mem_nil r)⟩⟩
  | cons j l ih =>
    rw [slots_cons]
    have htgt : heatGetTargetTemp L cfg r (loopCheckHeater_slot L cfg ch j s)
        = heatGetTargetTemp L cfg r s :=
      heatGetTargetTemp_congr L cfg r s _ (fun k => (slot_T L cfg ch j s k).1)
    by_cases hj : r = j
    · subst hj
      obtain ⟨f1, f2, f3⟩ := slot_fire L cfg ch r s hp
      cases hc : ch s.sent.length
      · obtain ⟨g1, g2⟩ := f3 hc
        have hp1 : Pending r (loopCheckHeater_slot L cfg ch r s) := by
          unfold Pending; rw [g1, g2]; exact hp
        obtain ⟨new2, e2, d2⟩ := ih (loopCheckHeater_slot L cfg ch r s) hp1
        rw [hc] at f1
        refine ⟨(Cmd.heat r (heatGetTargetTemp L cfg r s), false) :: new2, ?_, ?_⟩
        · rw [e2, f1, List.append_assoc]; rfl
        · rcases d2 with ⟨q1, q2, -⟩ | ⟨q1, q2⟩
          · refine Or.inl ⟨q1, ?_, fun _ => ⟨s.sent.length, le_refl _, ?_, hc⟩⟩
            · rw [List.filter_cons_of_neg (by simp [isAcceptedHeatFor])]; exact q2
            · simp
          · refine Or.inr ⟨q1, ?_⟩
            rw [List.filter_cons_of_neg (by simp [isAcceptedHeatFor]), q2, htgt]
      · obtain ⟨g1, g2⟩ := f2 hc
        have hfl : Flushed r (loopCheckHeater_slot L cfg ch r s) := by
          unfold Flushed
          rw [g1, g2]
          exact ⟨GET_BIT_SET_BIT_OFF_self _ _ hr, GET_BIT_SET_BIT_ON_self _ _ hr⟩
        obtain ⟨q1, new2, e2, d2⟩ := slots_flushed L cfg ch l _ r hr hfl
        rw [hc] at f1
        refine ⟨(Cmd.heat r (heatGetTargetTemp L cfg r s), true) :: new2, ?_, Or.inr ⟨q1, ?_⟩⟩
        · rw [e2, f1, List.append_assoc]; rfl
        · rw [List.filter_cons_of_pos (by simp [isAcceptedHeatFor, isHeatFor]),
            filter_accepted_nil r new2 d2]
    · obtain ⟨o1, o2, new1, o3, o4⟩ := slot_other L cfg ch j s r hr hj
      have hp1 : Pending r (loopCheckHeater_slot L cfg ch j s) := by
        unfold Pending; rw [o1, o2]; exact hp
      obtain ⟨new2, e2, d2⟩ := ih (loopCheckHeater_slot L cfg ch j s) hp1
      refine ⟨new1 ++ new2, by rw [e2, o3, List.append_assoc], ?_⟩
      have hfilt : (new1 ++ new2).filter (isAcceptedHeatFor r)
          = new2.filter (isAcceptedHeatFor r) := by
        rw [List.filter_append, filter_accepted_nil r new1 o4, List.nil_append]
      rcases d2 with ⟨q1, q2, q3⟩ | ⟨q1, q2⟩
      · refine Or.inl ⟨q1, by rw [hfilt, q2], fun hmem => ?_⟩
        have hml : r ∈ l := by
          rcases List.mem_cons.1 hmem with h | h
          · exact absurd h hj
          · exact h
        obtain ⟨k, k1, k2, k3⟩ := q3 hml
        rw [o3, List.length_append] at k1 k2
        exact ⟨k, by omega, by rw [List.length_append]; omega, k3⟩
      · exact Or.inr ⟨q1, by rw [hfilt, q2, htgt]⟩

theorem tick_flushed (L : Layout) (cfg : Settings) (ch : Nat → Bool) (tk : Tick) (s : State)
    (r : Nat) (hr : r < 8) (h : Flushed r s) :
    Flushed r (loopCheckHeater L cfg ch tk s)
    ∧ ∃ new, (loopCheckHeater L cfg ch tk s).sent = s.sent ++ new
        ∧ ∀ e ∈ new, isHeatFor r e = false := by
  obtain ⟨a1, a2, a3⟩ := tick_echo_set L cfg ch tk s r hr h.2
  exact ⟨⟨by rw [a2]; exact h.1, a1⟩, a3⟩

theorem runTicks_flushed (L : Layout) (cfg : Settings) (ch : Nat → Bool) (tks : List Tick)
    (s : State) (r : Nat) (hr : r < 8) (h : Flushed r s) :
    Flushed r (runTicks L cfg ch tks s)
    ∧ ∃ new, (runTicks L cfg ch tks s).sent = s.sent ++ new
        ∧ ∀ e ∈ new, isHeatFor r e = false := by
  obtain ⟨a1, a2, a3⟩ := runTicks_echo_set L cfg ch tks s r hr h.2
  exact ⟨⟨by rw [a2]; exact h.1, a1⟩, a3⟩

theorem tick_target (L : Layout) (cfg : Settings) (ch : Nat → Bool) (tk : Tick) (s : State)
    (r : Nat) :
    heatGetTargetTemp L cfg r (loopCheckHeater L cfg ch tk s) = heatGetTargetTemp L cfg r s :=
  heatGetTargetTemp_congr L cfg r s _ (fun k => (tick_T L cfg ch tk s k).1)

/-- One tick on a slot of the table with a pending UI write. -/
theorem tick_pending (L : Layout) (cfg : Settings) (ch : Nat → Bool) (tk : Tick) (s : State)
    (r : Nat) (hslot : r < L.MAX_HEATER_COUNT) (hL : L.MAX_HEATER_COUNT ≤ 8)
    (hp : Pending r s) :
    ∃ new, (loopCheckHeater L cfg ch tk s).sent = s.sent ++ new
      ∧ ((Pending r (loopCheckHeater L cfg ch tk s)
            ∧ new.filter (isAcceptedHeatFor r) = []
            ∧ ∃ k, s.sent.length ≤ k ∧ k < s.sent.length + new.length ∧ ch k = false)
          ∨ (Flushed r (loopCheckHeater L cfg ch tk s)
            ∧ new.filter (isAcceptedHeatFor r)
                = [(Cmd.heat r (heatGetTargetTemp L cfg r s), true)])) := by
  have hr : r < 8 := by omega
  unfold loopCheckHeater
  obtain ⟨p1, p2, p3, -⟩ := poll_frame cfg ch tk s
  obtain ⟨n1, p6, p7⟩ := poll_no_heat cfg ch tk s r
  have hp0 : Pending r (loopCheckHeater_poll cfg ch tk s) := by
    unfold Pending; rw [p2, p3]; exact hp
  have htgt : heatGetTargetTemp L cfg r (loopCheckHeater_poll cfg ch tk s)
      = heatGetTargetTemp L cfg r s :=
    heatGetTargetTemp_congr L cfg r s _ (fun k => by rw [p1])
  obtain ⟨n2, q1, q2⟩ := slots_pending L cfg ch (List.range L.MAX_HEATER_COUNT)
    (loopCheckHeater_poll cfg ch tk s) r hr hp0
  obtain ⟨-, r2, r3, -⟩ := relax_frame L cfg ch tk
    (loopCheckHeater_slots L cfg ch (List.range L.MAX_HEATER_COUNT)
      (loopCheckHeater_poll cfg ch tk s))
  obtain ⟨n3, r6, r7⟩ := relax_no_heat L cfg ch tk
    (loopCheckHeater_slots L cfg ch (List.range L.MAX_HEATER_COUNT)
      (loopCheckHeater_poll cfg ch tk s)) r
  have hfilt : (n1 ++ (n2 ++ n3)).filter (isAcceptedHeatFor r)
      = n2.filter (isAcceptedHeatFor r) := by
    rw [List.filter_append, List.filter_append, filter_accepted_nil r n1 p7,
      filter_accepted_nil r n3 r7, List.nil_append, List.append_nil]
  refine ⟨n1 ++ (n2 ++ n3), by rw [r6, q1, p6]; simp [List.append_assoc], ?_⟩
  rcases q2 with ⟨d1, d2, d3⟩ | ⟨d1, d2⟩
  · refine Or.inl ⟨?_, by rw [hfilt, d2], ?_⟩
    · unfold Pending at d1 ⊢
      rw [r2, r3]; exact d1
    · obtain ⟨k, k1, k2, k3⟩ := d3 (List.mem_range.2 hslot)
      rw [p6, List.length_append] at k1 k2
      refine ⟨k, by omega, ?_, k3⟩
      simp only [List.length_append]; omega
  · refine Or.inr ⟨?_, by rw [hfilt, d2, htgt]⟩
    unfold Flushed at d1 ⊢
    rw [r2, r3]; exact d1

/-- Any run of ticks on a slot with a pending UI write: at most one target
command for the slot is accepted; as long as none is, every tick has made at
least one submission. -/
theorem runTicks_pending (L : Layout) (cfg : Settings) (ch : Nat → Bool) (tks : List Tick)
    (s : State) (r : Nat) (hslot : r < L.MAX_HEATER_COUNT) (hL : L.MAX_HEATER_COUNT ≤ 8)
    (hp : Pending r s) :
    ∃ new, (runTicks L cfg ch tks s).sent = s.sent ++ new
      ∧ ((Pending r (runTicks L cfg ch tks s)
            ∧ new.filter (isAcceptedHeatFor r) = []
            ∧ tks.length ≤ new.length)
          ∨ (Flushed r (runTicks L cfg ch tks s)
            ∧ new.filter (isAcceptedHeatFor r)
                = [(Cmd.heat r (heatGetTargetTemp L cfg r s), true)])) := by
  have hr : r < 8 := by omega
  induction tks generalizing s with
  | nil => exact ⟨[], by simp [runTicks_nil], Or.inl ⟨hp, rfl, le_refl _⟩⟩
  | cons tk tks ih =>
    rw [runTicks_cons]
    obtain ⟨n1, a1, a2⟩ := tick_pending L cfg ch tk s r hslot hL hp
    rcases a2 with ⟨d1, d2, k, k1, k2, -⟩ | ⟨d1, d2⟩
    · obtain ⟨n2, b1, b2⟩ := ih (loopCheckHeater L cfg ch tk s) d1
      have hfilt : (n1 ++ n2).filter (isAcceptedHeatFor r)
          = n2.filter (isAcceptedHeatFor r) := by
        rw [List.filter_append, d2, List.nil_append]
      refine ⟨n1 ++ n2, by rw [b1, a1, List.append_assoc], ?_⟩
      rcases b2 with ⟨e1, e2, e3⟩ | ⟨e1, e2⟩
      · refine Or.inl ⟨e1, by rw [hfilt, e2], ?_⟩
        simp only [List.length_cons, List.length_append]; omega
      · exact Or.inr ⟨e1, by rw [hfilt, e2, tick_target]⟩
    · obtain ⟨e1, n2, b1, b2⟩ := runTicks_flushed L cfg ch tks _ r hr d1
      refine ⟨n1 ++ n2, by rw [b1, a1, List.append_assoc], Or.inr ⟨e1, ?_⟩⟩
      rw [List.filter_append, d2, filter_accepted_nil r n2 b2, List.append_nil]

/-- A run of more than `n` ticks on a slot with a pending UI write, under a
channel that accepts every submission from the `n`-th on: exactly one target
command for the slot is accepted and the slot ends flushed. -/
theorem runTicks_delivers (L : Layout) (cfg : Settings) (ch : Nat → Bool) (tks : List Tick)
    (s : State) (r n : Nat) (hslot : r < L.MAX_HEATER_COUNT) (hL : L.MAX_HEATER_COUNT ≤ 8)
    (hp : Pending r s) (hch : ∀ k, n ≤ k → ch (s.sent.length + k) = true)
    (hlen : n < tks.length) :
    ∃ new, (runTicks L cfg ch tks s).sent = s.sent ++ new
      ∧ Flushed r (runTicks L cfg ch tks s)
      ∧ new.filter (isAcceptedHeatFor r)
          = [(Cmd.heat r (heatGetTargetTemp L cfg r s), true)] := by
  have hr : r < 8 := by omega
  obtain ⟨new, a1, a2⟩ := runTicks_pending L cfg ch tks s r hslot hL hp
  rcases a2 with ⟨d1, d2, d3⟩ | ⟨d1, d2⟩
  · exfalso
    -- split the run after its first `n` ticks
    have hsplit : tks = tks.take n ++ tks.drop n := (List.take_append_drop n tks).symm
    obtain ⟨m1, b1, b2⟩ := runTicks_pending L cfg ch (tks.take n) s r hslot hL hp
    cases hd : tks.drop n with
    | nil =>
      have := List.drop_eq_nil_iff.1 hd
      omega
    | cons tk rest =>
      have hrun : runTicks L cfg ch tks s
          = runTicks L cfg ch rest
              (loopCheckHeater L cfg ch tk (runTicks L cfg ch (tks.take n) s)) := by
        conv_lhs => rw [hsplit, hd, runTicks_append, runTicks_cons]
      rcases b2 with ⟨e1, e2, e3⟩ | ⟨e1, e2⟩
      · obtain ⟨m2, c1, c2⟩ := tick_pending L cfg ch tk _ r hslot hL e1
        rcases c2 with ⟨-, -, k, k1, k2, k3⟩ | ⟨f1, -⟩
        · rw [b1, List.length_append] at k1
          have hlt : (tks.take n).length = n := by
            rw [List.length_take]; omega
          have := hch (k - s.sent.length) (by omega)
          rw [show s.sent.length + (k - s.sent.length) = k by omega] at this
          rw [this] at k3
          exact Bool.noConfusion k3
        · obtain ⟨g1, -⟩ := runTicks_flushed L cfg ch rest _ r hr f1
          rw [← hrun] at g1
          unfold Pending at d1; unfold Flushed at g1
          rw [g1.1] at d1
          exact Bool.noConfusion d1.1
      · obtain ⟨f1, -⟩ := tick_flushed L cfg ch tk _ r hr e1
        obtain ⟨g1, -⟩ := runTicks_flushed L cfg ch rest _ r hr f1
        rw [← hrun] at g1
        unfold Pending at d1; unfold Flushed at g1
        rw [g1.1] at d1
        exact Bool.noConfusion d1.1
  · exact ⟨new, a1, d1, d2⟩

/-! ## Status and polling state through a tick -/

/-- The status of a slot of the table after one tick: the completion rule
applied to what the slot held before. -/
theorem tick_status (L : Layout) (cfg : Settings) (ch : Nat → Bool) (tk : Tick) (s : State)
    (r : Nat) (hslot : r < L.MAX_HEATER_COUNT) :
    ((loopCheckHeater L cfg ch tk s).T r).status = settledStatus L (s.T r) := by
  unfold loopCheckHeater
  obtain ⟨a, -⟩ := relax_frame L cfg ch tk
    (loopCheckHeater_slots L cfg ch (List.range L.MAX_HEATER_COUNT)
      (loopCheckHeater_poll cfg ch tk s))
  obtain ⟨c, -⟩ := poll_frame cfg ch tk s
  rw [a, slots_status, if_pos (List.mem_range.2 hslot), c]

theorem setCurrent_T (L : Layout) (cfg : Settings) (now i r : Nat) (c : Int) (s : State)
    (hr : heaterIndexFix L cfg i = r) (hacc : r ≠ L.INVALID_HEATER) :
    (heatSetCurrentTemp L cfg now i c s).T r
      = { s.T r with current := max (-99) (min c 999) } := by
  simp only [heatSetCurrentTemp, hr, if_neg hacc, NOBEYOND, setT]
  split <;> simp [heatSetNextUpdateTime]

/-- The relax phase when it cannot submit: explicit-poll mode, or an `M155`
outstanding. -/
theorem relax_quiet (L : Layout) (cfg : Settings) (ch : Nat → Bool) (tk : Tick) (s : State)
    (hq : cfg.autoReportTemp = false ∨ s.heat_update_waiting = true) :
    (loopCheckHeater_relax L cfg ch tk s).sent = s.sent
    ∧ (loopCheckHeater_relax L cfg ch tk s).heat_update_waiting = s.heat_update_waiting
    ∧ (loopCheckHeater_relax L cfg ch tk s).heat_next_update_time = s.heat_next_update_time := by
  unfold loopCheckHeater_relax
  split
  · by_cases h : s.heat_update_seconds = L.TEMPERATURE_QUERY_SLOW_SECONDS
    · rw [heatSetUpdateSeconds_same cfg ch _ s h]
      exact ⟨rfl, rfl, rfl⟩
    · rw [heatSetUpdateSeconds_quiet cfg ch _ s h hq]
      exact ⟨rfl, rfl, rfl⟩
  · exact ⟨rfl, rfl, rfl⟩

/-- After the poll phase, a tick that cannot submit in its relax phase keeps
the outstanding flag and the deadline and logs target commands only. -/
theorem tick_after_poll (L : Layout) (cfg : Settings) (ch : Nat → Bool) (tk : Tick) (s : State)
    (hq : cfg.autoReportTemp = false
      ∨ (loopCheckHeater_poll cfg ch tk s).heat_update_waiting = true) :
    (loopCheckHeater L cfg ch tk s).heat_update_waiting
        = (loopCheckHeater_poll cfg ch tk s).heat_update_waiting
    ∧ (loopCheckHeater L cfg ch tk s).heat_next_update_time
        = (loopCheckHeater_poll cfg ch tk s).heat_next_update_time
    ∧ ∃ new, (loopCheckHeater L cfg ch tk s).sent
          = (loopCheckHeater_poll cfg ch tk s).sent ++ new
        ∧ new.filter isM155 = [] ∧ new.filter isM105 = [] := by
  unfold loopCheckHeater
  obtain ⟨-, b2, b3⟩ := slots_fields L cfg ch (List.range L.MAX_HEATER_COUNT)
    (loopCheckHeater_poll cfg ch tk s)
  obtain ⟨new, c1, c2⟩ := slots_heat_only L cfg ch (List.range L.MAX_HEATER_COUNT)
    (loopCheckHeater_poll cfg ch tk s)
  obtain ⟨a1, a2, a3⟩ := relax_quiet L cfg ch tk
    (loopCheckHeater_slots L cfg ch (List.range L.MAX_HEATER_COUNT)
      (loopCheckHeater_poll cfg ch tk s)) (by rw [b3]; exact hq)
  refine ⟨by rw [a2, b3], by rw [a3, b2], new, by rw [a1, c1], ?_, ?_⟩
  · rw [List.filter_eq_nil_iff]
    intro e he; simp [(c2 e he).1]
  · rw [List.filter_eq_nil_iff]
    intro e he; simp [(c2 e he).2]

/-! ## The flush of one slot within a tick -/

theorem filter_heat_nil (r : Nat) (new : List (Cmd × Bool))
    (h : ∀ e ∈ new, isHeatFor r e = false) : new.filter (isHeatFor r) = [] := by
  rw [List.filter_eq_nil_iff]
  intro e he
  simp [h e he]

/-- The loop over slots other than `i` leaves the flag bits of `i` alone and
logs no command of `i`. -/
theorem slots_unvisited (L : Layout) (cfg : Settings) (ch : Nat → Bool) (l : List Nat)
    (s : State) (i : Nat) (hi : i < 8) (hl : i ∉ l) :
    GET_BIT (loopCheckHeater_slots L cfg ch l s).heat_send_waiting i
        = GET_BIT s.heat_send_waiting i
    ∧ GET_BIT (loopCheckHeater_slots L cfg ch l s).heat_feedback_waiting i
        = GET_BIT s.heat_feedback_waiting i
    ∧ ∃ new, (loopCheckHeater_slots L cfg ch l s).sent = s.sent ++ new
        ∧ ∀ e ∈ new, isHeatFor i e = false := by
  induction l generalizing s with
  | nil => exact ⟨rfl, rfl, [], by simp [slots_nil], by simp⟩
  | cons j l ih =>
    rw [slots_cons]
    simp only [List.mem_cons, not_or] at hl
    obtain ⟨o1, o2, n1, o3, o4⟩ := slot_other L cfg ch j s i hi hl.1
    obtain ⟨a1, a2, n2, a3, a4⟩ := ih (loopCheckHeater_slot L cfg ch j s) hl.2
    refine ⟨by rw [a1, o1], by rw [a2, o2], n1 ++ n2, by rw [a3, o3, List.append_assoc], ?_⟩
    intro e he
    rcases List.mem_append.1 he with he | he
    · exact o4 e he
    · exact a4 e he

/-- The loop over a duplicate-free list of slots containing `i`: a command of
`i` is attempted exactly when the flush condition of `i` holds at the start,
once, carrying `heatGetTargetTemp(i)`; accepted, the slot ends flushed;
rejected, or not attempted, both bits are as before. -/
theorem slots_visit_once (L : Layout) (cfg : Settings) (ch : Nat → Bool) (l : List Nat)
    (s : State) (i : Nat) (hi : i < 8) (hnd : l.Nodup) (hl : i ∈ l) :
    ∃ new, (loopCheckHeater_slots L cfg ch l s).sent = s.sent ++ new
      ∧ (¬ Pending i s →
          new.filter (isHeatFor i) = []
          ∧ GET_BIT (loopCheckHeater_slots L cfg ch l s).heat_send_waiting i
              = GET_BIT s.heat_send_waiting i
          ∧ GET_BIT (loopCheckHeater_slots L cfg ch l s).heat_feedback_waiting i
              = GET_BIT s.heat_feedback_waiting i)
      ∧ (Pending i s →
          ∃ a, new.filter (isHeatFor i) = [(Cmd.heat i (heatGetTargetTemp L cfg i s), a)]
            ∧ (a = true → Flushed i (loopCheckHeater_slots L cfg ch l s))
            ∧ (a = false → Pending i (loopCheckHeater_slots L cfg ch l s))) := by
  induction l generalizing s with
  | nil => exact absurd hl (List.not_mem_nil i)
  | cons j l ih =>
    rw [slots_cons]
    have hj : j ∉ l := (List.nodup_cons.1 hnd).1
    have hnd' : l.Nodup := (List.nodup_cons.1 hnd).2
    by_cases hij : i = j
    · subst hij
      obtain ⟨u1, u2, n2, u3, u4⟩ := slots_unvisited L cfg ch l
        (loopCheckHeater_slot L cfg ch i s) i hi hj
      by_cases hp : Pending i s
      · obtain ⟨f1, f2, f3⟩ := slot_fire L cfg ch i s hp
        refine ⟨(Cmd.heat i (heatGetTargetTemp L cfg i s), ch s.sent.length) :: n2, ?_,
          fun h => absurd hp h, fun _ => ⟨ch s.sent.length, ?_, fun hc => ?_, fun hc => ?_⟩⟩
        · rw [u3, f1, List.append_assoc]; rfl
        · rw [List.filter_cons_of_pos (by simp [isHeatFor]), filter_heat_nil i n2 u4]
        · obtain ⟨g1, g2⟩ := f2 hc
          unfold Flushed
          rw [u1, u2, g1, g2]
          exact ⟨GET_BIT_SET_BIT_OFF_self _ _ hi, GET_BIT_SET_BIT_ON_self _ _ hi⟩
        · obtain ⟨g1, g2⟩ := f3 hc
          unfold Pending at hp ⊢
          rw [u1, u2, g1, g2]; exact hp
      · obtain ⟨g0, g1, g2⟩ := slot_skip L cfg ch i s hp
        refine ⟨n2, by rw [u3, g0], fun _ => ⟨filter_heat_nil i n2 u4, by rw [u1, g1],
          by rw [u2, g2]⟩, fun h => absurd h hp⟩
    · have hl' : i ∈ l := by
        rcases List.mem_cons.1 hl with h | h
        · exact absurd h hij
        · exact h
      obtain ⟨o1, o2, n1, o3, o4⟩ := slot_other L cfg ch j s i hi hij
      obtain ⟨n2, a1, a2, a3⟩ := ih (loopCheckHeater_slot L cfg ch j s) hnd' hl'
      have hpe : Pending i (loopCheckHeater_slot L cfg ch j s) ↔ Pending i s := by
        unfold Pending; rw [o1, o2]
      have htgt : heatGetTargetTemp L cfg i (loopCheckHeater_slot L cfg ch j s)
          = heatGetTargetTemp L cfg i s :=
        heatGetTargetTemp_congr L cfg i s _ (fun k => (slot_T L cfg ch j s k).1)
      have hfilt : (n1 ++ n2).filter (isHeatFor i) = n2.filter (isHeatFor i) := by
        rw [List.filter_append, filter_heat_nil i n1 o4, List.nil_append]
      refine ⟨n1 ++ n2, by rw [a1, o3, List.append_assoc], fun hp => ?_, fun hp => ?_⟩
      · obtain ⟨b1, b2, b3⟩ := a2 (fun h => hp (hpe.1 h))
        exact ⟨by rw [hfilt, b1], by rw [b2, o1], by rw [b3, o2]⟩
      · obtain ⟨a, b1, b2, b3⟩ := a3 (hpe.2 hp)
        exact ⟨a, by rw [hfilt, b1, htgt], b2, b3⟩

/-- The flush of slot `i` seen over a whole tick. -/
theorem tick_visit_once (L : Layout) (cfg : Settings) (ch : Nat → Bool) (tk : Tick) (s : State)
    (i : Nat) (hslot : i < L.MAX_HEATER_COUNT) (hL : L.MAX_HEATER_COUNT ≤ 8) :
    ∃ new, (loopCheckHeater L cfg ch tk s).sent = s.sent ++ new
      ∧ (¬ Pending i s →
          new.filter (isHeatFor i) = []
          ∧ GET_BIT (loopCheckHeater L cfg ch tk s).heat_send_waiting i
              = GET_BIT s.heat_send_waiting i
          ∧ GET_BIT (loopCheckHeater L cfg ch tk s).heat_feedback_waiting i
              = GET_BIT s.heat_feedback_waiting i)
      ∧ (Pending i s →
          ∃ a, new.filter (isHeatFor i) = [(Cmd.heat i (heatGetTargetTemp L cfg i s), a)]
            ∧ (a = true → Flushed i (loopCheckHeater L cfg ch tk s))
            ∧ (a = false → Pending i (loopCheckHeater L cfg ch tk s))) := by
  have hi : i < 8 := by omega
  unfold loopCheckHeater
  obtain ⟨p1, p2, p3, -⟩ := poll_frame cfg ch tk s
  obtain ⟨n1, p6, p7⟩ := poll_no_heat cfg ch tk s i
  have hpe : Pending i (loopCheckHeater_poll cfg ch tk s) ↔ Pending i s := by
    unfold Pending; rw [p2, p3]
  have htgt : heatGetTargetTemp L cfg i (loopCheckHeater_poll cfg ch tk s)
      = heatGetTargetTemp L cfg i s :=
    heatGetTargetTemp_congr L cfg i s _ (fun k => by rw [p1])
  obtain ⟨n2, q1, q2, q3⟩ := slots_visit_once L cfg ch (List.range L.MAX_HEATER_COUNT)
    (loopCheckHeater_poll cfg ch tk s) i hi (List.nodup_range _) (List.mem_range.2 hslot)
  obtain ⟨-, r2, r3, -⟩ := relax_frame L cfg ch tk
    (loopCheckHeater_slots L cfg ch (List.range L.MAX_HEATER_COUNT)
      (loopCheckHeater_poll cfg ch tk s))
  obtain ⟨n3, r6, r7⟩ := relax_no_heat L cfg ch tk
    (loopCheckHeater_slots L cfg ch (List.range L.MAX_HEATER_COUNT)
      (loopCheckHeater_poll cfg ch tk s)) i
  have hfilt : (n1 ++ (n2 ++ n3)).filter (isHeatFor i) = n2.filter (isHeatFor i) := by
    rw [List.filter_append, List.filter_append, filter_heat_nil i n1 p7,
      filter_heat_nil i n3 r7, List.nil_append, List.append_nil]
  refine ⟨n1 ++ (n2 ++ n3), by rw [r6, q1, p6]; simp [List.append_assoc], fun hp => ?_,
    fun hp => ?_⟩
  · obtain ⟨b1, b2, b3⟩ := q2 (fun h => hp (hpe.1 h))
    exact ⟨by rw [hfilt, b1], by rw [r2, b2, p2], by rw [r3, b3, p3]⟩
  · obtain ⟨a, b1, b2, b3⟩ := q3 (hpe.2 hp)
    refine ⟨a, by rw [hfilt, b1, htgt], fun ha => ?_, fun ha => ?_⟩
    · have := b2 ha
      unfold Flushed at this ⊢
      rw [r2, r3]; exact this
    · have := b3 ha
      unfold Pending at this ⊢
      rw [r2, r3]; exact this

/-! ## Completion events through a tick -/

theorem slotEvent_congr (L : Layout) (h h' : HEATER_T) (hs : h'.status = h.status)
    (hc : h'.current = h.current) (ht : h'.target = h.target) :
    slotEvent L h' = slotEvent L h := by
  unfold slotEvent
  rw [hs, hc, ht]

theorem slotEvents_congr (L : Layout) (T T' : Nat → HEATER_T) (l : List Nat)
    (h : ∀ k ∈ l, T' k = T k) : slotEvents L T' l = slotEvents L T l := by
  induction l with
  | nil => rfl
  | cons j l ih =>
    unfold slotEvents
    rw [h j (List.mem_cons_self j l), ih (fun k hk => h k (List.mem_cons_of_mem j hk))]

theorem settle_played (L : Layout) (i : Nat) (s : State) :
    (loopCheckHeater_settle L i s).played = s.played ++ slotEvent L (s.T i) := by
  unfold loopCheckHeater_settle slotEvent
  split
  · split <;> simp [setT, BUZZER_PLAY]
  · simp

theorem slot_played (L : Layout) (cfg : Settings) (ch : Nat → Bool) (i : Nat) (s : State) :
    (loopCheckHeater_slot L cfg ch i s).played = s.played ++ slotEvent L (s.T i) := by
  unfold loopCheckHeater_slot
  obtain ⟨-, -, -, -, a⟩ := flush_fields L cfg ch i
    (loopCheckHeater_settle L i (loopCheckHeater_wait L i s))
  obtain ⟨c1, c2, c3, -⟩ := wait_T L i s i
  obtain ⟨-, -, -, -, -, -, w⟩ := wait_fields L i s
  rw [a, settle_played, w, slotEvent_congr L (s.T i) _ c3 c2 c1]

theorem slot_waiting (L : Layout) (cfg : Settings) (ch : Nat → Bool) (i : Nat) (s : State) :
    ((loopCheckHeater_slot L cfg ch i s).T i).waiting
      = ((s.T i).waiting && !inRange (s.T i).current (s.T i).target L.TEMPERATURE_RANGE) := by
  unfold loopCheckHeater_slot
  obtain ⟨-, -, -, a, -⟩ := flush_fields L cfg ch i
    (loopCheckHeater_settle L i (loopCheckHeater_wait L i s))
  rw [a, (settle_T L i (loopCheckHeater_wait L i s) i).2.2.1]
  unfold loopCheckHeater_wait
  split
  · rename_i h
    simp only [Bool.and_eq_true] at h
    simp [setT, h.1, h.2]
  · rename_i h
    cases hw : (s.T i).waiting
    · simp
    · simp only [hw, Bool.true_and] at h
      simp [h]

/-- The sounds of the loop over a duplicate-free list of slots: the events of
the slots as they were at the start, in order. -/
theorem slots_played (L : Layout) (cfg : Settings) (ch : Nat → Bool) (l : List Nat) (s : State)
    (hnd : l.Nodup) :
    (loopCheckHeater_slots L cfg ch l s).played = s.played ++ slotEvents L s.T l := by
  induction l generalizing s with
  | nil => simp [slots_nil, slotEvents]
  | cons j l ih =>
    have hj : j ∉ l := (List.nodup_cons.1 hnd).1
    rw [slots_cons, ih _ (List.nodup_cons.1 hnd).2, slot_played]
    have hc : slotEvents L (loopCheckHeater_slot L cfg ch j s).T l = slotEvents L s.T l := by
      apply slotEvents_congr
      intro k hk
      exact (slot_T L cfg ch j s k).2.2 (fun h => hj (h ▸ hk))
    rw [hc, List.append_assoc]
    rfl

/-- The wait flag of slot `r` after the loop over a list that visits it. -/
theorem slots_waiting (L : Layout) (cfg : Settings) (ch : Nat → Bool) (l : List Nat) (s : State)
    (r : Nat) (hl : r ∈ l) :
    ((loopCheckHeater_slots L cfg ch l s).T r).waiting
      = ((s.T r).waiting && !inRange (s.T r).current (s.T r).target L.TEMPERATURE_RANGE) := by
  induction l generalizing s with
  | nil => exact absurd hl (List.not_mem_nil r)
  | cons j l ih =>
    rw [slots_cons]
    obtain ⟨b1, b2, b3⟩ := slot_T L cfg ch j s r
    by_cases hj : r = j
    · subst hj
      by_cases hl' : r ∈ l
      · rw [ih _ hl', b1, b2, slot_waiting]
        cases (s.T r).waiting <;>
          cases inRange (s.T r).current (s.T r).target L.TEMPERATURE_RANGE <;> rfl
      · rw [(slots_T L cfg ch l _ r).2.2 hl', slot_waiting]
    · have hl' : r ∈ l := by
        rcases List.mem_cons.1 hl with h | h
        · exact absurd h hj
        · exact h
      rw [ih _ hl', b3 hj]

theorem tick_played (L : Layout) (cfg : Settings) (ch : Nat → Bool) (tk : Tick) (s : State) :
    (loopCheckHeater L cfg ch tk s).played
      = s.played ++ slotEvents L s.T (List.range L.MAX_HEATER_COUNT) := by
  unfold loopCheckHeater
  obtain ⟨-, -, -, a, -⟩ := relax_frame L cfg ch tk
    (loopCheckHeater_slots L cfg ch (List.range L.MAX_HEATER_COUNT)
      (loopCheckHeater_poll cfg ch tk s))
  obtain ⟨c1, -, -, c4, -⟩ := poll_frame cfg ch tk s
  rw [a, slots_played L cfg ch _ _ (List.nodup_range _), c4, c1]

theorem tick_waiting (L : Layout) (cfg : Settings) (ch : Nat → Bool) (tk : Tick) (s : State)
    (r : Nat) (hslot : r < L.MAX_HEATER_COUNT) :
    ((loopCheckHeater L cfg ch tk s).T r).waiting
      = ((s.T r).waiting && !inRange (s.T r).current (s.T r).target L.TEMPERATURE_RANGE) := by
  unfold loopCheckHeater
  obtain ⟨a, -⟩ := relax_frame L cfg ch tk
    (loopCheckHeater_slots L cfg ch (List.range L.MAX_HEATER_COUNT)
      (loopCheckHeater_poll cfg ch tk s))
  obtain ⟨c, -⟩ := poll_frame cfg ch tk s
  rw [a, slots_waiting L cfg ch _ _ r (List.mem_range.2 hslot), c]

/-- A slot that went through the completion rule has no event left. -/
theorem slotEvent_after (L : Layout) (h h' : HEATER_T) (hs : h'.status = settledStatus L h)
    (hc : h'.current = h.current) (ht : h'.target = h.target) :
    slotEvent L h' = [] := by
  unfold slotEvent
  rw [hs, hc, ht]
  unfold settledStatus
  cases hst : h.status <;> cases hin : inRange h.current h.target L.TEMPERATURE_RANGE <;> simp

theorem slotEvents_nil (L : Layout) (T : Nat → HEATER_T) (l : List Nat)
    (h : ∀ k ∈ l, slotEvent L (T k) = []) : slotEvents L T l = [] := by
  induction l with
  | nil => rfl
  | cons j l ih =>
    unfold slotEvents
    rw [h j (List.mem_cons_self j l), ih (fun k hk => h k (List.mem_cons_of_mem j hk))]
    rfl

/-! ## The three origins, flag view -/

/-- After a scripted write the echo bit of the slot is set, whatever it was;
the send flags and the log are untouched. -/
theorem fromCmd_flags (L : Layout) (cfg : Settings) (i r : Nat) (v : Int) (s : State)
    (hr : heaterIndexFix L cfg i = r) (hacc : r ≠ L.INVALID_HEATER) (hr8 : r < 8) :
    GET_BIT (heatSetTargetTemp L cfg i v TEMP_SOURCE.FROM_CMD s).heat_feedback_waiting r = true
    ∧ (heatSetTargetTemp L cfg i v TEMP_SOURCE.FROM_CMD s).heat_send_waiting
        = s.heat_send_waiting
    ∧ (heatSetTargetTemp L cfg i v TEMP_SOURCE.FROM_CMD s).sent = s.sent := by
  simp only [heatSetTargetTemp, hr, if_neg hacc]
  cases hfb : GET_BIT s.heat_feedback_waiting r
  · simp only [if_true]
    exact ⟨GET_BIT_SET_BIT_ON_self _ _ hr8, rfl, rfl⟩
  · simp [hfb]

/-- A remote echo met by a set echo bit clears that bit; the send flags and
the log are untouched. -/
theorem fromHost_flags (L : Layout) (cfg : Settings) (i r : Nat) (v : Int) (s : State)
    (hr : heaterIndexFix L cfg i = r) (hacc : r ≠ L.INVALID_HEATER) (hr8 : r < 8)
    (hfb : GET_BIT s.heat_feedback_waiting r = true) :
    GET_BIT (heatSetTargetTemp L cfg i v TEMP_SOURCE.FROM_HOST s).heat_feedback_waiting r = false
    ∧ (heatSetTargetTemp L cfg i v TEMP_SOURCE.FROM_HOST s).heat_send_waiting
        = s.heat_send_waiting
    ∧ (heatSetTargetTemp L cfg i v TEMP_SOURCE.FROM_HOST s).sent = s.sent := by
  simp only [heatSetTargetTemp, hr, if_neg hacc, hfb, if_true]
  exact ⟨GET_BIT_SET_BIT_OFF_self _ _ hr8, trivial, trivial⟩

/-- After a UI write the send bit of the slot is set, the echo flags and the
log are untouched, and the target is the clamped value. -/
theorem fromGui_flags (L : Layout) (cfg : Settings) (i r : Nat) (v : Int) (s : State)
    (hr : heaterIndexFix L cfg i = r) (hacc : r ≠ L.INVALID_HEATER) (hr8 : r < 8) :
    GET_BIT (heatSetTargetTemp L cfg i v TEMP_SOURCE.FROM_GUI s).heat_send_waiting r = true
    ∧ (heatSetTargetTemp L cfg i v TEMP_SOURCE.FROM_GUI s).heat_feedback_waiting
        = s.heat_feedback_waiting
    ∧ (heatSetTargetTemp L cfg i v TEMP_SOURCE.FROM_GUI s).sent = s.sent
    ∧ ((heatSetTargetTemp L cfg i v TEMP_SOURCE.FROM_GUI s).T r).target
        = max 0 (min v (cfg.max_temp r : Int)) := by
  simp only [heatSetTargetTemp, hr, if_neg hacc, NOBEYOND, setT, Function.update_same]
  split
  · exact ⟨GET_BIT_SET_BIT_ON_self _ _ hr8, rfl, rfl, by simp⟩
  · exact ⟨GET_BIT_SET_BIT_ON_self _ _ hr8, rfl, rfl, by simp⟩

/-! ## Target arbitration -/

/-- C1: remote-echo arbitration.  For an index that `heaterIndexFix` accepts,
resolved to slot `r` of the heater table, `heatSetTargetTemp(i, v, FROM_HOST)`
(a) clears the echo bit of `r` and keeps the target when that bit was set,
(b) otherwise stores `v` as target and keeps both flag bytes when the send bit
is clear, (c) otherwise changes nothing; in every case the send flags, the
status, wait flag and current temperature of `r`, every other heater, the
polling state and the command log are unchanged. -/
theorem C1_remote_echo (L : Layout) (cfg : Settings) (i r : Nat) (v : Int) (s : State)
    (hr : heaterIndexFix L cfg i = r) (hacc : r ≠ L.INVALID_HEATER)
    (hslot : r < L.MAX_HEATER_COUNT) (hL : L.MAX_HEATER_COUNT ≤ 8) :
    (GET_BIT s.heat_feedback_waiting r = true →
        GET_BIT (heatSetTargetTemp L cfg i v TEMP_SOURCE.FROM_HOST s).heat_feedback_waiting r = false
        ∧ (heatSetTargetTemp L cfg i v TEMP_SOURCE.FROM_HOST s).T = s.T)
    ∧ (GET_BIT s.heat_feedback_waiting r = false → GET_BIT s.heat_send_waiting r = false →
        ((heatSetTargetTemp L cfg i v TEMP_SOURCE.FROM_HOST s).T r).target = v
        ∧ (heatSetTargetTemp L cfg i v TEMP_SOURCE.FROM_HOST s).heat_feedback_waiting
            = s.heat_feedback_waiting)
    ∧ (GET_BIT s.heat_feedback_waiting r = false → GET_BIT s.heat_send_waiting r = true →
        heatSetTargetTemp L cfg i v TEMP_SOURCE.FROM_HOST s = s)
    ∧ (heatSetTargetTemp L cfg i v TEMP_SOURCE.FROM_HOST s).heat_send_waiting = s.heat_send_waiting
    ∧ ((heatSetTargetTemp L cfg i v TEMP_SOURCE.FROM_HOST s).T r).status = (s.T r).status
    ∧ ((heatSetTargetTemp L cfg i v TEMP_SOURCE.FROM_HOST s).T r).waiting = (s.T r).waiting
    ∧ ((heatSetTargetTemp L cfg i v TEMP_SOURCE.FROM_HOST s).T r).current = (s.T r).current
    ∧ (∀ j, j ≠ r → (heatSetTargetTemp L cfg i v TEMP_SOURCE.FROM_HOST s).T j = s.T j)
    ∧ (∀ j, j < L.MAX_HEATER_COUNT → j ≠ r →
        GET_BIT (heatSetTargetTemp L cfg i v TEMP_SOURCE.FROM_HOST s).heat_feedback_waiting j
          = GET_BIT s.heat_feedback_waiting j)
    ∧ (heatSetTargetTemp L cfg i v TEMP_SOURCE.FROM_HOST s).sent = s.sent
    ∧ (heatSetTargetTemp L cfg i v TEMP_SOURCE.FROM_HOST s).played = s.played
    ∧ (heatSetTargetTemp L cfg i v TEMP_SOURCE.FROM_HOST s).heat_update_seconds
        = s.heat_update_seconds
    ∧ (heatSetTargetTemp L cfg i v TEMP_SOURCE.FROM_HOST s).heat_next_update_time
        = s.heat_next_update_time
    ∧ (heatSetTargetTemp L cfg i v TEMP_SOURCE.FROM_HOST s).heat_update_waiting
        = s.heat_update_waiting
    ∧ (heatSetTargetTemp L cfg i v TEMP_SOURCE.FROM_HOST s).toolIndex = s.toolIndex := by
  have hr8 : r < 8 := by omega
  simp only [heatSetTargetTemp, hr, if_neg hacc]
  cases hfb : GET_BIT s.heat_feedback_waiting r
  · cases hsw : GET_BIT s.heat_send_waiting r
    · simp [setT, Function.update]
      intro j hj; simp [hj]
    · simp
  · simp only [if_true]
    refine ⟨fun _ => ⟨GET_BIT_SET_BIT_OFF_self _ _ hr8, trivial⟩, ?_, ?_, trivial, trivial,
      trivial, trivial, fun _ _ => trivial, ?_, trivial, trivial, trivial, trivial, trivial,
      trivial⟩
    · intro h; simp at h
    · intro h; simp at h
    · intro j hj hne
      exact GET_BIT_SET_BIT_OFF_ne _ _ _ (by omega) hne

/-- C1 at a concrete input: tool index 2 of a single-nozzle machine resolves
to slot 0; with the echo bit raised the echo only clears it. -/
theorem C1_remote_echo_witness :
    heaterIndexFix exLayout exSettings 2 = 0
    ∧ GET_BIT (heatSetTargetTemp exLayout exSettings 2 210 TEMP_SOURCE.FROM_HOST
        exStateEcho).heat_feedback_waiting 0 = false
    ∧ (heatSetTargetTemp exLayout exSettings 2 210 TEMP_SOURCE.FROM_HOST exStateEcho).T
        = exStateEcho.T :=
  ⟨by decide,
   (C1_remote_echo exLayout exSettings 2 0 210 exStateEcho (by decide) (by decide) (by decide)
      (by decide)).1 (by decide)⟩

/-- C2: scripted-command arbitration.  For an index that `heaterIndexFix`
accepts, resolved to slot `r`, `heatSetTargetTemp(i, v, FROM_CMD)` stores `v`
as target of `r` and raises its echo bit when that bit was clear, and changes
nothing at all when it was set; the send flags, the status of `r` and every
other heater (table entry and echo bit) are unchanged in both cases. -/
theorem C2_scripted_command (L : Layout) (cfg : Settings) (i r : Nat) (v : Int) (s : State)
    (hr : heaterIndexFix L cfg i = r) (hacc : r ≠ L.INVALID_HEATER)
    (hslot : r < L.MAX_HEATER_COUNT) (hL : L.MAX_HEATER_COUNT ≤ 8) :
    (GET_BIT s.heat_feedback_waiting r = false →
        ((heatSetTargetTemp L cfg i v TEMP_SOURCE.FROM_CMD s).T r).target = v
        ∧ GET_BIT (heatSetTargetTemp L cfg i v TEMP_SOURCE.FROM_CMD s).heat_feedback_waiting r
            = true)
    ∧ (GET_BIT s.heat_feedback_waiting r = true →
        heatSetTargetTemp L cfg i v TEMP_SOURCE.FROM_CMD s = s)
    ∧ (heatSetTargetTemp L cfg i v TEMP_SOURCE.FROM_CMD s).heat_send_waiting = s.heat_send_waiting
    ∧ ((heatSetTargetTemp L cfg i v TEMP_SOURCE.FROM_CMD s).T r).status = (s.T r).status
    ∧ ((heatSetTargetTemp L cfg i v TEMP_SOURCE.FROM_CMD s).T r).current = (s.T r).current
    ∧ ((heatSetTargetTemp L cfg i v TEMP_SOURCE.FROM_CMD s).T r).waiting = (s.T r).waiting
    ∧ (∀ j, j ≠ r → (heatSetTargetTemp L cfg i v TEMP_SOURCE.FROM_CMD s).T j = s.T j)
    ∧ (∀ j, j < L.MAX_HEATER_COUNT → j ≠ r →
        GET_BIT (heatSetTargetTemp L cfg i v TEMP_SOURCE.FROM_CMD s).heat_feedback_waiting j
          = GET_BIT s.heat_feedback_waiting j)
    ∧ (heatSetTargetTemp L cfg i v TEMP_SOURCE.FROM_CMD s).sent = s.sent := by
  have hr8 : r < 8 := by omega
  simp only [heatSetTargetTemp, hr, if_neg hacc]
  cases hfb : GET_BIT s.heat_feedback_waiting r
  · simp only [if_true]
    refine ⟨fun _ => ⟨by simp [setT], GET_BIT_SET_BIT_ON_self _ _ hr8⟩, ?_, rfl,
      by simp [setT], by simp [setT], by simp [setT], ?_, ?_, rfl⟩
    · intro h; simp at h
    · intro j hj; simp [setT, Function.update, hj]
    · intro j hj hne
      exact GET_BIT_SET_BIT_ON_ne _ _ _ (by omega) hne
  · simp

/-- C2 at a concrete input: a scripted 210 degrees for tool 2 of the
single-nozzle machine lands in slot 0 and raises its echo bit. -/
theorem C2_scripted_command_witness :
    heaterIndexFix exLayout exSettings 2 = 0
    ∧ ((heatSetTargetTemp exLayout exSettings 2 210 TEMP_SOURCE.FROM_CMD exState).T 0).target = 210
    ∧ GET_BIT (heatSetTargetTemp exLayout exSettings 2 210 TEMP_SOURCE.FROM_CMD
        exState).heat_feedback_waiting 0 = true :=
  ⟨by decide,
   (C2_scripted_command exLayout exSettings 2 0 210 exState (by decide) (by decide) (by decide)
      (by decide)).1 (by decide)⟩

/-- C3: UI-origin write.  For an index that `heaterIndexFix` accepts, resolved
to slot `r`, after `heatSetTargetTemp(i, v, FROM_GUI)` the target of `r` is `v`
clamped to `[0, max_temp[r]]`, its send bit is set, the echo flags are
unchanged, the current temperature is unchanged, and the status is SETTLED
when `|current - target| <= TEMPERATURE_RANGE`, otherwise HEATING when
`target > current` and COOLING when `target < current`. -/
theorem C3_ui_write (L : Layout) (cfg : Settings) (i r : Nat) (v : Int) (s : State)
    (hr : heaterIndexFix L cfg i = r) (hacc : r ≠ L.INVALID_HEATER)
    (hslot : r < L.MAX_HEATER_COUNT) (hL : L.MAX_HEATER_COUNT ≤ 8) :
    ((heatSetTargetTemp L cfg i v TEMP_SOURCE.FROM_GUI s).T r).target
        = max 0 (min v (cfg.max_temp r : Int))
    ∧ GET_BIT (heatSetTargetTemp L cfg i v TEMP_SOURCE.FROM_GUI s).heat_send_waiting r = true
    ∧ (heatSetTargetTemp L cfg i v TEMP_SOURCE.FROM_GUI s).heat_feedback_waiting
        = s.heat_feedback_waiting
    ∧ ((heatSetTargetTemp L cfg i v TEMP_SOURCE.FROM_GUI s).T r).current = (s.T r).current
    ∧ (|(s.T r).current - max 0 (min v (cfg.max_temp r : Int))| ≤ (L.TEMPERATURE_RANGE : Int) →
        ((heatSetTargetTemp L cfg i v TEMP_SOURCE.FROM_GUI s).T r).status = HEATER_STATUS.SETTLED)
    ∧ (¬ |(s.T r).current - max 0 (min v (cfg.max_temp r : Int))| ≤ (L.TEMPERATURE_RANGE : Int) →
        (max 0 (min v (cfg.max_temp r : Int)) > (s.T r).current →
          ((heatSetTargetTemp L cfg i v TEMP_SOURCE.FROM_GUI s).T r).status
            = HEATER_STATUS.HEATING)
        ∧ (max 0 (min v (cfg.max_temp r : Int)) < (s.T r).current →
          ((heatSetTargetTemp L cfg i v TEMP_SOURCE.FROM_GUI s).T r).status
            = HEATER_STATUS.COOLING)) := by
  have hr8 : r < 8 := by omega
  simp only [heatSetTargetTemp, hr, if_neg hacc, NOBEYOND, setT, Function.update_same]
  by_cases hin : inRange (s.T r).current (max 0 (min v (cfg.max_temp r : Int)))
      (L.TEMPERATURE_RANGE : Int) = true
  · have habs := (inRange_iff _ _ _).1 hin
    rw [if_pos hin]
    simp only [Function.update_same]
    exact ⟨trivial, GET_BIT_SET_BIT_ON_self _ _ hr8, trivial, trivial, fun _ => trivial,
      fun h => absurd habs h⟩
  · have habs : ¬ |(s.T r).current - max 0 (min v (cfg.max_temp r : Int))|
        ≤ (L.TEMPERATURE_RANGE : Int) := fun h => hin ((inRange_iff _ _ _).2 h)
    rw [if_neg hin]
    simp only [Function.update_same]
    refine ⟨trivial, GET_BIT_SET_BIT_ON_self _ _ hr8, trivial, trivial, fun h => absurd h habs,
      fun _ => ⟨fun hgt => ?_, fun hlt => ?_⟩⟩
    · simp [hgt]
    · have : ¬ (max 0 (min v (cfg.max_temp r : Int)) > (s.T r).current) := by omega
      simp [this]

/-- C3 at a concrete input: 200 degrees asked from the UI for tool 2 of the
single-nozzle machine, nozzle at 25 degrees: HEATING towards 200. -/
theorem C3_ui_write_witness :
    heaterIndexFix exLayout exSettings 2 = 0
    ∧ ((heatSetTargetTemp exLayout exSettings 2 200 TEMP_SOURCE.FROM_GUI exState).T 0).target
        = max 0 (min 200 (exSettings.max_temp 0 : Int))
    ∧ GET_BIT (heatSetTargetTemp exLayout exSettings 2 200 TEMP_SOURCE.FROM_GUI
        exState).heat_send_waiting 0 = true :=
  ⟨by decide,
   (C3_ui_write exLayout exSettings 2 0 200 exState (by decide) (by decide) (by decide)
      (by decide)).1,
   (C3_ui_write exLayout exSettings 2 0 200 exState (by decide) (by decide) (by decide)
      (by decide)).2.1⟩

/-- C4: no echo amplification.  For an accepted index resolved to slot `r`,
`heatSetTargetTemp(i, v, FROM_CMD)`, then any list of `loopCheckHeater` ticks
under any channel, then `heatSetTargetTemp(i, v, FROM_HOST)`: neither call
submits anything, the ticks in between submit no target command for slot `r`,
the send bit of `r` ends as it started and its echo bit ends clear. -/
theorem C4_no_echo_amplification (L : Layout) (cfg : Settings) (ch : Nat → Bool) (i r : Nat)
    (v : Int) (s : State) (tks : List Tick)
    (hr : heaterIndexFix L cfg i = r) (hacc : r ≠ L.INVALID_HEATER)
    (hslot : r < L.MAX_HEATER_COUNT) (hL : L.MAX_HEATER_COUNT ≤ 8) :
    (heatSetTargetTemp L cfg i v TEMP_SOURCE.FROM_CMD s).sent = s.sent
    ∧ (∃ new,
        (runTicks L cfg ch tks (heatSetTargetTemp L cfg i v TEMP_SOURCE.FROM_CMD s)).sent
            = s.sent ++ new
        ∧ ∀ e ∈ new, isHeatFor r e = false)
    ∧ (heatSetTargetTemp L cfg i v TEMP_SOURCE.FROM_HOST
          (runTicks L cfg ch tks (heatSetTargetTemp L cfg i v TEMP_SOURCE.FROM_CMD s))).sent
        = (runTicks L cfg ch tks (heatSetTargetTemp L cfg i v TEMP_SOURCE.FROM_CMD s)).sent
    ∧ GET_BIT (heatSetTargetTemp L cfg i v TEMP_SOURCE.FROM_HOST
          (runTicks L cfg ch tks
            (heatSetTargetTemp L cfg i v TEMP_SOURCE.FROM_CMD s))).heat_send_waiting r
        = GET_BIT s.heat_send_waiting r
    ∧ GET_BIT (heatSetTargetTemp L cfg i v TEMP_SOURCE.FROM_HOST
          (runTicks L cfg ch tks
            (heatSetTargetTemp L cfg i v TEMP_SOURCE.FROM_CMD s))).heat_feedback_waiting r
        = false := by
  have hr8 : r < 8 := by omega
  obtain ⟨c1, c2, c3⟩ := fromCmd_flags L cfg i r v s hr hacc hr8
  obtain ⟨t1, t2, new, t3, t4⟩ := runTicks_echo_set L cfg ch tks _ r hr8 c1
  obtain ⟨h1, h2, h3⟩ := fromHost_flags L cfg i r v
    (runTicks L cfg ch tks (heatSetTargetTemp L cfg i v TEMP_SOURCE.FROM_CMD s)) hr hacc hr8 t1
  exact ⟨c3, ⟨new, by rw [t3, c3], t4⟩, h3, by rw [h2, t2, c2], h1⟩

/-- C4 at a concrete input: a UI write is pending on the nozzle, a script sets
210 degrees for tool 2, two ticks run under an accepting channel, the echo
arrives: the echo bit ends clear and the send bit is still the pending one. -/
theorem C4_no_echo_amplification_witness :
    heaterIndexFix exLayout exSettings 2 = 0
    ∧ GET_BIT (heatSetTargetTemp exLayout exSettings 2 210 TEMP_SOURCE.FROM_HOST
          (runTicks exLayout exSettings exAccept exTicks
            (heatSetTargetTemp exLayout exSettings 2 210 TEMP_SOURCE.FROM_CMD
              exStateSend))).heat_send_waiting 0
        = GET_BIT exStateSend.heat_send_waiting 0
    ∧ GET_BIT (heatSetTargetTemp exLayout exSettings 2 210 TEMP_SOURCE.FROM_HOST
          (runTicks exLayout exSettings exAccept exTicks
            (heatSetTargetTemp exLayout exSettings 2 210 TEMP_SOURCE.FROM_CMD
              exStateSend))).heat_feedback_waiting 0
        = false :=
  ⟨by decide,
   (C4_no_echo_amplification exLayout exSettings exAccept 2 0 210 exStateSend exTicks
      (by decide) (by decide) (by decide) (by decide)).2.2.2⟩

set_option maxRecDepth 100000 in
/-- C5, as stated, fails: with the echo bit of the nozzle already raised, a UI
write of 200 degrees followed by two ticks under a channel that accepts
everything leaves the write untransmitted and the send bit set. -/
theorem C5_counterexample :
    heaterIndexFix exLayout exSettings 0 = 0
    ∧ exLayout.INVALID_HEATER ≠ 0
    ∧ (runTicks exLayout exSettings exAccept exTicks
          (heatSetTargetTemp exLayout exSettings 0 200 TEMP_SOURCE.FROM_GUI exStateEcho)).sent
        = [(Cmd.M105, true)]
    ∧ GET_BIT (runTicks exLayout exSettings exAccept exTicks
          (heatSetTargetTemp exLayout exSettings 0 200 TEMP_SOURCE.FROM_GUI
            exStateEcho)).heat_send_waiting 0 = true := by
  decide

/-- C5, amended: a UI write made while the echo bit of the slot is clear is
delivered.  For an accepted index resolved to slot `r`, a value `v` of the
`int16_t` range, a channel that accepts every submission from the `n`-th one
after the write, and any run of more than `n` ticks with nothing else touching
the state: exactly one accepted target command for slot `r` is logged, it
carries `v` clamped to `[0, max_temp[r]]`, and the send bit of `r` ends clear. -/
theorem C5_ui_write_delivered (L : Layout) (cfg : Settings) (ch : Nat → Bool) (i r : Nat)
    (v : Int) (s : State) (tks : List Tick) (n : Nat)
    (hr : heaterIndexFix L cfg i = r) (hacc : r ≠ L.INVALID_HEATER)
    (hslot : r < L.MAX_HEATER_COUNT) (hL : L.MAX_HEATER_COUNT ≤ 8)
    (hv : v ≤ 32767)
    (hecho : GET_BIT s.heat_feedback_waiting r = false)
    (hch : ∀ k, n ≤ k → ch (s.sent.length + k) = true)
    (hlen : n < tks.length) :
    ∃ new,
      (runTicks L cfg ch tks (heatSetTargetTemp L cfg i v TEMP_SOURCE.FROM_GUI s)).sent
          = s.sent ++ new
      ∧ new.filter (isAcceptedHeatFor r)
          = [(Cmd.heat r (max 0 (min v (cfg.max_temp r : Int))).toNat, true)]
      ∧ GET_BIT (runTicks L cfg ch tks
          (heatSetTargetTemp L cfg i v TEMP_SOURCE.FROM_GUI s)).heat_send_waiting r = false := by
  have hr8 : r < 8 := by omega
  obtain ⟨g1, g2, g3, g4⟩ := fromGui_flags L cfg i r v s hr hacc hr8
  have hp : Pending r (heatSetTargetTemp L cfg i v TEMP_SOURCE.FROM_GUI s) := by
    unfold Pending; rw [g2]; exact ⟨g1, hecho⟩
  have hidem : heaterIndexFix L cfg r = r := by
    have := heaterIndexFix_idem L cfg i (by rw [hr]; exact hacc)
    rw [hr] at this; exact this
  have htgt : heatGetTargetTemp L cfg r (heatSetTargetTemp L cfg i v TEMP_SOURCE.FROM_GUI s)
      = (max 0 (min v (cfg.max_temp r : Int))).toNat := by
    unfold heatGetTargetTemp
    simp only [hidem, if_neg hacc]
    rw [g4]
    congr 1
    apply Int.emod_eq_of_lt <;> omega
  obtain ⟨new, d1, d2, d3⟩ := runTicks_delivers L cfg ch tks _ r n hslot hL hp
    (by rw [g3]; exact hch) hlen
  exact ⟨new, by rw [d1, g3], by rw [d3, htgt], d2.1⟩

/-- C5 (amended) at a concrete input: the channel rejects the first
submission; two ticks deliver the 200 degrees asked for tool 2. -/
theorem C5_ui_write_delivered_witness :
    heaterIndexFix exLayout exSettings 2 = 0
    ∧ GET_BIT exState.heat_feedback_waiting 0 = false
    ∧ ∃ new,
      (runTicks exLayout exSettings exRejectOnce exTicks
          (heatSetTargetTemp exLayout exSettings 2 200 TEMP_SOURCE.FROM_GUI exState)).sent
          = exState.sent ++ new
      ∧ new.filter (isAcceptedHeatFor 0)
          = [(Cmd.heat 0 (max 0 (min 200 (exSettings.max_temp 0 : Int))).toNat, true)]
      ∧ GET_BIT (runTicks exLayout exSettings exRejectOnce exTicks
          (heatSetTargetTemp exLayout exSettings 2 200 TEMP_SOURCE.FROM_GUI
            exState)).heat_send_waiting 0 = false :=
  ⟨by decide, by decide,
   C5_ui_write_delivered exLayout exSettings exRejectOnce 2 0 200 exState exTicks 1
     (by decide) (by decide) (by decide) (by decide) (by decide) (by decide)
     (fun k hk => by simp [exRejectOnce, exState]; omega) (by decide)⟩

/-! ## Index resolution -/

/-- C6: index fixup onto the shared nozzle.  With `hotend_count = 1`, a tool
index `k < ext_count` that is neither the bed nor the chamber index, and slot 0
a heater (not the invalid marker): the UI write through `k` gives the same
state as the UI write through 0, and `heatGetTargetTemp(0)` then returns `v`
clamped to `[0, max_temp[0]]` (for `v` of the `int16_t` range). -/
theorem C6_index_fixup (L : Layout) (cfg : Settings) (k : Nat) (v : Int) (s : State)
    (hh : cfg.hotend_count = 1) (hk : k < cfg.ext_count)
    (hbed : k ≠ L.BED) (hchamber : k ≠ L.CHAMBER)
    (hinv : NOZZLE0 ≠ L.INVALID_HEATER) (hv : v ≤ 32767) :
    heatSetTargetTemp L cfg k v TEMP_SOURCE.FROM_GUI s
        = heatSetTargetTemp L cfg 0 v TEMP_SOURCE.FROM_GUI s
    ∧ heatGetTargetTemp L cfg 0 (heatSetTargetTemp L cfg k v TEMP_SOURCE.FROM_GUI s)
        = (max 0 (min v (cfg.max_temp 0 : Int))).toNat := by
  have hfk : heaterIndexFix L cfg k = 0 := by
    unfold heaterIndexFix NOZZLE0
    rw [if_neg (fun h => hbed h.1), if_neg (fun h => hchamber h.1)]
    split_ifs <;> omega
  have hf0 : heaterIndexFix L cfg 0 = 0 := by
    unfold heaterIndexFix NOZZLE0
    have h0 : (0 : Nat) < cfg.hotend_count := by omega
    split_ifs <;> rfl
  have hinv0 : (0 : Nat) ≠ L.INVALID_HEATER := hinv
  have hsame : heatSetTargetTemp L cfg k v TEMP_SOURCE.FROM_GUI s
      = heatSetTargetTemp L cfg 0 v TEMP_SOURCE.FROM_GUI s := by
    simp only [heatSetTargetTemp, hfk, hf0]
  refine ⟨hsame, ?_⟩
  obtain ⟨-, -, -, g4⟩ := fromGui_flags L cfg k 0 v s hfk hinv0 (by omega)
  unfold heatGetTargetTemp
  simp only [hf0, if_neg hinv0]
  rw [g4]
  congr 1
  apply Int.emod_eq_of_lt <;> omega

/-- C6 at the input of the specification: `hotend_count = 1`, `ext_count = 3`,
`heatSetTargetTemp(2, 200, FROM_GUI)` then `heatGetTargetTemp(0)` returns 200. -/
theorem C6_index_fixup_witness :
    exSettings.hotend_count = 1 ∧ 2 < exSettings.ext_count
    ∧ heatGetTargetTemp exLayout exSettings 0
        (heatSetTargetTemp exLayout exSettings 2 200 TEMP_SOURCE.FROM_GUI exState) = 200 :=
  ⟨by decide, by decide,
   (C6_index_fixup exLayout exSettings 2 200 exState (by decide) (by decide) (by decide)
      (by decide) (by decide) (by decide)).2.trans (by decide)⟩

/-- C7: an index that `heaterIndexFix` rejects makes `heatSetTargetTemp` (any
origin), `heatSetCurrentTemp` and `heatSetIsWaiting` return the state as it
was, log included, and makes `heatGetTargetTemp` and `heatGetCurrentTemp`
return 0.  The rejected indices include, when `hotend_count` and `ext_count`
do not exceed the bed index and the chamber index follows the bed index: the
bed or chamber index while that zone is disabled, and every other index
`>= hotend_count` that is not collapsed onto the shared nozzle. -/
theorem C7_invalid_index_noop (L : Layout) (cfg : Settings) (ch : Nat → Bool) (now i : Nat)
    (v : Int) (src : TEMP_SOURCE) (w : Bool) (s : State)
    (hrej : heaterIndexFix L cfg i = L.INVALID_HEATER) :
    heatSetTargetTemp L cfg i v src s = s
    ∧ heatSetCurrentTemp L cfg now i v s = s
    ∧ heatSetIsWaiting L cfg ch i w s = s
    ∧ heatGetTargetTemp L cfg i s = 0
    ∧ heatGetCurrentTemp L cfg i s = 0
    ∧ ∀ j, L.BED < L.CHAMBER → cfg.hotend_count ≤ L.BED → cfg.ext_count ≤ L.BED →
        ((j = L.BED ∧ cfg.bed_en = false) ∨ (j = L.CHAMBER ∧ cfg.chamber_en = false)
          ∨ (j ≠ L.BED ∧ j ≠ L.CHAMBER ∧ cfg.hotend_count ≤ j
              ∧ ¬ (j < cfg.ext_count ∧ cfg.hotend_count = 1))) →
        heaterIndexFix L cfg j = L.INVALID_HEATER := by
  refine ⟨?_, ?_, ?_, ?_, ?_, ?_⟩
  · simp only [heatSetTargetTemp, hrej, if_true]
  · simp only [heatSetCurrentTemp, hrej, if_true]
  · simp only [heatSetIsWaiting, hrej, if_true]
  · simp only [heatGetTargetTemp, hrej, if_true]
  · simp only [heatGetCurrentTemp, hrej, if_true]
  · intro j hlay hh he hj
    unfold heaterIndexFix
    rcases hj with ⟨h1, h2⟩ | ⟨h1, h2⟩ | ⟨h1, h2, h3, h4⟩
    · subst h1
      rw [if_neg (by simp [h2]), if_neg (fun h => by omega), if_neg (by omega),
        if_neg (fun h => by omega)]
    · subst h1
      rw [if_neg (fun h => by omega), if_neg (by simp [h2]), if_neg (by omega),
        if_neg (fun h => by omega)]
    · rw [if_neg (fun h => h1 h.1), if_neg (fun h => h2 h.1), if_neg (by omega), if_neg h4]

/-- C7 at a concrete input: the chamber index while the chamber is disabled. -/
theorem C7_invalid_index_noop_witness :
    heaterIndexFix exLayout exSettings 7 = exLayout.INVALID_HEATER
    ∧ heatSetTargetTemp exLayout exSettings 7 60 TEMP_SOURCE.FROM_GUI exState = exState
    ∧ heatGetTargetTemp exLayout exSettings 7 exState = 0 :=
  ⟨by decide,
   (C7_invalid_index_noop exLayout exSettings exAccept 0 7 60 TEMP_SOURCE.FROM_GUI true exState
      (by decide)).1,
   (C7_invalid_index_noop exLayout exSettings exAccept 0 7 60 TEMP_SOURCE.FROM_GUI true exState
      (by decide)).2.2.2.1⟩

/-! ## Dead-band status -/

set_option maxRecDepth 100000 in
/-- C8, as stated, fails: the nozzle is SETTLED with target 0 and dead-band 2;
its current temperature is set to -3, one unit below the band, and a tick
runs: the status is still SETTLED, not HEATING. -/
theorem C8_counterexample :
    heaterIndexFix exLayout exSettings 0 = 0
    ∧ (exState.T 0).target = 0 ∧ exLayout.TEMPERATURE_RANGE = 2
    ∧ ((loopCheckHeater exLayout exSettings exAccept exTick
          (heatSetCurrentTemp exLayout exSettings 0 0 (-3) exState)).T 0).status
        = HEATER_STATUS.SETTLED := by
  decide

/-- C8, amended: for an accepted index resolved to slot `r` of the table with
target `T` and dead-band `B`, after `heatSetCurrentTemp(i, c)` and one tick the
status of `r` is SETTLED when it was SETTLED before or when the stored current
temperature (`c` clamped to `[-99, 999]`) lies within `[T-B, T+B]`, and is the
prior status otherwise; in particular SETTLED for every `c` of `[-99, 999]`
with `T-B <= c <= T+B`. -/
theorem C8_dead_band_status (L : Layout) (cfg : Settings) (ch : Nat → Bool) (tk : Tick)
    (now i r : Nat) (c : Int) (s : State)
    (hr : heaterIndexFix L cfg i = r) (hacc : r ≠ L.INVALID_HEATER)
    (hslot : r < L.MAX_HEATER_COUNT) :
    ((s.T r).status = HEATER_STATUS.SETTLED →
        ((loopCheckHeater L cfg ch tk (heatSetCurrentTemp L cfg now i c s)).T r).status
          = HEATER_STATUS.SETTLED)
    ∧ (|max (-99) (min c 999) - (s.T r).target| ≤ (L.TEMPERATURE_RANGE : Int) →
        ((loopCheckHeater L cfg ch tk (heatSetCurrentTemp L cfg now i c s)).T r).status
          = HEATER_STATUS.SETTLED)
    ∧ (¬ |max (-99) (min c 999) - (s.T r).target| ≤ (L.TEMPERATURE_RANGE : Int) →
        ((loopCheckHeater L cfg ch tk (heatSetCurrentTemp L cfg now i c s)).T r).status
          = (s.T r).status)
    ∧ (-99 ≤ c → c ≤ 999 →
        (s.T r).target - (L.TEMPERATURE_RANGE : Int) ≤ c →
        c ≤ (s.T r).target + (L.TEMPERATURE_RANGE : Int) →
        ((loopCheckHeater L cfg ch tk (heatSetCurrentTemp L cfg now i c s)).T r).status
          = HEATER_STATUS.SETTLED) := by
  rw [tick_status L cfg ch tk _ r hslot, setCurrent_T L cfg now i r c s hr hacc]
  unfold settledStatus
  simp only
  by_cases hin : inRange (max (-99) (min c 999)) (s.T r).target (L.TEMPERATURE_RANGE : Int) = true
  · have habs := (inRange_iff _ _ _).1 hin
    rw [hin]
    refine ⟨fun h => ?_, fun _ => ?_, fun h => absurd habs h, fun _ _ _ _ => ?_⟩ <;>
      cases hst : (s.T r).status <;> simp_all
  · have habs : ¬ |max (-99) (min c 999) - (s.T r).target| ≤ (L.TEMPERATURE_RANGE : Int) :=
      fun h => hin ((inRange_iff _ _ _).2 h)
    have hin' : inRange (max (-99) (min c 999)) (s.T r).target (L.TEMPERATURE_RANGE : Int)
        = false := by simpa using hin
    rw [hin']
    refine ⟨fun h => ?_, fun h => absurd h habs, fun _ => ?_, fun h1 h2 h3 h4 => ?_⟩
    · simp [h]
    · simp
    · exfalso
      apply habs
      rw [abs_le]
      constructor <;> omega

/-- C8 (amended) at a concrete input: the nozzle is HEATING towards 100, the
current temperature 98 arrives, a tick runs: SETTLED. -/
theorem C8_dead_band_status_witness :
    heaterIndexFix exLayout exSettings 0 = 0
    ∧ ((loopCheckHeater exLayout exSettings exAccept exTick
          (heatSetCurrentTemp exLayout exSettings 0 0 98 exStateHeating)).T 0).status
        = HEATER_STATUS.SETTLED :=
  ⟨by decide,
   (C8_dead_band_status exLayout exSettings exAccept exTick 0 0 0 98 exStateHeating
      (by decide) (by decide) (by decide)).2.1 (by decide)⟩

/-! ## Polling and the auto-report watchdog -/

set_option maxRecDepth 100000 in
/-- C9, as stated, fails: auto-report mode, fast interval, timeout elapsed,
nothing outstanding, no heater waiting, heat menu not shown, channel rejecting:
the tick attempts two `M155` submissions, the re-arm of the watchdog and the
relaxation to the slow interval. -/
theorem C9_counterexample :
    exSettingsAuto.autoReportTemp = true
    ∧ AUTOREPORT_TIMEOUT exStateFast ≤ exTick.now
    ∧ exStateFast.heat_update_waiting = false
    ∧ (loopCheckHeater exLayout exSettingsAuto exReject exTick exStateFast).sent
        = [(Cmd.M155 1, false), (Cmd.M155 3, false)] := by
  decide

/-- C9, amended: in auto-report mode, when the tick finds
`now >= AUTOREPORT_TIMEOUT` (deadline + 3000 ms, a `uint32_t` sum) and nothing
outstanding, the watchdog branch attempts exactly one `M155` submission,
carrying the current interval, whatever the channel answers; when the channel
accepts it, it is the only `M155` of the whole tick, the outstanding flag is
set and the deadline is `now + interval` (in ms, a `uint32_t` sum) after the
tick.  A tick that starts with the flag set keeps it set and attempts no
`M155` at all.  When the timeout has not elapsed or the flag is set, the
watchdog branch does nothing. -/
theorem C9_auto_report_self_heal (L : Layout) (cfg : Settings) (ch : Nat → Bool) (tk : Tick)
    (s : State) (ha : cfg.autoReportTemp = true) :
    ((AUTOREPORT_TIMEOUT s ≤ tk.now ∧ s.heat_update_waiting = false) →
        (loopCheckHeater_poll cfg ch tk s).sent
            = s.sent ++ [(Cmd.M155 s.heat_update_seconds, ch s.sent.length)]
        ∧ (ch s.sent.length = true →
            (loopCheckHeater L cfg ch tk s).heat_update_waiting = true
            ∧ (loopCheckHeater L cfg ch tk s).heat_next_update_time
                = (tk.now + s.heat_update_seconds * 1000) % 4294967296
            ∧ ∃ new, (loopCheckHeater L cfg ch tk s).sent = s.sent ++ new
                ∧ new.filter isM155 = [(Cmd.M155 s.heat_update_seconds, true)]))
    ∧ (s.heat_update_waiting = true →
        (loopCheckHeater L cfg ch tk s).heat_update_waiting = true
        ∧ ∃ new, (loopCheckHeater L cfg ch tk s).sent = s.sent ++ new
            ∧ new.filter isM155 = [])
    ∧ (¬ (AUTOREPORT_TIMEOUT s ≤ tk.now ∧ s.heat_update_waiting = false) →
        loopCheckHeater_poll cfg ch tk s = s) := by
  refine ⟨fun hfire => ?_, fun hw => ?_, fun hidle => ?_⟩
  · have hp := poll_auto_send cfg ch tk s ha hfire
    refine ⟨by rw [hp], fun hc => ?_⟩
    have hflag : (loopCheckHeater_poll cfg ch tk s).heat_update_waiting = true := by
      rw [hp]; exact hc
    obtain ⟨t1, t2, new, t3, t4, -⟩ := tick_after_poll L cfg ch tk s (Or.inr hflag)
    refine ⟨by rw [t1, hflag], ?_, (Cmd.M155 s.heat_update_seconds, true) :: new, ?_, ?_⟩
    · rw [t2, hp]
      simp [hc, SEC_TO_MS]
    · rw [t3, hp]
      simp [hc]
    · rw [List.filter_cons_of_pos (by simp [isM155]), t4]
  · have hidle : ¬ (tk.now ≥ AUTOREPORT_TIMEOUT s ∧ s.heat_update_waiting = false) := by
      rw [hw]; simp
    have hp := poll_auto_idle cfg ch tk s ha hidle
    obtain ⟨t1, -, new, t3, t4, -⟩ := tick_after_poll L cfg ch tk s
      (Or.inr (by rw [hp]; exact hw))
    rw [hp] at t1 t3
    exact ⟨by rw [t1, hw], new, t3, t4⟩
  · exact poll_auto_idle cfg ch tk s ha hidle

/-- C9 (amended) at a concrete input: timeout elapsed, channel accepting: the
flag is set after the tick and the deadline is 5000 + 1000. -/
theorem C9_auto_report_self_heal_witness :
    exSettingsAuto.autoReportTemp = true
    ∧ (loopCheckHeater exLayout exSettingsAuto exAccept exTick exStateFast).heat_update_waiting
        = true
    ∧ (loopCheckHeater exLayout exSettingsAuto exAccept exTick exStateFast).heat_next_update_time
        = (exTick.now + exStateFast.heat_update_seconds * 1000) % 4294967296 :=
  ⟨by decide,
   (((C9_auto_report_self_heal exLayout exSettingsAuto exAccept exTick exStateFast
      (by decide)).1 (by decide)).2 (by decide)).1,
   (((C9_auto_report_self_heal exLayout exSettingsAuto exAccept exTick exStateFast
      (by decide)).1 (by decide)).2 (by decide)).2.1⟩

/-- C10: explicit-poll mode (no auto-report).  A tick at time `now`
(a) logs no `M105` and keeps deadline and outstanding flag when
`now < deadline` or a request is running; (b) otherwise, with a poll
outstanding, sets the deadline to `now + interval` (in ms, a `uint32_t` sum),
keeps the flag and logs no `M105`; (c) otherwise attempts exactly one `M105`
submission, and sets the flag and the deadline `now + interval` when it is
accepted, leaves the flag clear and the deadline as it was when it is
rejected. -/
theorem C10_explicit_poll (L : Layout) (cfg : Settings) (ch : Nat → Bool) (tk : Tick)
    (s : State) (ha : cfg.autoReportTemp = false) :
    ((tk.now < s.heat_next_update_time ∨ tk.requestCommandInfoIsRunning = true) →
        (loopCheckHeater L cfg ch tk s).heat_next_update_time = s.heat_next_update_time
        ∧ (loopCheckHeater L cfg ch tk s).heat_update_waiting = s.heat_update_waiting
        ∧ ∃ new, (loopCheckHeater L cfg ch tk s).sent = s.sent ++ new
            ∧ new.filter isM105 = [])
    ∧ (¬ (tk.now < s.heat_next_update_time ∨ tk.requestCommandInfoIsRunning = true) →
        s.heat_update_waiting = true →
        (loopCheckHeater L cfg ch tk s).heat_next_update_time
            = (tk.now + s.heat_update_seconds * 1000) % 4294967296
        ∧ (loopCheckHeater L cfg ch tk s).heat_update_waiting = true
        ∧ ∃ new, (loopCheckHeater L cfg ch tk s).sent = s.sent ++ new
            ∧ new.filter isM105 = [])
    ∧ (¬ (tk.now < s.heat_next_update_time ∨ tk.requestCommandInfoIsRunning = true) →
        s.heat_update_waiting = false →
        (∃ new, (loopCheckHeater L cfg ch tk s).sent = s.sent ++ new
            ∧ new.filter isM105 = [(Cmd.M105, ch s.sent.length)])
        ∧ (ch s.sent.length = true →
            (loopCheckHeater L cfg ch tk s).heat_update_waiting = true
            ∧ (loopCheckHeater L cfg ch tk s).heat_next_update_time
                = (tk.now + s.heat_update_seconds * 1000) % 4294967296)
        ∧ (ch s.sent.length = false →
            (loopCheckHeater L cfg ch tk s).heat_update_waiting = false
            ∧ (loopCheckHeater L cfg ch tk s).heat_next_update_time
                = s.heat_next_update_time)) := by
  obtain ⟨t1, t2, new, t3, -, t5⟩ := tick_after_poll L cfg ch tk s (Or.inl ha)
  refine ⟨fun hidle => ?_, fun hgo hw => ?_, fun hgo hw => ?_⟩
  · have hp := poll_explicit_idle cfg ch tk s ha hidle
    rw [hp] at t1 t2 t3
    exact ⟨t2, t1, new, t3, t5⟩
  · have hp := poll_explicit_extend cfg ch tk s ha hgo hw
    rw [hp] at t1 t2 t3
    exact ⟨by rw [t2]; simp [SEC_TO_MS], by rw [t1]; exact hw, new, t3, t5⟩
  · have hp := poll_explicit_send cfg ch tk s ha hgo hw
    rw [hp] at t1 t2 t3
    refine ⟨⟨(Cmd.M105, ch s.sent.length) :: new, ?_, ?_⟩, fun hc => ?_, fun hc => ?_⟩
    · rw [t3]; simp
    · rw [List.filter_cons_of_pos (by simp [isM105]), t5]
    · exact ⟨by rw [t1]; exact hc, by rw [t2]; simp [hc, SEC_TO_MS]⟩
    · exact ⟨by rw [t1]; exact hc, by rw [t2]; simp [hc]⟩

/-- C10 at a concrete input: deadline reached, nothing outstanding, channel
accepting: the poll is logged, the flag set, the deadline 5000 + 3000. -/
theorem C10_explicit_poll_witness :
    exSettings.autoReportTemp = false
    ∧ (loopCheckHeater exLayout exSettings exAccept exTick exState).heat_update_waiting = true
    ∧ (loopCheckHeater exLayout exSettings exAccept exTick exState).heat_next_update_time
        = (exTick.now + exState.heat_update_seconds * 1000) % 4294967296 :=
  ⟨by decide,
   ((C10_explicit_poll exLayout exSettings exAccept exTick exState (by decide)).2.2
      (by decide) (by decide)).2.1 (by decide)⟩

/-- C11, as stated, fails: auto-report mode with an `M155` outstanding; the
interval is changed from 3 to 1 and nothing is submitted. -/
theorem C11_counterexample :
    exSettingsAuto.autoReportTemp = true
    ∧ exStateOutstanding.heat_update_seconds ≠ 1
    ∧ (heatSetUpdateSeconds exSettingsAuto exAccept 1 exStateOutstanding).heat_update_seconds = 1
    ∧ (heatSetUpdateSeconds exSettingsAuto exAccept 1 exStateOutstanding).sent = [] := by
  decide

/-- C11, amended: `heatSetUpdateSeconds(sec)` returns the state as it was when
`sec` is the current interval; otherwise it stores `sec` as the interval,
leaves heaters, flags and deadline alone, and: in auto-report mode with no
`M155` outstanding it attempts exactly one submission, `M155` carrying `sec`,
the outstanding flag taking the channel's answer; in auto-report mode with one
outstanding, and in explicit-poll mode, it submits nothing and keeps the
outstanding flag. -/
theorem C11_interval_change (cfg : Settings) (ch : Nat → Bool) (sec : Nat) (s : State) :
    (s.heat_update_seconds = sec → heatSetUpdateSeconds cfg ch sec s = s)
    ∧ (s.heat_update_seconds ≠ sec →
        (heatSetUpdateSeconds cfg ch sec s).heat_update_seconds = sec
        ∧ (heatSetUpdateSeconds cfg ch sec s).heat_next_update_time = s.heat_next_update_time
        ∧ (heatSetUpdateSeconds cfg ch sec s).T = s.T
        ∧ (heatSetUpdateSeconds cfg ch sec s).heat_send_waiting = s.heat_send_waiting
        ∧ (heatSetUpdateSeconds cfg ch sec s).heat_feedback_waiting = s.heat_feedback_waiting)
    ∧ (s.heat_update_seconds ≠ sec → cfg.autoReportTemp = true →
        s.heat_update_waiting = false →
        (heatSetUpdateSeconds cfg ch sec s).sent = s.sent ++ [(Cmd.M155 sec, ch s.sent.length)]
        ∧ (heatSetUpdateSeconds cfg ch sec s).heat_update_waiting = ch s.sent.length)
    ∧ (s.heat_update_seconds ≠ sec → cfg.autoReportTemp = true →
        s.heat_update_waiting = true →
        (heatSetUpdateSeconds cfg ch sec s).sent = s.sent
        ∧ (heatSetUpdateSeconds cfg ch sec s).heat_update_waiting = true)
    ∧ (s.heat_update_seconds ≠ sec → cfg.autoReportTemp = false →
        (heatSetUpdateSeconds cfg ch sec s).sent = s.sent
        ∧ (heatSetUpdateSeconds cfg ch sec s).heat_update_waiting = s.heat_update_waiting
        ∧ (heatSetUpdateSeconds cfg ch sec s).heat_next_update_time
            = s.heat_next_update_time) := by
  refine ⟨fun h => heatSetUpdateSeconds_same cfg ch sec s h, fun h => ?_, fun h ha hw => ?_,
    fun h ha hw => ?_, fun h ha => ?_⟩
  · obtain ⟨f1, f2, f3, -, f5, -⟩ := heatSetUpdateSeconds_frame cfg ch sec s
    refine ⟨?_, f5, f1, f2, f3⟩
    by_cases hq : cfg.autoReportTemp = true ∧ s.heat_update_waiting = false
    · rw [heatSetUpdateSeconds_submit cfg ch sec s h hq.1 hq.2]
    · have hq' : cfg.autoReportTemp = false ∨ s.heat_update_waiting = true := by
        cases h1 : cfg.autoReportTemp <;> cases h2 : s.heat_update_waiting <;> simp_all
      rw [heatSetUpdateSeconds_quiet cfg ch sec s h hq']
  · rw [heatSetUpdateSeconds_submit cfg ch sec s h ha hw]
    exact ⟨rfl, rfl⟩
  · rw [heatSetUpdateSeconds_quiet cfg ch sec s h (Or.inr hw)]
    exact ⟨rfl, hw⟩
  · rw [heatSetUpdateSeconds_quiet cfg ch sec s h (Or.inl ha)]
    exact ⟨rfl, rfl, rfl⟩

/-! ## Current temperature -/

/-- C17: for an index that `heaterIndexFix` accepts, resolved to slot `r`,
`heatSetCurrentTemp(i, t)` stores `t` clamped to `[-99, 999]` as current
temperature of `r`, so that `heatGetCurrentTemp(i)` returns it; target, status
and wait flag of `r`, the other heaters, both flag bytes and the command log
are unchanged; the deadline becomes `now + interval` (in ms, a `uint32_t` sum)
in auto-report mode and is unchanged in explicit-poll mode. -/
theorem C17_current_temp_update (L : Layout) (cfg : Settings) (now i r : Nat) (t : Int)
    (s : State) (hr : heaterIndexFix L cfg i = r) (hacc : r ≠ L.INVALID_HEATER) :
    ((heatSetCurrentTemp L cfg now i t s).T r).current = max (-99) (min t 999)
    ∧ heatGetCurrentTemp L cfg i (heatSetCurrentTemp L cfg now i t s) = max (-99) (min t 999)
    ∧ ((heatSetCurrentTemp L cfg now i t s).T r).target = (s.T r).target
    ∧ ((heatSetCurrentTemp L cfg now i t s).T r).status = (s.T r).status
    ∧ ((heatSetCurrentTemp L cfg now i t s).T r).waiting = (s.T r).waiting
    ∧ (∀ j, j ≠ r → (heatSetCurrentTemp L cfg now i t s).T j = s.T j)
    ∧ (heatSetCurrentTemp L cfg now i t s).heat_send_waiting = s.heat_send_waiting
    ∧ (heatSetCurrentTemp L cfg now i t s).heat_feedback_waiting = s.heat_feedback_waiting
    ∧ (heatSetCurrentTemp L cfg now i t s).sent = s.sent
    ∧ (cfg.autoReportTemp = true →
        (heatSetCurrentTemp L cfg now i t s).heat_next_update_time
          = (now + s.heat_update_seconds * 1000) % 4294967296)
    ∧ (cfg.autoReportTemp = false →
        (heatSetCurrentTemp L cfg now i t s).heat_next_update_time
          = s.heat_next_update_time) := by
  have hT := setCurrent_T L cfg now i r t s hr hacc
  refine ⟨by rw [hT], ?_, by rw [hT], by rw [hT], by rw [hT], ?_, ?_, ?_, ?_, ?_, ?_⟩
  · unfold heatGetCurrentTemp
    simp only [hr, if_neg hacc]
    rw [hT]
  · intro j hj
    simp only [heatSetCurrentTemp, hr, if_neg hacc, setT]
    split <;> simp [heatSetNextUpdateTime, Function.update, hj]
  · simp only [heatSetCurrentTemp, hr, if_neg hacc, setT]
    split <;> rfl
  · simp only [heatSetCurrentTemp, hr, if_neg hacc, setT]
    split <;> rfl
  · simp only [heatSetCurrentTemp, hr, if_neg hacc, setT]
    split <;> rfl
  · intro ha
    simp only [heatSetCurrentTemp, hr, if_neg hacc, setT, ha, if_true, heatSetNextUpdateTime,
      SEC_TO_MS]
  · intro ha
    simp only [heatSetCurrentTemp, hr, if_neg hacc, setT, ha]
    rfl

/-- C17 at a concrete input: 1200 degrees reported for tool 2 of the
single-nozzle machine is stored as 999 in slot 0. -/
theorem C17_current_temp_update_witness :
    heaterIndexFix exLayout exSettings 2 = 0
    ∧ heatGetCurrentTemp exLayout exSettings 2
        (heatSetCurrentTemp exLayout exSettings 0 2 1200 exState) = max (-99) (min 1200 999) :=
  ⟨by decide,
   (C17_current_temp_update exLayout exSettings 0 2 0 1200 exState (by decide) (by decide)).2.1⟩

/-! ## Pending-send flush -/

set_option maxRecDepth 100000 in
/-- C18, as stated, fails, under one configuration and from calls of the
interface only: the nozzle gets 200 degrees from the UI, then -5 degrees from
a script, then the echo of the script's write.  Slot 0 resolves to itself,
stores the target -5 and has its send bit set and its echo bit clear; the tick
submits one command of slot 0 and it carries 65531, not the stored -5. -/
theorem C18_counterexample :
    0 < exLayout.MAX_HEATER_COUNT
    ∧ heaterIndexFix exLayout exSettings 0 = 0
    ∧ (exStateNegative.T 0).target = -5
    ∧ GET_BIT exStateNegative.heat_send_waiting 0 = true
    ∧ GET_BIT exStateNegative.heat_feedback_waiting 0 = false
    ∧ (loopCheckHeater exLayout exSettings exAccept exTick exStateNegative).sent
        = [(Cmd.M105, true), (Cmd.heat 0 65531, true)] := by
  decide

/-- C18, amended: in one `loopCheckHeater` tick, for every slot
`i < MAX_HEATER_COUNT`, a target command of slot `i` is attempted exactly when
its send bit is set and its echo bit is clear (at the start of the tick, and
equally at the point where the loop reaches the slot), once, and it carries
`heatGetTargetTemp(i)`, the `uint16_t` read-back of the target.  That value is
the target stored in slot `i` when `i` resolves to itself, as every slot
accepted by index resolution does, and the stored target is non-negative (in
`[0, 65535]`).  Accepted, the send bit ends clear and the echo bit set;
rejected, or not attempted, both bits are as before.  No target changes in a
tick. -/
theorem C18_flush_step (L : Layout) (cfg : Settings) (ch : Nat → Bool) (tk : Tick) (s : State)
    (i : Nat) (hslot : i < L.MAX_HEATER_COUNT) (hL : L.MAX_HEATER_COUNT ≤ 8) :
    (∃ new, (loopCheckHeater L cfg ch tk s).sent = s.sent ++ new
      ∧ (¬ Pending i s →
          new.filter (isHeatFor i) = []
          ∧ GET_BIT (loopCheckHeater L cfg ch tk s).heat_send_waiting i
              = GET_BIT s.heat_send_waiting i
          ∧ GET_BIT (loopCheckHeater L cfg ch tk s).heat_feedback_waiting i
              = GET_BIT s.heat_feedback_waiting i)
      ∧ (Pending i s →
          ∃ a, new.filter (isHeatFor i) = [(Cmd.heat i (heatGetTargetTemp L cfg i s), a)]
            ∧ (a = true →
                GET_BIT (loopCheckHeater L cfg ch tk s).heat_send_waiting i = false
                ∧ GET_BIT (loopCheckHeater L cfg ch tk s).heat_feedback_waiting i = true)
            ∧ (a = false →
                GET_BIT (loopCheckHeater L cfg ch tk s).heat_send_waiting i = true
                ∧ GET_BIT (loopCheckHeater L cfg ch tk s).heat_feedback_waiting i = false)))
    ∧ (∀ st, (Pending i st →
          (loopCheckHeater_slot L cfg ch i st).sent
            = st.sent ++ [(Cmd.heat i (heatGetTargetTemp L cfg i st), ch st.sent.length)])
        ∧ (¬ Pending i st → (loopCheckHeater_slot L cfg ch i st).sent = st.sent))
    ∧ (∀ k, ((loopCheckHeater L cfg ch tk s).T k).target = (s.T k).target)
    ∧ (heaterIndexFix L cfg i = i → i ≠ L.INVALID_HEATER →
        0 ≤ (s.T i).target → (s.T i).target < 65536 →
        (heatGetTargetTemp L cfg i s : Int) = (s.T i).target)
    ∧ (∀ j, heaterIndexFix L cfg j ≠ L.INVALID_HEATER →
        heaterIndexFix L cfg (heaterIndexFix L cfg j) = heaterIndexFix L cfg j) := by
  refine ⟨?_, fun st => ⟨fun hp => (slot_fire L cfg ch i st hp).1,
    fun hp => (slot_skip L cfg ch i st hp).1⟩, fun k => (tick_T L cfg ch tk s k).1, ?_,
    fun j hj => heaterIndexFix_idem L cfg j hj⟩
  · obtain ⟨new, h1, h2, h3⟩ := tick_visit_once L cfg ch tk s i hslot hL
    refine ⟨new, h1, h2, fun hp => ?_⟩
    obtain ⟨a, b1, b2, b3⟩ := h3 hp
    exact ⟨a, b1, b2, b3⟩
  · intro hfix hinv h0 h1
    unfold heatGetTargetTemp
    simp only [hfix, if_neg hinv]
    rw [Int.emod_eq_of_lt h0 h1, Int.toNat_of_nonneg h0]

/-- C18 at a concrete input: the nozzle has a UI write pending with its echo
bit clear.  The tick logs exactly one command of slot 0, carrying
`heatGetTargetTemp(0)`, which is the stored target; the channel's answer
decides the two flag bits. -/
theorem C18_flush_step_witness :
    0 < exLayout.MAX_HEATER_COUNT ∧ exLayout.MAX_HEATER_COUNT ≤ 8
    ∧ Pending 0 exStateSend
    ∧ (∃ new,
        (loopCheckHeater exLayout exSettings exAccept exTick exStateSend).sent
            = exStateSend.sent ++ new
        ∧ ∃ a, new.filter (isHeatFor 0)
              = [(Cmd.heat 0 (heatGetTargetTemp exLayout exSettings 0 exStateSend), a)]
          ∧ (a = true →
              GET_BIT (loopCheckHeater exLayout exSettings exAccept exTick
                  exStateSend).heat_send_waiting 0 = false
              ∧ GET_BIT (loopCheckHeater exLayout exSettings exAccept exTick
                  exStateSend).heat_feedback_waiting 0 = true)
          ∧ (a = false →
              GET_BIT (loopCheckHeater exLayout exSettings exAccept exTick
                  exStateSend).heat_send_waiting 0 = true
              ∧ GET_BIT (loopCheckHeater exLayout exSettings exAccept exTick
                  exStateSend).heat_feedback_waiting 0 = false))
    ∧ (heatGetTargetTemp exLayout exSettings 0 exStateSend : Int) = (exStateSend.T 0).target := by
  have hp : Pending 0 exStateSend := ⟨by decide, by decide⟩
  obtain ⟨⟨new, h1, -, h3⟩, -, -, h5, -⟩ :=
    C18_flush_step exLayout exSettings exAccept exTick exStateSend 0 (by decide) (by decide)
  exact ⟨by decide, by decide, hp, ⟨new, h1, h3 hp⟩,
    h5 (by decide) (by decide) (by decide) (by decide)⟩

/-! ## Completion events and the wait flag -/

/-- C19: in one `loopCheckHeater` tick the sounds played are the events of the
slots `0 .. MAX_HEATER_COUNT-1` in order, where slot `i` gives the heated sound
exactly when its status is HEATING and `|current - target| <= TEMPERATURE_RANGE`,
the cooled sound exactly when it is COOLING inside the band, and nothing when
it is SETTLED or outside the band, in which case it keeps its status; in the
two sounding cases the status becomes SETTLED and the wait flag ends clear.
After the tick the slot has no event left, so a second tick played right after
it adds no sound. -/
theorem C19_completion_event_once (L : Layout) (cfg : Settings) (ch ch2 : Nat → Bool)
    (tk tk2 : Tick) (s : State) (i : Nat) (hslot : i < L.MAX_HEATER_COUNT) :
    (loopCheckHeater L cfg ch tk s).played
        = s.played ++ slotEvents L s.T (List.range L.MAX_HEATER_COUNT)
    ∧ (slotEvent L (s.T i) = [SOUND.SOUND_HEATED] ↔
        (s.T i).status = HEATER_STATUS.HEATING
        ∧ |(s.T i).current - (s.T i).target| ≤ (L.TEMPERATURE_RANGE : Int))
    ∧ (slotEvent L (s.T i) = [SOUND.SOUND_COOLED] ↔
        (s.T i).status = HEATER_STATUS.COOLING
        ∧ |(s.T i).current - (s.T i).target| ≤ (L.TEMPERATURE_RANGE : Int))
    ∧ ((s.T i).status = HEATER_STATUS.SETTLED
          ∨ ¬ |(s.T i).current - (s.T i).target| ≤ (L.TEMPERATURE_RANGE : Int) →
        slotEvent L (s.T i) = []
        ∧ ((loopCheckHeater L cfg ch tk s).T i).status = (s.T i).status)
    ∧ ((s.T i).status ≠ HEATER_STATUS.SETTLED →
        |(s.T i).current - (s.T i).target| ≤ (L.TEMPERATURE_RANGE : Int) →
        ((loopCheckHeater L cfg ch tk s).T i).status = HEATER_STATUS.SETTLED
        ∧ ((loopCheckHeater L cfg ch tk s).T i).waiting = false)
    ∧ slotEvent L ((loopCheckHeater L cfg ch tk s).T i) = []
    ∧ (loopCheckHeater L cfg ch2 tk2 (loopCheckHeater L cfg ch tk s)).played
        = (loopCheckHeater L cfg ch tk s).played := by
  have hst := tick_status L cfg ch tk s i hslot
  have hw := tick_waiting L cfg ch tk s i hslot
  have hband := inRange_iff (s.T i).current (s.T i).target L.TEMPERATURE_RANGE
  have hafter : ∀ k, k < L.MAX_HEATER_COUNT →
      slotEvent L ((loopCheckHeater L cfg ch tk s).T k) = [] := fun k hk =>
    slotEvent_after L (s.T k) _ (tick_status L cfg ch tk s k hk)
      (tick_T L cfg ch tk s k).2 (tick_T L cfg ch tk s k).1
  refine ⟨tick_played L cfg ch tk s, ?_, ?_, ?_, ?_, hafter i hslot, ?_⟩
  · rw [← hband]
    unfold slotEvent
    cases hs : (s.T i).status <;>
      cases hin : inRange (s.T i).current (s.T i).target L.TEMPERATURE_RANGE <;> simp
  · rw [← hband]
    unfold slotEvent
    cases hs : (s.T i).status <;>
      cases hin : inRange (s.T i).current (s.T i).target L.TEMPERATURE_RANGE <;> simp
  · rw [← hband, hst]
    unfold slotEvent settledStatus
    cases hs : (s.T i).status <;>
      cases hin : inRange (s.T i).current (s.T i).target L.TEMPERATURE_RANGE <;> simp
  · rw [← hband, hst, hw]
    unfold settledStatus
    intro h1 h2
    rw [h2]
    cases hs : (s.T i).status <;> simp_all
  · rw [tick_played L cfg ch2 tk2, slotEvents_nil L _ _
      (fun k hk => hafter k (List.mem_range.1 hk)), List.append_nil]

/-- C19 at a concrete input: the nozzle reaches its band while HEATING; the
tick plays the heated sound once and a second tick plays nothing more. -/
theorem C19_completion_event_once_witness :
    0 < exLayout.MAX_HEATER_COUNT
    ∧ (loopCheckHeater exLayout exSettings exAccept exTick exStateReached).played
        = exStateReached.played
          ++ slotEvents exLayout exStateReached.T (List.range exLayout.MAX_HEATER_COUNT)
    ∧ (loopCheckHeater exLayout exSettings exAccept exTick
          (loopCheckHeater exLayout exSettings exAccept exTick exStateReached)).played
        = (loopCheckHeater exLayout exSettings exAccept exTick exStateReached).played :=
  ⟨by decide,
   (C19_completion_event_once exLayout exSettings exAccept exAccept exTick exTick
      exStateReached 0 (by decide)).1,
   (C19_completion_event_once exLayout exSettings exAccept exAccept exTick exTick
      exStateReached 0 (by decide)).2.2.2.2.2.2⟩

/-- C20: the code at the failing input.  With one hotend shared by three
extruders, index 2 is accepted and resolved to slot 0; `heatSetIsWaiting(2,
true)` raises the wait flag of slot 0, and `heatGetIsWaiting(2)`, which reads
slot 2 without index resolution, returns false. -/
theorem C20_wait_flag_mismatch :
    heaterIndexFix exLayout exSettings 2 = 0
    ∧ exLayout.INVALID_HEATER ≠ 0
    ∧ heatGetIsWaiting 0 (heatSetIsWaiting exLayout exSettings exAccept 2 true exState) = true
    ∧ heatGetIsWaiting 2 (heatSetIsWaiting exLayout exSettings exAccept 2 true exState)
        = false := by
  decide

end Temperature

namespace FanControl

/-! ## Bit-flag vector of the fans -/

theorem GET_BIT_SET_BIT_VALUE (n i j : Nat) (v : Bool) (hj : j < 8) :
    Temperature.GET_BIT (SET_BIT_VALUE n i v) j
      = if i = j then v else Temperature.GET_BIT n j := by
  simp only [Temperature.GET_BIT_eq_testBit, SET_BIT_VALUE]
  rw [show (256 : Nat) = 2 ^ 8 from rfl, Nat.testBit_mod_two_pow, Nat.testBit_or,
    Nat.testBit_and, Nat.testBit_xor, Temperature.testBit_one_shiftLeft,
    show (255 : Nat) = 2 ^ 8 - 1 from rfl, Nat.testBit_two_pow_sub_one]
  cases v
  · by_cases h : i = j <;> simp [hj, h]
  · rw [if_pos rfl, Temperature.testBit_one_shiftLeft]
    by_cases h : i = j <;> simp [hj, h]

/-! ## One fan of the loop -/

theorem fan_frame (ch : Nat → Bool) (i : Nat) (s : FanState) :
    (loopFan_fan ch i s).setFanSpeed = s.setFanSpeed
    ∧ (loopFan_fan ch i s).curFanSpeed = s.curFanSpeed
    ∧ (loopFan_fan ch i s).nextUpdateTime = s.nextUpdateTime := by
  unfold loopFan_fan
  split
  · simp only [storeCmd]
    split <;> exact ⟨rfl, rfl, rfl⟩
  · exact ⟨rfl, rfl, rfl⟩

theorem fan_fire (ch : Nat → Bool) (i : Nat) (s : FanState) (hd : dirty i s = true) :
    (loopFan_fan ch i s).sent
        = s.sent ++ [({ fan := i, speed := s.setFanSpeed i }, ch s.sent.length)]
    ∧ (ch s.sent.length = true →
        (loopFan_fan ch i s).needSetFanSpeed = Temperature.SET_BIT_OFF s.needSetFanSpeed i)
    ∧ (ch s.sent.length = false →
        (loopFan_fan ch i s).needSetFanSpeed = s.needSetFanSpeed) := by
  unfold dirty at hd
  unfold loopFan_fan
  simp only [hd, if_true, storeCmd]
  cases hc : ch s.sent.length <;> simp

theorem fan_skip (ch : Nat → Bool) (i : Nat) (s : FanState) (hd : dirty i s = false) :
    loopFan_fan ch i s = s := by
  unfold dirty at hd
  unfold loopFan_fan
  simp [hd]

theorem fan_other (ch : Nat → Bool) (i : Nat) (s : FanState) (r : Nat) (hr : r < 8)
    (hne : r ≠ i) :
    dirty r (loopFan_fan ch i s) = dirty r s
    ∧ ∃ new, (loopFan_fan ch i s).sent = s.sent ++ new ∧ ∀ e ∈ new, isFan r e = false := by
  cases hd : dirty i s
  · rw [fan_skip ch i s hd]
    exact ⟨rfl, [], by simp, by simp⟩
  · obtain ⟨f1, f2, f3⟩ := fan_fire ch i s hd
    have hlog : ∃ new, (loopFan_fan ch i s).sent = s.sent ++ new
        ∧ ∀ e ∈ new, isFan r e = false := by
      refine ⟨_, f1, ?_⟩
      intro e he
      simp only [List.mem_singleton] at he
      subst he
      simp [isFan, Ne.symm hne]
    cases hc : ch s.sent.length
    · unfold dirty; rw [f3 hc]; exact ⟨rfl, hlog⟩
    · unfold dirty; rw [f2 hc, Temperature.GET_BIT_SET_BIT_OFF_ne _ _ _ hr hne]
      exact ⟨rfl, hlog⟩

/-! ## The loop over the fans -/

theorem fans_nil (ch : Nat → Bool) (s : FanState) : loopFan_fans ch [] s = s := rfl

theorem fans_cons (ch : Nat → Bool) (j : Nat) (l : List Nat) (s : FanState) :
    loopFan_fans ch (j :: l) s = loopFan_fans ch l (loopFan_fan ch j s) := rfl

theorem fans_frame (ch : Nat → Bool) (l : List Nat) (s : FanState) :
    (loopFan_fans ch l s).setFanSpeed = s.setFanSpeed
    ∧ (loopFan_fans ch l s).curFanSpeed = s.curFanSpeed
    ∧ (loopFan_fans ch l s).nextUpdateTime = s.nextUpdateTime := by
  induction l generalizing s with
  | nil => exact ⟨rfl, rfl, rfl⟩
  | cons j l ih =>
    rw [fans_cons]
    obtain ⟨a1, a2, a3⟩ := ih (loopFan_fan ch j s)
    obtain ⟨b1, b2, b3⟩ := fan_frame ch j s
    exact ⟨by rw [a1, b1], by rw [a2, b2], by rw [a3, b3]⟩

theorem filter_fan_nil (r : Nat) (new : List (FanCmd × Bool))
    (h : ∀ e ∈ new, isFan r e = false) : new.filter (isFan r) = [] := by
  rw [List.filter_eq_nil_iff]
  intro e he
  simp [h e he]

/-- The loop over fans other than `i` keeps the dirty flag of `i` and logs no
command of `i`. -/
theorem fans_unvisited (ch : Nat → Bool) (l : List Nat) (s : FanState) (i : Nat) (hi : i < 8)
    (hl : i ∉ l) :
    dirty i (loopFan_fans ch l s) = dirty i s
    ∧ ∃ new, (loopFan_fans ch l s).sent = s.sent ++ new ∧ ∀ e ∈ new, isFan i e = false := by
  induction l generalizing s with
  | nil => exact ⟨rfl, [], by simp [fans_nil], by simp⟩
  | cons j l ih =>
    rw [fans_cons]
    simp only [List.mem_cons, not_or] at hl
    obtain ⟨o1, n1, o3, o4⟩ := fan_other ch j s i hi hl.1
    obtain ⟨a1, n2, a3, a4⟩ := ih (loopFan_fan ch j s) hl.2
    refine ⟨by rw [a1, o1], n1 ++ n2, by rw [a3, o3, List.append_assoc], ?_⟩
    intro e he
    rcases List.mem_append.1 he with he | he
    · exact o4 e he
    · exact a4 e he

/-- A fan that is not dirty stays so through the loop, whatever the list, and
nothing is submitted for it. -/
theorem fans_clean (ch : Nat → Bool) (l : List Nat) (s : FanState) (i : Nat) (hi : i < 8)
    (hd : dirty i s = false) :
    dirty i (loopFan_fans ch l s) = false
    ∧ ∃ new, (loopFan_fans ch l s).sent = s.sent ++ new ∧ ∀ e ∈ new, isFan i e = false := by
  induction l generalizing s with
  | nil => exact ⟨hd, [], by simp [fans_nil], by simp⟩
  | cons j l ih =>
    rw [fans_cons]
    have step : dirty i (loopFan_fan ch j s) = false
        ∧ ∃ new, (loopFan_fan ch j s).sent = s.sent ++ new
          ∧ ∀ e ∈ new, isFan i e = false := by
      by_cases hj : i = j
      · subst hj
        rw [fan_skip ch i s hd]
        exact ⟨hd, [], by simp, by simp⟩
      · obtain ⟨o1, o2⟩ := fan_other ch j s i hi hj
        exact ⟨by rw [o1]; exact hd, o2⟩
    obtain ⟨s1, n1, s3, s4⟩ := step
    obtain ⟨a1, n2, a3, a4⟩ := ih (loopFan_fan ch j s) s1
    refine ⟨a1, n1 ++ n2, by rw [a3, s3, List.append_assoc], ?_⟩
    intro e he
    rcases List.mem_append.1 he with he | he
    · exact s4 e he
    · exact a4 e he

/-- The loop over a duplicate-free list of fans containing `i`: a command of
fan `i` is attempted exactly when it is dirty, once, carrying its desired
speed; accepted, the fan ends clean; rejected, it stays dirty. -/
theorem fans_visit_once (ch : Nat → Bool) (l : List Nat) (s : FanState) (i : Nat) (hi : i < 8)
    (hnd : l.Nodup) (hl : i ∈ l) :
    ∃ new, (loopFan_fans ch l s).sent = s.sent ++ new
      ∧ (dirty i s = false →
          new.filter (isFan i) = [] ∧ dirty i (loopFan_fans ch l s) = false)
      ∧ (dirty i s = true →
          ∃ a, new.filter (isFan i) = [({ fan := i, speed := s.setFanSpeed i }, a)]
            ∧ dirty i (loopFan_fans ch l s) = !a) := by
  induction l generalizing s with
  | nil => exact absurd hl (List.not_mem_nil i)
  | cons j l ih =>
    rw [fans_cons]
    have hj : j ∉ l := (List.nodup_cons.1 hnd).1
    have hnd' : l.Nodup := (List.nodup_cons.1 hnd).2
    by_cases hij : i = j
    · subst hij
      obtain ⟨u1, n2, u3, u4⟩ := fans_unvisited ch l (loopFan_fan ch i s) i hi hj
      cases hd : dirty i s
      · have hsk := fan_skip ch i s hd
        rw [hsk] at u1 u3 ⊢
        exact ⟨n2, u3, fun _ => ⟨filter_fan_nil i n2 u4, by rw [u1]; exact hd⟩,
          fun h => Bool.noConfusion h⟩
      · obtain ⟨f1, f2, f3⟩ := fan_fire ch i s hd
        refine ⟨({ fan := i, speed := s.setFanSpeed i }, ch s.sent.length) :: n2, ?_,
          fun h => Bool.noConfusion h, fun _ => ⟨ch s.sent.length, ?_, ?_⟩⟩
        · rw [u3, f1, List.append_assoc]; rfl
        · rw [List.filter_cons_of_pos (by simp [isFan]), filter_fan_nil i n2 u4]
        · rw [u1]
          unfold dirty
          cases hc : ch s.sent.length
          · rw [f3 hc]; exact hd
          · rw [f2 hc]; exact Temperature.GET_BIT_SET_BIT_OFF_self _ _ hi
    · have hl' : i ∈ l := by
        rcases List.mem_cons.1 hl with h | h
        · exact absurd h hij
        · exact h
      obtain ⟨o1, n1, o3, o4⟩ := fan_other ch j s i hi hij
      obtain ⟨n2, a1, a2, a3⟩ := ih (loopFan_fan ch j s) hnd' hl'
      have hset : (loopFan_fan ch j s).setFanSpeed = s.setFanSpeed := (fan_frame ch j s).1
      have hfilt : (n1 ++ n2).filter (isFan i) = n2.filter (isFan i) := by
        rw [List.filter_append, filter_fan_nil i n1 o4, List.nil_append]
      refine ⟨n1 ++ n2, by rw [a1, o3, List.append_assoc], fun hd => ?_, fun hd => ?_⟩
      · obtain ⟨b1, b2⟩ := a2 (by rw [o1]; exact hd)
        exact ⟨by rw [hfilt, b1], b2⟩
      · obtain ⟨a, b1, b2⟩ := a3 (by rw [o1]; exact hd)
        exact ⟨a, by rw [hfilt, b1, hset], b2⟩

/-- When the loop logs an accepted command of fan `i`, the fan ends clean. -/
theorem fans_accepted_clean (ch : Nat → Bool) (l : List Nat) (s : FanState) (i : Nat)
    (hi : i < 8) :
    ∃ new, (loopFan_fans ch l s).sent = s.sent ++ new
      ∧ ((∃ e ∈ new, isFan i e = true ∧ e.2 = true) → dirty i (loopFan_fans ch l s) = false) := by
  induction l generalizing s with
  | nil => exact ⟨[], by simp [fans_nil], fun ⟨e, he, _⟩ => absurd he (List.not_mem_nil e)⟩
  | cons j l ih =>
    rw [fans_cons]
    obtain ⟨n2, a1, a2⟩ := ih (loopFan_fan ch j s)
    cases hd : dirty j s
    · rw [fan_skip ch j s hd] at a1 a2 ⊢
      exact ⟨n2, a1, a2⟩
    · obtain ⟨f1, f2, f3⟩ := fan_fire ch j s hd
      refine ⟨({ fan := j, speed := s.setFanSpeed j }, ch s.sent.length) :: n2, ?_, ?_⟩
      · rw [a1, f1, List.append_assoc]; rfl
      · rintro ⟨e, he, h1, h2⟩
        rcases List.mem_cons.1 he with rfl | he
        · simp only [isFan, decide_eq_true_eq] at h1
          simp only at h2
          subst h1
          have hclean : dirty j (loopFan_fan ch j s) = false := by
            unfold dirty
            rw [f2 h2]; exact Temperature.GET_BIT_SET_BIT_OFF_self _ _ hi
          exact (fans_clean ch l _ j hi hclean).1
        · exact a2 ⟨e, he, h1, h2⟩

/-! ## Fan tick dispatch -/

theorem loopFan_throttled (F : FanLayout) (ch : Nat → Bool) (now : Nat) (s : FanState)
    (h : now < s.nextUpdateTime) : loopFan F ch now s = s := by
  unfold loopFan
  rw [if_pos h]

/-- An unthrottled `loopFan` call: the loop over the fans, started from the
state with the next update time moved. -/
theorem loopFan_run (F : FanLayout) (ch : Nat → Bool) (now : Nat) (s : FanState)
    (h : ¬ now < s.nextUpdateTime) :
    ∃ s0, loopFan F ch now s = loopFan_fans ch (List.range F.MAX_FAN_COUNT) s0
      ∧ s0.sent = s.sent ∧ s0.needSetFanSpeed = s.needSetFanSpeed
      ∧ s0.setFanSpeed = s.setFanSpeed ∧ s0.curFanSpeed = s.curFanSpeed
      ∧ s0.nextUpdateTime = (now + 500) % 4294967296 := by
  refine ⟨{ s with nextUpdateTime := (now + FAN_REFRESH_TIME) % 4294967296 }, ?_, rfl, rfl,
    rfl, rfl, rfl⟩
  unfold loopFan
  rw [if_neg h]

theorem dirty_congr (i : Nat) (s s' : FanState) (h : s'.needSetFanSpeed = s.needSetFanSpeed) :
    dirty i s' = dirty i s := by
  unfold dirty
  rw [h]

/-- C12, as stated, fails: fan 0 is set to 100 after a reset and `loopFan`
dispatches it to an accepting channel; the dirty flag is cleared but the
last-dispatched speed is still 0, not 100. -/
theorem C12_counterexample :
    (loopFan exFanLayout exAccept 1000 (fanSetSpeed 0 100 exFanState)).sent
        = [({ fan := 0, speed := 100 }, true)]
    ∧ dirty 0 (loopFan exFanLayout exAccept 1000 (fanSetSpeed 0 100 exFanState)) = false
    ∧ fanGetSetSpeed 0 (loopFan exFanLayout exAccept 1000 (fanSetSpeed 0 100 exFanState)) = 100
    ∧ fanGetCurSpeed 0 (loopFan exFanLayout exAccept 1000 (fanSetSpeed 0 100 exFanState)) = 0 := by
  decide

/-- C12, amended: a `loopFan` call with `now < nextUpdateTime` returns the
state as it was.  Otherwise, for every fan `i < MAX_FAN_COUNT`, no command of
fan `i` is logged when it is not dirty, and exactly one, carrying
`fanGetSetSpeed(i)`, when it is; the fan ends clean when the channel accepts
it and dirty when it rejects it; desired and last-dispatched speeds of all
fans are unchanged in both cases, and the next update time is `now + 500`. -/
theorem C12_fan_tick_dispatch (F : FanLayout) (ch : Nat → Bool) (now : Nat) (s : FanState)
    (i : Nat) (hi : i < F.MAX_FAN_COUNT) (hF : F.MAX_FAN_COUNT ≤ 8) :
    (now < s.nextUpdateTime → loopFan F ch now s = s)
    ∧ (¬ now < s.nextUpdateTime →
        (∃ new, (loopFan F ch now s).sent = s.sent ++ new
          ∧ (dirty i s = false →
              new.filter (isFan i) = [] ∧ dirty i (loopFan F ch now s) = false)
          ∧ (dirty i s = true →
              ∃ a, new.filter (isFan i) = [({ fan := i, speed := fanGetSetSpeed i s }, a)]
                ∧ dirty i (loopFan F ch now s) = !a))
        ∧ (loopFan F ch now s).setFanSpeed = s.setFanSpeed
        ∧ (loopFan F ch now s).curFanSpeed = s.curFanSpeed
        ∧ (loopFan F ch now s).nextUpdateTime = (now + 500) % 4294967296) := by
  refine ⟨loopFan_throttled F ch now s, fun h => ?_⟩
  obtain ⟨s0, e0, e1, e2, e3, e4, e5⟩ := loopFan_run F ch now s h
  rw [e0]
  obtain ⟨f1, f2, f3⟩ := fans_frame ch (List.range F.MAX_FAN_COUNT) s0
  obtain ⟨new, v1, v2, v3⟩ := fans_visit_once ch (List.range F.MAX_FAN_COUNT) s0 i (by omega)
    (List.nodup_range _) (List.mem_range.2 hi)
  have hd := dirty_congr i s s0 e2
  rw [e1] at v1
  rw [hd] at v2 v3
  refine ⟨⟨new, v1, v2, fun h1 => ?_⟩, by rw [f1, e3], by rw [f2, e4], by rw [f3, e5]⟩
  obtain ⟨a, b1, b2⟩ := v3 h1
  refine ⟨a, ?_, b2⟩
  rw [b1, e3]
  rfl

/-- C12 at a concrete input: fan 0 is dirty with desired speed 100 and the call
is not throttled.  Exactly one command of fan 0 is logged, carrying
`fanGetSetSpeed(0)`; the channel's answer decides the dirty flag; desired and
last-dispatched speeds are as before. -/
theorem C12_fan_tick_dispatch_witness :
    0 < exFanLayout.MAX_FAN_COUNT ∧ exFanLayout.MAX_FAN_COUNT ≤ 8
    ∧ ¬ 1000 < exFanDirty.nextUpdateTime
    ∧ dirty 0 exFanDirty = true
    ∧ (∃ new, (loopFan exFanLayout exAccept 1000 exFanDirty).sent = exFanDirty.sent ++ new
        ∧ ∃ a, new.filter (isFan 0)
              = [({ fan := 0, speed := fanGetSetSpeed 0 exFanDirty }, a)]
          ∧ dirty 0 (loopFan exFanLayout exAccept 1000 exFanDirty) = !a)
    ∧ (loopFan exFanLayout exAccept 1000 exFanDirty).setFanSpeed = exFanDirty.setFanSpeed
    ∧ (loopFan exFanLayout exAccept 1000 exFanDirty).curFanSpeed = exFanDirty.curFanSpeed := by
  have hd : dirty 0 exFanDirty = true := by decide
  have hrun : ¬ 1000 < exFanDirty.nextUpdateTime := by decide
  obtain ⟨⟨new, h1, -, h3⟩, h4, h5, -⟩ :=
    (C12_fan_tick_dispatch exFanLayout exAccept 1000 exFanDirty 0 (by decide) (by decide)).2 hrun
  exact ⟨by decide, by decide, hrun, hd, ⟨new, h1, h3 hd⟩, h4, h5⟩

/-! ## The dirty flag -/

theorem dirty_fanSetSpeed (i speed j : Nat) (s : FanState) (hj : j < 8) :
    dirty j (fanSetSpeed i speed s)
      = if i = j then (s.curFanSpeed i != speed) else dirty j s := by
  unfold dirty fanSetSpeed fanGetCurSpeed
  exact GET_BIT_SET_BIT_VALUE _ _ _ _ hj

theorem fanSetSpeed_speeds (i speed : Nat) (s : FanState) :
    (fanSetSpeed i speed s).setFanSpeed i = speed
    ∧ (fanSetSpeed i speed s).curFanSpeed = s.curFanSpeed
    ∧ (fanSetSpeed i speed s).sent = s.sent
    ∧ ∀ j, j ≠ i → (fanSetSpeed i speed s).setFanSpeed j = s.setFanSpeed j := by
  unfold fanSetSpeed
  refine ⟨by simp, rfl, rfl, fun j hj => ?_⟩
  simp [Function.update, hj]

/-- C13, as stated, fails: after a reset, `fanSetSpeed(0, 100)` and one
accepted `loopFan` dispatch, fan 0 is not dirty although its desired speed 100
differs from its last-dispatched speed 0. -/
theorem C13_counterexample :
    dirty 0 (applyOps exFanLayout exFanSettings exAccept
        [FanOp.setSpeed 0 100, FanOp.loop 1000] (fanResetSpeed exFanState)) = false
    ∧ (applyOps exFanLayout exFanSettings exAccept
        [FanOp.setSpeed 0 100, FanOp.loop 1000] (fanResetSpeed exFanState)).setFanSpeed 0 = 100
    ∧ (applyOps exFanLayout exFanSettings exAccept
        [FanOp.setSpeed 0 100, FanOp.loop 1000] (fanResetSpeed exFanState)).curFanSpeed 0
        = 0 := by
  decide

/-- C13, amended: the dirty flag agrees with the comparison where the code
computes it.  After `fanResetSpeed` every fan is clean with equal speeds;
right after `fanSetSpeed(i, speed)` or `fanSetPercent(i, percent)`, for
`i < MAX_FAN_COUNT`, fan `i` is dirty exactly when `setFanSpeed[i]` differs
from `curFanSpeed[i]`, and the dirty flags of the other fans are as before. -/
theorem C13_dirty_flag (F : FanLayout) (cfg : FanSettings) (i speed percent : Nat)
    (s : FanState) (hi : i < F.MAX_FAN_COUNT) (hF : F.MAX_FAN_COUNT ≤ 8) :
    (∀ j, dirty j (fanResetSpeed s) = false
        ∧ (fanResetSpeed s).setFanSpeed j = (fanResetSpeed s).curFanSpeed j)
    ∧ (dirty i (fanSetSpeed i speed s) = true ↔
        (fanSetSpeed i speed s).setFanSpeed i ≠ (fanSetSpeed i speed s).curFanSpeed i)
    ∧ (dirty i (fanSetPercent cfg i percent s) = true ↔
        (fanSetPercent cfg i percent s).setFanSpeed i
          ≠ (fanSetPercent cfg i percent s).curFanSpeed i)
    ∧ (∀ j, j < F.MAX_FAN_COUNT → j ≠ i →
        dirty j (fanSetSpeed i speed s) = dirty j s
        ∧ dirty j (fanSetPercent cfg i percent s) = dirty j s) := by
  have hi8 : i < 8 := by omega
  have key : ∀ v, (dirty i (fanSetSpeed i v s) = true ↔
      (fanSetSpeed i v s).setFanSpeed i ≠ (fanSetSpeed i v s).curFanSpeed i) := by
    intro v
    obtain ⟨a1, a2, -⟩ := fanSetSpeed_speeds i v s
    rw [dirty_fanSetSpeed i v i s hi8, if_pos rfl, a1, a2]
    simp only [bne_iff_ne, ne_eq]
    exact ⟨fun h e => h e.symm, fun h e => h e.symm⟩
  refine ⟨fun j => ⟨?_, rfl⟩, key speed, key _, fun j hj hne => ?_⟩
  · unfold dirty fanResetSpeed
    simp [Temperature.GET_BIT]
  · have hne' : ¬ i = j := fun e => hne e.symm
    unfold fanSetPercent
    rw [dirty_fanSetSpeed i speed j s (by omega), dirty_fanSetSpeed i _ j s (by omega),
      if_neg hne', if_neg hne']
    exact ⟨rfl, rfl⟩

/-- C13 at a concrete input: fan 0 set to 100 after a reset is dirty. -/
theorem C13_dirty_flag_witness :
    0 < exFanLayout.MAX_FAN_COUNT ∧ exFanLayout.MAX_FAN_COUNT ≤ 8
    ∧ (dirty 0 (fanSetSpeed 0 100 exFanState) = true ↔
        (fanSetSpeed 0 100 exFanState).setFanSpeed 0
          ≠ (fanSetSpeed 0 100 exFanState).curFanSpeed 0) :=
  ⟨by decide, by decide,
   (C13_dirty_flag exFanLayout exFanSettings 0 100 50 exFanState (by decide) (by decide)).2.1⟩

/-! ## Idempotent dispatch -/

/-- A call that is not a desired-speed write for fan `i` keeps a clean fan `i`
clean and logs no command of it. -/
theorem applyOp_clean (F : FanLayout) (cfg : FanSettings) (ch : Nat → Bool) (op : FanOp)
    (s : FanState) (i : Nat) (hi : i < 8) (hd : dirty i s = false)
    (hop : setsFan i op = false) :
    dirty i (applyOp F cfg ch s op) = false
    ∧ ∃ new, (applyOp F cfg ch s op).sent = s.sent ++ new ∧ ∀ e ∈ new, isFan i e = false := by
  cases op with
  | reset =>
    refine ⟨?_, [], by simp [applyOp, fanResetSpeed], by simp⟩
    simp [applyOp, dirty, fanResetSpeed, Temperature.GET_BIT]
  | setSpeed j speed =>
    have hne : ¬ j = i := by simpa [setsFan] using hop
    refine ⟨?_, [], by simp [applyOp, (fanSetSpeed_speeds j speed s).2.2.1], by simp⟩
    simp only [applyOp]
    rw [dirty_fanSetSpeed j speed i s hi, if_neg hne]; exact hd
  | setPercent j percent =>
    have hne : ¬ j = i := by simpa [setsFan] using hop
    refine ⟨?_, [], by simp [applyOp, fanSetPercent, (fanSetSpeed_speeds j _ s).2.2.1],
      by simp⟩
    simp only [applyOp, fanSetPercent]
    rw [dirty_fanSetSpeed j _ i s hi, if_neg hne]; exact hd
  | setCurSpeed j speed =>
    exact ⟨hd, [], by simp [applyOp, fanSetCurSpeed], by simp⟩
  | setCurPercent j percent =>
    exact ⟨hd, [], by simp [applyOp, fanSetCurPercent], by simp⟩
  | loop now =>
    simp only [applyOp]
    by_cases h : now < s.nextUpdateTime
    · rw [loopFan_throttled F ch now s h]
      exact ⟨hd, [], by simp, by simp⟩
    · obtain ⟨s0, e0, e1, e2, -⟩ := loopFan_run F ch now s h
      rw [e0]
      obtain ⟨a1, new, a2, a3⟩ := fans_clean ch (List.range F.MAX_FAN_COUNT) s0 i hi
        (by rw [dirty_congr i s s0 e2]; exact hd)
      exact ⟨a1, new, by rw [a2, e1], a3⟩

theorem applyOps_clean (F : FanLayout) (cfg : FanSettings) (ch : Nat → Bool) (ops : List FanOp)
    (s : FanState) (i : Nat) (hi : i < 8) (hd : dirty i s = false)
    (hops : ∀ op ∈ ops, setsFan i op = false) :
    dirty i (applyOps F cfg ch ops s) = false
    ∧ ∃ new, (applyOps F cfg ch ops s).sent = s.sent ++ new
        ∧ ∀ e ∈ new, isFan i e = false := by
  induction ops generalizing s with
  | nil => exact ⟨hd, [], by simp [applyOps], by simp⟩
  | cons op ops ih =>
    obtain ⟨a1, n1, a2, a3⟩ := applyOp_clean F cfg ch op s i hi hd
      (hops op (List.mem_cons_self op ops))
    obtain ⟨b1, n2, b2, b3⟩ := ih (applyOp F cfg ch s op) a1
      (fun o ho => hops o (List.mem_cons_of_mem op ho))
    have hstep : applyOps F cfg ch (op :: ops) s = applyOps F cfg ch ops (applyOp F cfg ch s op) :=
      rfl
    rw [hstep]
    refine ⟨b1, n1 ++ n2, by rw [b2, a2, List.append_assoc], ?_⟩
    intro e he
    rcases List.mem_append.1 he with he | he
    · exact a3 e he
    · exact b3 e he

/-- A `loopFan` call that logs an accepted command of fan `i` leaves it clean. -/
theorem loopFan_accepted_clean (F : FanLayout) (ch : Nat → Bool) (now : Nat) (s : FanState)
    (i : Nat) (hi : i < 8)
    (hacc : ∃ e ∈ (loopFan F ch now s).sent.drop s.sent.length, isFan i e = true ∧ e.2 = true) :
    dirty i (loopFan F ch now s) = false := by
  by_cases h : now < s.nextUpdateTime
  · rw [loopFan_throttled F ch now s h] at hacc
    obtain ⟨e, he, -⟩ := hacc
    simp at he
  · obtain ⟨s0, e0, e1, -⟩ := loopFan_run F ch now s h
    rw [e0] at hacc ⊢
    obtain ⟨new, a1, a2⟩ := fans_accepted_clean ch (List.range F.MAX_FAN_COUNT) s0 i hi
    apply a2
    rw [a1, e1, List.drop_left] at hacc
    exact hacc

/-- C14: idempotent fan dispatch.  Once a `loopFan` call has logged an accepted
command of fan `i < MAX_FAN_COUNT`, any sequence of later calls (resets,
writes of the last-dispatched speed, writes for other fans, `loopFan` calls at
any time) that contains no `fanSetSpeed` or `fanSetPercent` for fan `i` logs
no command of fan `i`, whatever the channel answers, and leaves fan `i`
clean. -/
theorem C14_idempotent_dispatch (F : FanLayout) (cfg : FanSettings) (ch : Nat → Bool)
    (now : Nat) (s : FanState) (i : Nat) (ops : List FanOp)
    (hi : i < F.MAX_FAN_COUNT) (hF : F.MAX_FAN_COUNT ≤ 8)
    (hacc : ∃ e ∈ (loopFan F ch now s).sent.drop s.sent.length, isFan i e = true ∧ e.2 = true)
    (hops : ∀ op ∈ ops, setsFan i op = false) :
    dirty i (applyOps F cfg ch ops (loopFan F ch now s)) = false
    ∧ ∃ new, (applyOps F cfg ch ops (loopFan F ch now s)).sent
          = (loopFan F ch now s).sent ++ new
        ∧ ∀ e ∈ new, isFan i e = false := by
  have hi8 : i < 8 := by omega
  have hclean := loopFan_accepted_clean F ch now s i hi8 hacc
  exact applyOps_clean F cfg ch ops (loopFan F ch now s) i hi8 hclean hops

/-- C14 at a concrete input: fan 0 is set to 100 and dispatched at time 1000;
a report of the speed, a write for fan 1 and two more `loopFan` calls log
nothing for fan 0. -/
theorem C14_idempotent_dispatch_witness :
    (∃ e ∈ (loopFan exFanLayout exAccept 1000 (fanSetSpeed 0 100 exFanState)).sent.drop
        (fanSetSpeed 0 100 exFanState).sent.length, isFan 0 e = true ∧ e.2 = true)
    ∧ dirty 0 (applyOps exFanLayout exFanSettings exAccept
        [FanOp.setCurSpeed 0 90, FanOp.loop 1600, FanOp.setSpeed 1 30, FanOp.loop 2200]
        (loopFan exFanLayout exAccept 1000 (fanSetSpeed 0 100 exFanState))) = false :=
  ⟨⟨({ fan := 0, speed := 100 }, true), by decide, by decide⟩,
   (C14_idempotent_dispatch exFanLayout exFanSettings exAccept 1000
      (fanSetSpeed 0 100 exFanState) 0
      [FanOp.setCurSpeed 0 90, FanOp.loop 1600, FanOp.setSpeed 1 30, FanOp.loop 2200]
      (by decide) (by decide)
      ⟨({ fan := 0, speed := 100 }, true), by decide, by decide⟩
      (by decide)).1⟩

/-! ## Percent conversions -/

theorem percentToSpeed_eq (cfg : FanSettings) (i percent : Nat) (hm : cfg.fan_max i ≤ 255) :
    percentToSpeed cfg i percent = min percent 100 * cfg.fan_max i / 100 := by
  have e1 : Temperature.NOBEYOND 0 (percent : Int) 100 = ((min percent 100 : Nat) : Int) := by
    unfold Temperature.NOBEYOND
    push_cast
    omega
  have hle : min percent 100 * cfg.fan_max i / 100 ≤ cfg.fan_max i := by
    apply Nat.div_le_of_le_mul
    apply Nat.mul_le_mul_right
    omega
  unfold percentToSpeed
  rw [e1]
  have e2 : ((min percent 100 : Nat) : Int) * (cfg.fan_max i : Int) / 100 % 256
      = ((min percent 100 * cfg.fan_max i / 100 % 256 : Nat) : Int) := by
    push_cast
    rfl
  rw [e2, Int.toNat_ofNat, Nat.mod_eq_of_lt (by omega)]

set_option maxRecDepth 100000 in
/-- The single-precision expression of `fanGetSetPercent` for a maximum of 255
gives the nearest integer to `speed * 100 / 255`. -/
theorem speedToPercent_255 (cfg : FanSettings) (i speed : Nat) (hm : cfg.fan_max i = 255)
    (hs : speed ≤ 255) : speedToPercent cfg i speed = (speed * 200 + 255) / 510 := by
  unfold speedToPercent
  rw [hm]
  interval_cases speed <;> decide

/-- C15, as stated, fails: with maximum 255, `fanSetPercent(0, 50)` gives the
desired speed 127, not 128. -/
theorem C15_counterexample :
    exFanSettings.fan_max 0 = 255
    ∧ fanGetSetSpeed 0 (fanSetPercent exFanSettings 0 50 exFanState) = 127 := by
  decide

/-- C15, amended: for a fan with configured maximum `m <= 255` and every
percent `p`, after `fanSetPercent(i, p)` the desired speed `fanGetSetSpeed(i)`
is `min(p, 100) * m / 100` rounded down (integer division). -/
theorem C15_percent_to_speed (cfg : FanSettings) (i percent : Nat) (s : FanState)
    (hm : cfg.fan_max i ≤ 255) :
    fanGetSetSpeed i (fanSetPercent cfg i percent s) = min percent 100 * cfg.fan_max i / 100 := by
  unfold fanGetSetSpeed fanSetPercent
  rw [(fanSetSpeed_speeds i _ s).1]
  exact percentToSpeed_eq cfg i percent hm

/-- C15 (amended) at the input of the specification: maximum 255, 50 percent. -/
theorem C15_percent_to_speed_witness :
    exFanSettings.fan_max 0 ≤ 255
    ∧ fanGetSetSpeed 0 (fanSetPercent exFanSettings 0 50 exFanState)
        = min 50 100 * exFanSettings.fan_max 0 / 100 :=
  ⟨by decide, C15_percent_to_speed exFanSettings 0 50 exFanState (by decide)⟩

/-- C16: percent round trip.  For a fan with configured maximum 255 and a
percent `p <= 100`, `fanSetPercent(i, p)` followed by `fanGetSetPercent(i)`
returns `q` with `|q - p| <= 1` (in fact `q = p`); and `fanGetSetPercent`
returns the nearest integer to `desired * 100 / 255` for every desired speed
up to 255. -/
theorem C16_percent_round_trip (cfg : FanSettings) (i percent : Nat) (s : FanState)
    (hm : cfg.fan_max i = 255) (hp : percent ≤ 100) :
    fanGetSetPercent cfg i (fanSetPercent cfg i percent s) ≤ percent + 1
    ∧ percent ≤ fanGetSetPercent cfg i (fanSetPercent cfg i percent s) + 1
    ∧ fanGetSetPercent cfg i (fanSetPercent cfg i percent s) = percent
    ∧ ∀ speed, speed ≤ 255 →
        fanGetSetPercent cfg i (fanSetSpeed i speed s) = (speed * 200 + 255) / 510 := by
  have hq : fanGetSetPercent cfg i (fanSetPercent cfg i percent s) = percent := by
    unfold fanGetSetPercent fanSetPercent
    rw [(fanSetSpeed_speeds i _ s).1, percentToSpeed_eq cfg i percent (by omega), hm,
      speedToPercent_255 cfg i _ hm (by omega)]
    omega
  refine ⟨by omega, by omega, hq, fun speed hs => ?_⟩
  unfold fanGetSetPercent
  rw [(fanSetSpeed_speeds i _ s).1]
  exact speedToPercent_255 cfg i speed hm hs

/-- C16 at the input of the specification: maximum 255, 50 percent. -/
theorem C16_percent_round_trip_witness :
    exFanSettings.fan_max 0 = 255
    ∧ fanGetSetPercent exFanSettings 0 (fanSetPercent exFanSettings 0 50 exFanState) ≤ 50 + 1
    ∧ 50 ≤ fanGetSetPercent exFanSettings 0 (fanSetPercent exFanSettings 0 50 exFanState) + 1 :=
  ⟨by decide,
   (C16_percent_round_trip exFanSettings 0 50 exFanState (by decide) (by decide)).1,
   (C16_percent_round_trip exFanSettings 0 50 exFanState (by decide) (by decide)).2.1⟩

end FanControl
